import Mathlib

/-!
Swoole, `src/protocol/http.cc`: request framing.

A shallow embedding of the HTTP request parser of `src/protocol/http.cc`.

* A byte is a natural number (`0 .. 255`), a buffer (`swString`) is the list of
  its `length` valid bytes together with the parser cursor `offset`.
* A `char *` into the buffer is the index of the byte it points at; where the
  code walks a pointer `p` up to `pe`, the bytes of `[p, pe)` are the list that
  is left to scan.
* Every function returns its `int` result together with the request it leaves
  behind.
-/

namespace SwooleHttp

/-! ## Bytes and libc helpers -/

/-- The bytes of a string literal of the source (without the final NUL). -/
def bytes (s : String) : List Nat := s.toList.map Char.toNat

/-- The libc `isspace` in the C locale: space, `\t`, `\n`, `\v`, `\f`, `\r`. -/
def isspace (c : Nat) : Bool := c == 32 || (9 ≤ c && c ≤ 13)

/-- The libc `isdigit`. -/
def isdigit (c : Nat) : Bool := 48 ≤ c && c ≤ 57

/-- The libc `tolower` in the C locale. -/
def tolower (c : Nat) : Nat := if 65 ≤ c ∧ c ≤ 90 then c + 32 else c

/-- The test `memcmp(p, lit, n) == 0`, where `p` is the list of the bytes from
the pointer to the end of the buffer. Bytes past the end of the buffer never
compare equal: where fewer than `n` bytes are left and all of them agree with
`lit`, the code reads on past the end of the buffer and its result depends on
what lies there, which the list does not hold. The definition follows the code
wherever the `n` bytes lie inside the buffer or a difference does. -/
def memcmp_eq (p : List Nat) (lit : List Nat) (n : Nat) : Bool :=
  p.take n == lit.take n

/-- The bytes `[p, p + n)` of a buffer. -/
def slice (str : List Nat) (p n : Nat) : List Nat := (str.drop p).take n

/-- Equality of two byte strings up to the case of ASCII letters, the
comparison `strncasecmp` makes byte by byte. -/
def ciEq (a b : List Nat) : Prop := a.map tolower = b.map tolower

instance (a b : List Nat) : Decidable (ciEq a b) := by
  unfold ciEq; infer_instance

/-! ## Constants of `http.h` and `http2.h` -/

def SW_OK : Int := 0
def SW_ERR : Int := -1

/-- Modelled from the spec: the enumeration `swHttp_method` of `http.h` numbers
the verbs by their 1-based position in the ordered verb list (`method_strings`),
as `swHttp_get_method` returns them (`i + 1`). -/
def SW_HTTP_DELETE : Nat := 1
def SW_HTTP_GET : Nat := 2
def SW_HTTP_HEAD : Nat := 3
def SW_HTTP_POST : Nat := 4
def SW_HTTP_PUT : Nat := 5
def SW_HTTP_PATCH : Nat := 6
def SW_HTTP_CONNECT : Nat := 7
def SW_HTTP_OPTIONS : Nat := 8
def SW_HTTP_TRACE : Nat := 9
def SW_HTTP_COPY : Nat := 10
def SW_HTTP_LOCK : Nat := 11
def SW_HTTP_MKCOL : Nat := 12
def SW_HTTP_MOVE : Nat := 13
def SW_HTTP_PROPFIND : Nat := 14
def SW_HTTP_PROPPATCH : Nat := 15
def SW_HTTP_UNLOCK : Nat := 16
def SW_HTTP_REPORT : Nat := 17
def SW_HTTP_MKACTIVITY : Nat := 18
def SW_HTTP_CHECKOUT : Nat := 19
def SW_HTTP_MERGE : Nat := 20
def SW_HTTP_MSEARCH : Nat := 21
def SW_HTTP_NOTIFY : Nat := 22
def SW_HTTP_SUBSCRIBE : Nat := 23
def SW_HTTP_UNSUBSCRIBE : Nat := 24
def SW_HTTP_PURGE : Nat := 25
def SW_HTTP_PRI : Nat := 26

/-- Modelled from the spec: the enumeration of HTTP versions of `http.h`
(`HTTP/1.0`, `HTTP/1.1`); only that the two codes differ matters. -/
def SW_HTTP_VERSION_10 : Nat := 1
def SW_HTTP_VERSION_11 : Nat := 2

/-- Modelled from the spec: the HTTP/2 connection preface of `http2.h`,
24 bytes. -/
def SW_HTTP2_PRI_STRING : List Nat := bytes "PRI * HTTP/2.0\r\n\r\nSM\r\n\r\n"

/-- The table `method_strings`. -/
def method_strings : List (List Nat) :=
  [bytes "DELETE", bytes "GET", bytes "HEAD", bytes "POST", bytes "PUT", bytes "PATCH",
   bytes "CONNECT", bytes "OPTIONS", bytes "TRACE", bytes "COPY", bytes "LOCK", bytes "MKCOL",
   bytes "MOVE", bytes "PROPFIND", bytes "PROPPATCH", bytes "UNLOCK", bytes "REPORT",
   bytes "MKACTIVITY", bytes "CHECKOUT", bytes "MERGE", bytes "M-SEARCH", bytes "NOTIFY",
   bytes "SUBSCRIBE", bytes "UNSUBSCRIBE", bytes "PURGE", bytes "PRI"]

/-! ## `swHttp_get_method` -/

/-- Modelled from the spec: the inline helper `swoole_strcaseeq` of `swoole.h`
is not among the sources. After its name and its use it holds when the two
lengths are equal and `strncasecmp` finds no difference in the first `len1`
bytes, that is when the bytes agree up to the case of ASCII letters (the
literals it is called with hold no NUL byte). -/
def swoole_strcaseeq (str1 : List Nat) (len1 : Nat) (str2 : List Nat) (len2 : Nat) : Bool :=
  len1 == len2 && decide (ciEq (str1.take len1) (str2.take len1))

/-- The function `swHttp_get_method`: the loop `for (; i < SW_HTTP_PRI; i++)`
returns `i + 1` at the first entry that matches and `-1` when none does. -/
def swHttp_get_method (method_str : List Nat) (method_len : Nat) : Int :=
  match (List.range SW_HTTP_PRI).find? (fun i =>
      swoole_strcaseeq (method_strings.getD i []) (method_strings.getD i []).length
        method_str method_len) with
  | some i => (i : Int) + 1
  | none => -1

/-! ## `swHttp_get_method_string` -/

/-- What `swHttp_get_method_string` returns: `NULL`, an entry of
`method_strings`, or what a read at an index outside the table gives. -/
inductive MethodString where
  | null : MethodString
  | entry (verb : List Nat) : MethodString
  | outside (index : Int) : MethodString
deriving DecidableEq, Repr

/-- The read `method_strings[i]` of the 26-entry table. -/
def method_strings_at (i : Int) : MethodString :=
  if 0 ≤ i ∧ i < 26 then MethodString.entry (method_strings.getD i.toNat [])
  else MethodString.outside i

/-- The function `swHttp_get_method_string`. -/
def swHttp_get_method_string (method : Int) : MethodString :=
  if method < 0 || method > (SW_HTTP_PRI : Int) then MethodString.null
  else method_strings_at (method - 1)

/-! ## Data model -/

/-- The buffer `swString`: `str` holds the `length` valid bytes, `offset` is the
parser cursor. -/
structure swString where
  str : List Nat
  offset : Nat
deriving DecidableEq, Repr

/-- The field `length` of a `swString`. -/
def swString.length (b : swString) : Nat := b.str.length

/-- The per-connection parse state `swHttpRequest`. -/
structure swHttpRequest where
  method : Nat
  offset : Nat
  version : Nat
  excepted : Bool
  keep_alive : Bool
  url_offset : Nat
  url_length : Nat
  header_length : Nat
  content_length : Int
  buffer : swString
deriving DecidableEq, Repr

/-! ## `swHttpRequest_get_protocol` -/

/-- The label `_excepted` of `swHttpRequest_get_protocol`. -/
def get_protocol_excepted (request : swHttpRequest) : Int × swHttpRequest :=
  (SW_ERR, { request with excepted := true })

/-- The label `_end` of `swHttpRequest_get_protocol`, entered with the
pointer `p`. -/
def get_protocol_end (request : swHttpRequest) (p : Nat) : Int × swHttpRequest :=
  (SW_OK, { request with buffer := { request.buffer with offset := p + 8 } })

/-- The `for (p = buf; p < pe; p++)` loop of `swHttpRequest_get_protocol`:
`state` is the local of that name, `p` the index the pointer is at, and the
list holds the bytes of `[p, pe)`. When the bytes run out the loop ends and
control falls through to `_end`. -/
def get_protocol_scan (request : swHttpRequest) (state : Nat) (p : Nat) :
    List Nat → Int × swHttpRequest
  | [] => get_protocol_end request p
  | c :: rest =>
    match state with
    | 0 =>
      if isspace c then get_protocol_scan request 0 (p + 1) rest
      else get_protocol_scan { request with url_offset := p } 1 (p + 1) rest
    | 1 =>
      if isspace c then
        get_protocol_scan { request with url_length := p - request.url_offset } 2 (p + 1) rest
      else get_protocol_scan request 1 (p + 1) rest
    | 2 =>
      if isspace c then get_protocol_scan request 2 (p + 1) rest
      else if (c :: rest).length < 8 then (SW_ERR, request)
      else if memcmp_eq (c :: rest) (bytes "HTTP/1.1") 8 then
        get_protocol_end { request with version := SW_HTTP_VERSION_11 } p
      else if memcmp_eq (c :: rest) (bytes "HTTP/1.0") 8 then
        get_protocol_end { request with version := SW_HTTP_VERSION_10 } p
      else get_protocol_excepted request
    | _ => get_protocol_scan request state (p + 1) rest

/-- What follows a matched verb in `swHttpRequest_get_protocol`: the method and
`request->offset` are stored and the scan starts right after the verb. -/
def get_protocol_verb (request : swHttpRequest) (method n : Nat) : Int × swHttpRequest :=
  get_protocol_scan { request with method := method, offset := n } 0 n (request.buffer.str.drop n)

/-- The function `swHttpRequest_get_protocol`; `SW_USE_HTTP2` tells whether the
HTTP/2 branch is compiled in. -/
def swHttpRequest_get_protocol (SW_USE_HTTP2 : Bool) (request : swHttpRequest) :
    Int × swHttpRequest :=
  let buf := request.buffer.str
  if request.buffer.length < 16 then (SW_ERR, request)
  else if memcmp_eq buf (bytes "GET") 3 then get_protocol_verb request SW_HTTP_GET 3
  else if memcmp_eq buf (bytes "POST") 4 then get_protocol_verb request SW_HTTP_POST 4
  else if memcmp_eq buf (bytes "PUT") 3 then get_protocol_verb request SW_HTTP_PUT 3
  else if memcmp_eq buf (bytes "PATCH") 5 then get_protocol_verb request SW_HTTP_PATCH 5
  else if memcmp_eq buf (bytes "DELETE") 6 then get_protocol_verb request SW_HTTP_DELETE 6
  else if memcmp_eq buf (bytes "HEAD") 4 then get_protocol_verb request SW_HTTP_HEAD 4
  else if memcmp_eq buf (bytes "OPTIONS") 7 then get_protocol_verb request SW_HTTP_OPTIONS 7
  else if memcmp_eq buf (bytes "COPY") 4 then get_protocol_verb request SW_HTTP_COPY 4
  else if memcmp_eq buf (bytes "LOCK") 4 then get_protocol_verb request SW_HTTP_LOCK 4
  else if memcmp_eq buf (bytes "MKCOL") 5 then get_protocol_verb request SW_HTTP_MKCOL 5
  else if memcmp_eq buf (bytes "MOVE") 4 then get_protocol_verb request SW_HTTP_MOVE 4
  else if memcmp_eq buf (bytes "PROPFIND") 8 then get_protocol_verb request SW_HTTP_PROPFIND 8
  else if memcmp_eq buf (bytes "PROPPATCH") 9 then get_protocol_verb request SW_HTTP_PROPPATCH 9
  else if memcmp_eq buf (bytes "UNLOCK") 6 then get_protocol_verb request SW_HTTP_UNLOCK 6
  else if memcmp_eq buf (bytes "REPORT") 6 then get_protocol_verb request SW_HTTP_REPORT 6
  else if memcmp_eq buf (bytes "PURGE") 5 then get_protocol_verb request SW_HTTP_PURGE 5
  else if SW_USE_HTTP2 && memcmp_eq buf (bytes "PRI") 3 then
    let request := { request with method := SW_HTTP_PRI }
    if memcmp_eq buf SW_HTTP2_PRI_STRING 24 then
      (SW_OK, { request with buffer := { request.buffer with offset := 24 } })
    else get_protocol_excepted request
  else get_protocol_excepted request

/-! ## `swHttpRequest_get_header_length` -/

/-- The conversion of an integer value to the C type `int` (32 bits, two's
complement). -/
def to_int (z : Int) : Int := (z + 2 ^ 31) % 2 ^ 32 - 2 ^ 31

/-- The `for (p = buf; p < pe; p++)` loop of `swHttpRequest_get_header_length`:
`p` is the index the pointer is at and the list holds the bytes of `[p, pe)`,
so that `p + 4 <= pe` says that at least 4 bytes are left. -/
def get_header_length_scan (request : swHttpRequest) (p : Nat) :
    List Nat → Int × swHttpRequest
  | [] => (SW_ERR, request)
  | c :: rest =>
    if c == 13 && decide (4 ≤ (c :: rest).length)
        && memcmp_eq (c :: rest) (bytes "\r\n\r\n") 4 then
      (SW_OK, { request with header_length := p + 4 })
    else get_header_length_scan request (p + 1) rest

/-- The function `swHttpRequest_get_header_length`. The local `len` is an
`int`; the loop runs over the `len` bytes that start at `buffer.offset`. -/
def swHttpRequest_get_header_length (request : swHttpRequest) : Int × swHttpRequest :=
  let buffer := request.buffer
  let len : Int := to_int ((buffer.length : Int) - (buffer.offset : Int))
  get_header_length_scan request buffer.offset ((buffer.str.drop buffer.offset).take len.toNat)

/-! ## `swHttpRequest_get_header_info` -/

/-- The byte `*p` of the memory `str` at index `p`. -/
def byte_at (str : List Nat) (p : Nat) : Nat := str.getD p 0

/-- The pointer difference `pe - p` as it is passed for a `size_t` parameter. -/
def ptrdiff_size (pe p : Nat) : Nat := if p ≤ pe then pe - p else 2 ^ 64 - (p - pe)

/-- Modelled from the spec: the macro `SW_STRCASECT(pstr, plen, const_str)` of
`swoole.h` is not among the sources. It holds when at least
`strlen(const_str)` bytes are available (`plen`) and `strncasecmp` finds no
difference in them, that is when the text at `pstr` begins with `const_str` up
to the case of ASCII letters (the literals hold no NUL byte). `pstr` is the
list of the bytes from the pointer on. -/
def SW_STRCASECT (pstr : List Nat) (plen : Nat) (const_str : List Nat) : Bool :=
  decide (const_str.length ≤ plen) && decide (ciEq (pstr.take const_str.length) const_str)

/-- The digit loop of `atoi`. -/
def atoi_digits : List Nat → Nat → Nat
  | [], acc => acc
  | c :: rest, acc => if isdigit c then atoi_digits rest (acc * 10 + (c - 48)) else acc

/-- The libc `atoi` as glibc has it, `(int) strtol(nptr, NULL, 10)`: leading
whitespace is skipped, one sign is read, the digits are accumulated, the value
is clamped to the range of `long` and converted to `int`. Reading stops at the
first byte that is no digit, at the NUL byte at the latest. -/
def atoi (nptr : List Nat) : Int :=
  let v : Int :=
    match nptr.dropWhile isspace with
    | [] => 0
    | c :: rest =>
      if c == 45 then - (atoi_digits rest 0 : Int)
      else if c == 43 then (atoi_digits rest 0 : Int)
      else (atoi_digits (c :: rest) 0 : Int)
  to_int (max (-(2 ^ 63)) (min (2 ^ 63 - 1) v))

/-- The statement `if (*p == ' ') p++;`: the new `p`. -/
def skip_space (str : List Nat) (p : Nat) : Nat := if byte_at str p == 32 then p + 1 else p

/-- One pass through the body of the `for` loop of
`swHttpRequest_get_header_info`, entered at `p < pe`, followed by the `p++` of
the loop: the new `p`, the request and `got_len`. -/
def get_header_info_body (str : List Nat) (pe p : Nat) (request : swHttpRequest)
    (got_len : Bool) : Nat × swHttpRequest × Bool :=
  if byte_at str p == 10 && byte_at str (p - 1) == 13 then
    let p := p + 1
    if SW_STRCASECT (str.drop p) (ptrdiff_size pe p) (bytes "Content-Length:") then
      let p := skip_space str (p + 15)
      (p + 1, { request with content_length := atoi (str.drop p) }, true)
    else if SW_STRCASECT (str.drop p) (ptrdiff_size pe p) (bytes "Connection:") then
      let p := skip_space str (p + 11)
      if SW_STRCASECT (str.drop p) (ptrdiff_size pe p) (bytes "keep-alive") then
        (p + 1, { request with keep_alive := true }, got_len)
      else (p + 1, request, got_len)
    else (p + 1, request, got_len)
  else (p + 1, request, got_len)

/-- The `for (p = buf + 1; p < pe; p++)` loop of
`swHttpRequest_get_header_info` on the memory `str`. Every pass moves `p`
forward, so `pe - p` passes of fuel are enough. -/
def get_header_info_loop (str : List Nat) (pe : Nat) :
    Nat → Nat → swHttpRequest → Bool → swHttpRequest × Bool
  | 0, _, request, got_len => (request, got_len)
  | fuel + 1, p, request, got_len =>
    if p < pe then
      let next := get_header_info_body str pe p request got_len
      get_header_info_loop str pe fuel next.1 next.2.1 next.2.2
    else (request, got_len)

/-- The function `swHttpRequest_get_header_info`: the byte at `pe` is set to
NUL while the loop runs and to `\r` afterwards. The index `pe` is
`header_length - 4` in the natural numbers: the definition follows the code for
`header_length >= 4` (what header-length detection leaves); below that the
code's `pe` points before the buffer. -/
def swHttpRequest_get_header_info (request : swHttpRequest) : Int × swHttpRequest :=
  let buffer := request.buffer
  let buf := buffer.offset
  let pe := request.header_length - 4
  let str := buffer.str.set pe 0
  let out := get_header_info_loop str pe (pe - buf) (buf + 1) request false
  let request := { out.1 with buffer := { out.1.buffer with str := str.set pe 13 } }
  (if out.2 then SW_OK else SW_ERR, request)

/-! ## Percent codec: `sw_htoi`, `swHttp_url_decode`, `swHttp_url_encode` -/

/-- The libc `isupper` in the C locale. -/
def isupper (c : Nat) : Bool := 65 ≤ c && c ≤ 90

/-- The libc `isxdigit`. -/
def isxdigit (c : Nat) : Bool := isdigit c || (97 ≤ c && c ≤ 102) || (65 ≤ c && c ≤ 70)

/-- The function `sw_htoi` on the two bytes of `mem` at index `s`. -/
def sw_htoi (mem : List Nat) (s : Nat) : Int :=
  let c := byte_at mem s
  let c := if isupper c then tolower c else c
  let value : Int := (if 48 ≤ c ∧ c ≤ 57 then (c : Int) - 48 else (c : Int) - 97 + 10) * 16
  let c := byte_at mem (s + 1)
  let c := if isupper c then tolower c else c
  value + (if 48 ≤ c ∧ c ≤ 57 then (c : Int) - 48 else (c : Int) - 97 + 10)

/-- The byte an `int` leaves in a `char`. -/
def to_byte (z : Int) : Nat := (z % 256).toNat

/-- The loop `while (len--)` of `swHttp_url_decode`, in place on the memory
`mem`: `data` and `dest` are the indices the two pointers are at, `len` the
count that is left. When the loop ends, NUL is stored at `dest` and `dest` is
returned. Every pass takes at least one from `len`, so `len` passes of fuel are
enough. The buffer is the caller's: `mem` is the part of it that the embedding
follows, and a store at an index outside `mem` (the final NUL when `mem` has
exactly `len` bytes and nothing was decoded) is not recorded. -/
def url_decode_loop : Nat → List Nat → Nat → Nat → Nat → List Nat × Nat
  | 0, mem, _, dest, _ => (mem.set dest 0, dest)
  | fuel + 1, mem, data, dest, len =>
    if len = 0 then (mem.set dest 0, dest)
    else
      let len := len - 1
      if byte_at mem data == 43 then
        url_decode_loop fuel (mem.set dest 32) (data + 1) (dest + 1) len
      else if byte_at mem data == 37 && decide (2 ≤ len) && isxdigit (byte_at mem (data + 1))
          && isxdigit (byte_at mem (data + 2)) then
        url_decode_loop fuel (mem.set dest (to_byte (sw_htoi mem (data + 1)))) (data + 2 + 1)
          (dest + 1) (len - 2)
      else url_decode_loop fuel (mem.set dest (byte_at mem data)) (data + 1) (dest + 1) len

/-- The function `swHttp_url_decode`: the memory it leaves and the length it
returns. -/
def swHttp_url_decode (str : List Nat) (len : Nat) : List Nat × Nat :=
  url_decode_loop len str 0 0 len

/-- The table `hexchars` of `swHttp_url_encode`. -/
def hexchars : List Nat := bytes "0123456789ABCDEF"

/-- The value of a byte read into a `char`; `char_signed` tells whether `char`
is a signed type on the platform. -/
def to_char (char_signed : Bool) (b : Nat) : Int :=
  if char_signed && decide (128 ≤ b) then (b : Int) - 256 else (b : Int)

/-- The test of `swHttp_url_encode` that decides whether `c` is escaped. -/
def url_encode_escape (c : Int) : Bool :=
  (decide (c < 48) && c != 45 && c != 46) || (decide (c < 65) && decide (c > 57))
    || (decide (c > 90) && decide (c < 97) && c != 95) || (decide (c > 122) && c != 126)

/-- Modelled from the spec: the macro `sw_malloc` of `swoole.h` is not among the
sources; it is taken as the libc `malloc`, so that `sw_malloc(n)` gives a block
of `n` bytes. The value is the size of the block. -/
def sw_malloc (n : Nat) : Nat := n

/-- A write of the byte `v` at index `i` of a block of `size` bytes. A write at
an index that is not below `size` is outside the block: it has no defined
outcome, which is `none`. -/
def block_write (size : Nat) (ret : Nat → Nat) (i v : Nat) : Option (Nat → Nat) :=
  if i < size then some (Function.update ret i v) else none

/-- The `for (x = 0, y = 0; len--; x++, y++)` loop of `swHttp_url_encode`, which
writes into the block `ret` of `size` bytes. -/
def url_encode_loop (char_signed : Bool) (str : List Nat) (size : Nat) :
    Nat → (Nat → Nat) → Nat → Nat → Option ((Nat → Nat) × Nat)
  | 0, ret, _, y => some (ret, y)
  | len + 1, ret, x, y =>
    let b := byte_at str x
    let c := to_char char_signed b
    (block_write size ret y b).bind fun ret =>
    if url_encode_escape c then
      (block_write size ret y 37).bind fun ret =>
      (block_write size ret (y + 1) (hexchars.getD (b % 256 / 16) 0)).bind fun ret =>
      (block_write size ret (y + 2) (hexchars.getD (b % 16) 0)).bind fun ret =>
      url_encode_loop char_signed str size len ret (x + 1) (y + 2 + 1)
    else url_encode_loop char_signed str size len ret (x + 1) (y + 1)

/-- The function `swHttp_url_encode`: the bytes of the block it returns, the
final NUL included, or `none` when a write falls outside the block
`sw_malloc(len * 3)`. `ret0` is what the fresh block `ret` holds. -/
def swHttp_url_encode (char_signed : Bool) (ret0 : Nat → Nat) (str : List Nat) (len : Nat) :
    Option (List Nat) :=
  let size := sw_malloc (len * 3)
  (url_encode_loop char_signed str size len ret0 0 0).bind fun out =>
  (block_write size out.1 out.2 0).bind fun ret =>
  some ((List.range (out.2 + 1)).map ret)

/-- The libc `strlen`: the number of bytes before the first NUL. -/
def strlen (s : List Nat) : Nat := (s.takeWhile (fun c => c != 0)).length

/-! ## `swHttpRequest_get_date_if_modified_since` -/

/-- The `for (; p < pe; p++)` loop of `swHttpRequest_get_date_if_modified_since`
with its locals `state` and `date_if_modified_since` (`date`), the latter as an
index into the buffer; the result is the string that is returned.
`sizeof("If-Modified-Since")` is 18. Every pass moves `p` forward, so `pe - p`
passes of fuel are enough. -/
def get_date_loop (str : List Nat) (pe : Nat) : Nat → Nat → Nat → Nat → List Nat
  | 0, _, _, _ => []
  | fuel + 1, p, state, date =>
    if p < pe then
      match state with
      | 0 =>
        if SW_STRCASECT (str.drop p) (ptrdiff_size pe p) (bytes "If-Modified-Since") then
          get_date_loop str pe fuel (p + 18 + 1) 1 date
        else get_date_loop str pe fuel (p + 1) 0 date
      | 1 =>
        if !isspace (byte_at str p) then get_date_loop str pe fuel (p + 1) 2 p
        else get_date_loop str pe fuel (p + 1) 1 date
      | 2 =>
        if SW_STRCASECT (str.drop p) (ptrdiff_size pe p) (bytes "\r\n") then
          slice str date (p - date)
        else get_date_loop str pe fuel (p + 1) 2 date
      | _ => get_date_loop str pe fuel (p + 1) state date
    else []

/-- The function `swHttpRequest_get_date_if_modified_since`. -/
def swHttpRequest_get_date_if_modified_since (request : swHttpRequest) : List Nat :=
  let p := request.url_offset + request.url_length + 10
  let pe := request.header_length
  get_date_loop request.buffer.str pe (pe - p) p 0 0

/-! ## `swHttpRequest_has_expect_header` -/

/-- The `for (p = buf; p < pe; p++)` loop of `swHttpRequest_has_expect_header`;
`sizeof("\r\nExpect")` is 9. Every pass moves `p` forward, so `pe - p` passes
of fuel are enough. -/
def has_expect_header_loop (str : List Nat) (pe : Nat) : Nat → Nat → Int
  | 0, _ => 0
  | fuel + 1, p =>
    if p < pe then
      if byte_at str p == 13 && decide (ptrdiff_size pe p > 9) then
        let p := p + 2
        if SW_STRCASECT (str.drop p) (ptrdiff_size pe p) (bytes "Expect: ") then
          let p := p + 8
          if SW_STRCASECT (str.drop p) (ptrdiff_size pe p) (bytes "100-continue") then 1
          else 0
        else has_expect_header_loop str pe fuel (p + 1 + 1)
      else has_expect_header_loop str pe fuel (p + 1)
    else 0

/-- The function `swHttpRequest_has_expect_header` (compiled in under
`SW_HTTP_100_CONTINUE`): `buf` is the start of the buffer and `len` the whole
`buffer->length`, as an `int`. -/
def swHttpRequest_has_expect_header (request : swHttpRequest) : Int :=
  let buffer := request.buffer
  let len : Int := to_int (buffer.length : Int)
  let pe := len.toNat
  has_expect_header_loop buffer.str pe pe 0

/-! ## `swHttp_get_status_message` and `swHttp_static_handler_hit` -/

/-- The function `swHttp_get_status_message`. -/
def swHttp_get_status_message (code : Int) : List Nat :=
  match code with
  | 100 => bytes "100 Continue"
  | 101 => bytes "101 Switching Protocols"
  | 201 => bytes "201 Created"
  | 202 => bytes "202 Accepted"
  | 203 => bytes "203 Non-Authoritative Information"
  | 204 => bytes "204 No Content"
  | 205 => bytes "205 Reset Content"
  | 206 => bytes "206 Partial Content"
  | 207 => bytes "207 Multi-Status"
  | 208 => bytes "208 Already Reported"
  | 226 => bytes "226 IM Used"
  | 300 => bytes "300 Multiple Choices"
  | 301 => bytes "301 Moved Permanently"
  | 302 => bytes "302 Found"
  | 303 => bytes "303 See Other"
  | 304 => bytes "304 Not Modified"
  | 305 => bytes "305 Use Proxy"
  | 307 => bytes "307 Temporary Redirect"
  | 400 => bytes "400 Bad Request"
  | 401 => bytes "401 Unauthorized"
  | 402 => bytes "402 Payment Required"
  | 403 => bytes "403 Forbidden"
  | 404 => bytes "404 Not Found"
  | 405 => bytes "405 Method Not Allowed"
  | 406 => bytes "406 Not Acceptable"
  | 407 => bytes "407 Proxy Authentication Required"
  | 408 => bytes "408 Request Timeout"
  | 409 => bytes "409 Conflict"
  | 410 => bytes "410 Gone"
  | 411 => bytes "411 Length Required"
  | 412 => bytes "412 Precondition Failed"
  | 413 => bytes "413 Request Entity Too Large"
  | 414 => bytes "414 Request URI Too Long"
  | 415 => bytes "415 Unsupported Media Type"
  | 416 => bytes "416 Requested Range Not Satisfiable"
  | 417 => bytes "417 Expectation Failed"
  | 418 => bytes "418 I'm a teapot"
  | 421 => bytes "421 Misdirected Request"
  | 422 => bytes "422 Unprocessable Entity"
  | 423 => bytes "423 Locked"
  | 424 => bytes "424 Failed Dependency"
  | 426 => bytes "426 Upgrade Required"
  | 428 => bytes "428 Precondition Required"
  | 429 => bytes "429 Too Many Requests"
  | 431 => bytes "431 Request Header Fields Too Large"
  | 500 => bytes "500 Internal Server Error"
  | 501 => bytes "501 Method Not Implemented"
  | 502 => bytes "502 Bad Gateway"
  | 503 => bytes "503 Service Unavailable"
  | 504 => bytes "504 Gateway Timeout"
  | 505 => bytes "505 HTTP Version Not Supported"
  | 506 => bytes "506 Variant Also Negotiates"
  | 507 => bytes "507 Insufficient Storage"
  | 508 => bytes "508 Loop Detected"
  | 510 => bytes "510 Not Extended"
  | 511 => bytes "511 Network Authentication Required"
  | _ => bytes "200 OK"

/-- Modelled from the spec: the status code `SW_HTTP_NOT_FOUND` of `http.h`
(status 404). -/
def SW_HTTP_NOT_FOUND : Int := 404

/-- Modelled from the spec: the class `StaticHandler` of `static_handler.h` is
not among the sources. A value holds what its member functions return for one
request: whether the handler hit, the status code, the formatted current date
and last-modified date, the comparison of an `If-Modified-Since` date with the
file (`is_modified`, true when the answer is 304), the file name, and the
length of the file-transfer task (the file's byte size). -/
structure StaticHandler where
  hit : Bool
  status_code : Int
  date : List Nat
  date_last_modified : List Nat
  is_modified : List Nat → Bool
  filename : List Nat
  task_length : Nat

/-- Modelled from the spec: what `swHttp_static_handler_hit` uses of the server
and of headers that are not among the sources: the construction of the handler
from the URL, the MIME lookup, the literals `SW_HTTP_SERVER_SOFTWARE` and
`SW_HTTP_PAGE_404` and the size of `swSendFile_request`. -/
structure swServer where
  StaticHandler_new : List Nat → StaticHandler
  swoole_mime_type_get : List Nat → List Nat
  SW_HTTP_SERVER_SOFTWARE : List Nat
  SW_HTTP_PAGE_404 : List Nat
  sizeof_swSendFile_request : Nat

/-- The fields of `swConnection` that `swHttp_static_handler_hit` uses. -/
structure swConnection where
  session_id : Nat
  fd : Nat
  tcp_nopush : Nat
deriving DecidableEq, Repr

/-- The event types of the descriptors that are sent. -/
inductive swServer_event where
  | SW_SERVER_EVENT_SEND_DATA : swServer_event
  | SW_SERVER_EVENT_SEND_FILE : swServer_event
  | SW_SERVER_EVENT_CLOSE : swServer_event
deriving DecidableEq, Repr

/-- What `response.data` points at: the header buffer, the file-transfer task
or nothing. -/
inductive swSendData_data where
  | header_buffer (text : List Nat) : swSendData_data
  | task (filename : List Nat) (length : Nat) : swSendData_data
  | null : swSendData_data
deriving DecidableEq, Repr

/-- A descriptor `swSendData` as it is handed to `swServer_master_send`. -/
structure swSendData where
  fd : Nat
  type : swServer_event
  len : Nat
  data : swSendData_data
deriving DecidableEq, Repr

/-- Modelled from the spec: the helper `sw_snprintf` of `swoole.h`, which like
`snprintf` keeps at most `size - 1` bytes of the formatted text; the length it
returns is the length of what it kept. -/
def sw_snprintf (size : Nat) (text : List Nat) : List Nat := text.take (size - 1)

/-- The decimal digits of a natural number (`%zu`). -/
def format_zu (n : Nat) : List Nat := (Nat.toDigits 10 n).map Char.toNat

/-- The conversion of a value to the C type `long` (64 bits). -/
def to_long (z : Int) : Int := (z + 2 ^ 63) % 2 ^ 64 - 2 ^ 63

/-- The decimal text of a `long` (`%ld`). -/
def format_ld (z : Int) : List Nat :=
  if z < 0 then 45 :: format_zu (-z).toNat else format_zu z.toNat

/-- The function `swHttp_static_handler_hit`: what it returns, the descriptors
it hands to `swServer_master_send`, in order, and the connection it leaves.
`HAVE_TCP_NOPUSH` tells whether that branch is compiled in. -/
def swHttp_static_handler_hit (HAVE_TCP_NOPUSH : Bool) (serv : swServer)
    (request : swHttpRequest) (conn : swConnection) : Bool × List swSendData × swConnection :=
  let url := slice request.buffer.str request.url_offset request.url_length
  let handler := serv.StaticHandler_new url
  if !handler.hit then (false, [], conn)
  else if handler.status_code == SW_HTTP_NOT_FOUND then
    let header_buffer := sw_snprintf 1024
      (bytes "HTTP/1.1 " ++ swHttp_get_status_message SW_HTTP_NOT_FOUND
        ++ bytes "\r\nServer: " ++ serv.SW_HTTP_SERVER_SOFTWARE
        ++ bytes "\r\nContent-Length: " ++ format_zu serv.SW_HTTP_PAGE_404.length
        ++ bytes "\r\n\r\n" ++ serv.SW_HTTP_PAGE_404)
    (true,
      [{ fd := conn.session_id, type := swServer_event.SW_SERVER_EVENT_SEND_DATA,
         len := header_buffer.length, data := swSendData_data.header_buffer header_buffer }],
      conn)
  else
    let date_str := handler.date
    let date_str_last_modified := handler.date_last_modified
    let date_if_modified_since := swHttpRequest_get_date_if_modified_since request
    if !date_if_modified_since.isEmpty && handler.is_modified date_if_modified_since then
      let header_buffer := sw_snprintf 1024
        (bytes "HTTP/1.1 304 Not Modified\r\n"
          ++ (if request.keep_alive then bytes "Connection: keep-alive\r\n" else [])
          ++ bytes "Date: " ++ date_str ++ bytes "\r\nLast-Modified: " ++ date_str_last_modified
          ++ bytes "\r\nServer: " ++ serv.SW_HTTP_SERVER_SOFTWARE ++ bytes "\r\n\r\n")
      (true,
        [{ fd := conn.session_id, type := swServer_event.SW_SERVER_EVENT_SEND_DATA,
           len := header_buffer.length, data := swSendData_data.header_buffer header_buffer }],
        conn)
    else
      let header_buffer := sw_snprintf 1024
        (bytes "HTTP/1.1 200 OK\r\n"
          ++ (if request.keep_alive then bytes "Connection: keep-alive\r\n" else [])
          ++ bytes "Content-Length: " ++ format_ld (to_long handler.task_length)
          ++ bytes "\r\nContent-Type: " ++ serv.swoole_mime_type_get handler.filename
          ++ bytes "\r\nDate: " ++ date_str ++ bytes "\r\nLast-Modified: "
          ++ date_str_last_modified
          ++ bytes "\r\nServer: " ++ serv.SW_HTTP_SERVER_SOFTWARE ++ bytes "\r\n\r\n")
      let conn := if HAVE_TCP_NOPUSH && conn.tcp_nopush == 0 then { conn with tcp_nopush := 1 }
        else conn
      let send_data : swSendData :=
        { fd := conn.session_id, type := swServer_event.SW_SERVER_EVENT_SEND_DATA,
          len := header_buffer.length, data := swSendData_data.header_buffer header_buffer }
      let send_file : swSendData :=
        { fd := conn.session_id, type := swServer_event.SW_SERVER_EVENT_SEND_FILE,
          len := serv.sizeof_swSendFile_request + handler.task_length + 1,
          data := swSendData_data.task handler.filename handler.task_length }
      let close : swSendData :=
        { fd := conn.session_id, type := swServer_event.SW_SERVER_EVENT_CLOSE, len := 0,
          data := swSendData_data.null }
      (true, [send_data, send_file] ++ (if !request.keep_alive then [close] else []), conn)

/-- A request that has parsed nothing yet, on the given buffer. -/
def fresh (str : List Nat) : swHttpRequest :=
  { method := 0, offset := 0, version := 0, excepted := false, keep_alive := false,
    url_offset := 0, url_length := 0, header_length := 0, content_length := 0,
    buffer := { str := str, offset := 0 } }

/-- The verbs the request-line parser matches, each with its method code. -/
def request_line_verbs : List (List Nat × Nat) :=
  [(bytes "GET", SW_HTTP_GET), (bytes "POST", SW_HTTP_POST), (bytes "PUT", SW_HTTP_PUT),
   (bytes "PATCH", SW_HTTP_PATCH), (bytes "DELETE", SW_HTTP_DELETE), (bytes "HEAD", SW_HTTP_HEAD),
   (bytes "OPTIONS", SW_HTTP_OPTIONS), (bytes "COPY", SW_HTTP_COPY), (bytes "LOCK", SW_HTTP_LOCK),
   (bytes "MKCOL", SW_HTTP_MKCOL), (bytes "MOVE", SW_HTTP_MOVE), (bytes "PROPFIND", SW_HTTP_PROPFIND),
   (bytes "PROPPATCH", SW_HTTP_PROPPATCH), (bytes "UNLOCK", SW_HTTP_UNLOCK),
   (bytes "REPORT", SW_HTTP_REPORT), (bytes "PURGE", SW_HTTP_PURGE)]

/-- The two version tokens of the request line, each with its version code. -/
def version_tokens : List (List Nat × Nat) :=
  [(bytes "HTTP/1.1", SW_HTTP_VERSION_11), (bytes "HTTP/1.0", SW_HTTP_VERSION_10)]

/-- The method token of a request line: the bytes before the first whitespace
byte. -/
def method_token (str : List Nat) : List Nat := str.takeWhile (fun c => !isspace c)

/-- The four bytes of the buffer at `[i, i + 4)` are `\r\n\r\n`. -/
def crlf2_at (str : List Nat) (i : Nat) : Prop := slice str i 4 = bytes "\r\n\r\n"

instance (str : List Nat) (i : Nat) : Decidable (crlf2_at str i) := by
  unfold crlf2_at; infer_instance

/-- The test of the loop of `swHttpRequest_get_header_info` holds at index `j`:
the byte at `j` is `\n` and the byte before it is `\r`. -/
def line_break_at (str : List Nat) (j : Nat) : Prop :=
  byte_at str j = 10 ∧ byte_at str (j - 1) = 13

/-- A header line of the block `[buffer.offset, header_length - 4)` starts at
index `q` (right after a `\r\n` of the block) and begins with `name`, up to the
case of ASCII letters. -/
def header_line_at (request : swHttpRequest) (q : Nat) (name : List Nat) : Prop :=
  request.buffer.offset + 2 ≤ q ∧ q + name.length ≤ request.header_length - 4
    ∧ byte_at request.buffer.str (q - 2) = 13 ∧ byte_at request.buffer.str (q - 1) = 10
    ∧ ciEq (slice request.buffer.str q name.length) name

/-- The number a run of decimal digits denotes. -/
def decimal_value (digits : List Nat) : Nat := digits.foldl (fun a d => a * 10 + (d - 48)) 0

/-- The number denoted by the run of decimal digits a text starts with. -/
def leading_number (text : List Nat) : Nat := decimal_value (text.takeWhile isdigit)

/-- The text of the line that starts at index `q`: the bytes up to the next
`\r`. -/
def line_text (str : List Nat) (q : Nat) : List Nat := (str.drop q).takeWhile (fun c => c != 13)

/-- The value of a header line with a name of `n` bytes (the colon counted):
what follows the name and the spaces after it. -/
def header_value (line : List Nat) (n : Nat) : List Nat := (line.drop n).dropWhile (fun c => c == 32)

/-- The request after the request line of a fresh buffer has been parsed
(HTTP/2 compiled in). -/
def after_protocol (str : List Nat) : swHttpRequest :=
  (swHttpRequest_get_protocol true (fresh str)).2

/-- The request after the request line and the header length of a fresh buffer
have been parsed. -/
def after_header_length (str : List Nat) : swHttpRequest :=
  (swHttpRequest_get_header_length (after_protocol str)).2

instance (request : swHttpRequest) (q : Nat) (name : List Nat) :
    Decidable (header_line_at request q name) := by
  unfold header_line_at; infer_instance

/-- A request with a `Content-Length` header and a body. -/
def sample_post : List Nat :=
  bytes "POST /a HTTP/1.1\r\ncontent-LENGTH: 42\r\n\r\nbody"

/-- A request whose second header line is `Connection: keep-alive` in mixed
case. -/
def sample_keep_alive : List Nat :=
  bytes "GET / HTTP/1.1\r\nHost: a\r\ncOnNeCtIoN: KEEP-alive\r\n\r\n"

/-- A request whose `Connection` header asks to close. -/
def sample_close : List Nat := bytes "GET / HTTP/1.1\r\nConnection: close\r\n\r\n"

/-- A request whose `Connection` header lists `keep-alive` first and another
token after it. -/
def sample_upgrade : List Nat :=
  bytes "GET / HTTP/1.1\r\nConnection: keep-alive, Upgrade\r\n\r\n"

/-- A hexadecimal digit, of either case. -/
def hex_digit (c : Nat) : Bool :=
  (48 ≤ c && c ≤ 57) || (65 ≤ c && c ≤ 70) || (97 ≤ c && c ≤ 102)

/-- The value of a hexadecimal digit. -/
def hex_value (c : Nat) : Nat :=
  if 48 ≤ c ∧ c ≤ 57 then c - 48 else if 65 ≤ c ∧ c ≤ 70 then c - 55 else c - 87

/-- The reference decoder, left to right: `%` followed by two hexadecimal digits
inside the input gives the byte with that value and takes three bytes, `+`
gives a space, every other byte is copied. -/
def reference_decode : List Nat → List Nat
  | [] => []
  | [c] => [if c = 43 then 32 else c]
  | [c, a] => (if c = 43 then 32 else c) :: reference_decode [a]
  | c :: a :: b :: rest =>
    if c = 37 ∧ hex_digit a = true ∧ hex_digit b = true then
      (16 * hex_value a + hex_value b) :: reference_decode rest
    else (if c = 43 then 32 else c) :: reference_decode (a :: b :: rest)

/-- The number of escapes the reference decoder decodes. -/
def decoded_escapes : List Nat → Nat
  | [] => 0
  | [_] => 0
  | [_, a] => decoded_escapes [a]
  | c :: a :: b :: rest =>
    if c = 37 ∧ hex_digit a = true ∧ hex_digit b = true then decoded_escapes rest + 1
    else decoded_escapes (a :: b :: rest)

/-- The unreserved set: `A-Z`, `a-z`, `0-9`, `-`, `_`, `.`, `~`. -/
def unreserved (b : Nat) : Bool :=
  (65 ≤ b && b ≤ 90) || (97 ≤ b && b ≤ 122) || (48 ≤ b && b ≤ 57)
    || b == 45 || b == 95 || b == 46 || b == 126

/-- The uppercase hexadecimal digit of a value below 16. -/
def hex_upper (n : Nat) : Nat := if n < 10 then 48 + n else 55 + n

/-- The reference encoder: unreserved bytes are copied, every other byte `b`
becomes `%` and the two uppercase hexadecimal digits of `b`. -/
def reference_encode : List Nat → List Nat
  | [] => []
  | b :: rest =>
    if unreserved b then b :: reference_encode rest
    else 37 :: hex_upper (b / 16) :: hex_upper (b % 16) :: reference_encode rest

/-- The number of bytes of a sequence that the encoder escapes. -/
def escaped_count (s : List Nat) : Nat := (s.filter (fun b => !unreserved b)).length

/-- A request whose only header is named `X-If-Modified-Since`. -/
def sample_x_header : List Nat := bytes "GET / HTTP/1.1\r\nX-If-Modified-Since: Tue\r\n\r\n"

/-- A request that names `If-Modified-Since` in the value of another header. -/
def sample_header_value : List Nat :=
  bytes "OPTIONS /a HTTP/1.1\r\nAccess-Control-Request-Headers: If-Modified-Since\r\nHost: a\r\n\r\n"

/-- A request with an `If-Modified-Since` header in mixed case. -/
def sample_conditional : List Nat :=
  bytes "GET /a HTTP/1.1\r\nHost: a\r\nif-MODIFIED-since: \tTue, 15 Nov 1994 08:12:31 GMT\r\n\r\n"

/-- A request for `/f` whose only header is `X-If-Modified-Since` with a
date. -/
def sample_x_date : List Nat :=
  bytes "GET /f HTTP/1.1\r\nX-If-Modified-Since: Tue, 15 Nov 2094 08:12:31 GMT\r\n\r\n"

/-- A handler that hits a file of 5 bytes last modified in 1994: every date
from 1994 on is answered with 304. -/
def sample_handler : StaticHandler :=
  { hit := true, status_code := 200, date := bytes "Sat, 31 Oct 2026 00:00:00 GMT",
    date_last_modified := bytes "Tue, 15 Nov 1994 08:12:31 GMT",
    is_modified := fun d => d == bytes "Tue, 15 Nov 1994 08:12:31 GMT"
      || d == bytes "Tue, 15 Nov 2094 08:12:31 GMT",
    filename := bytes "/www/f", task_length := 5 }

/-- A server whose static handler answers every URL with `sample_handler`. -/
def sample_server : swServer :=
  { StaticHandler_new := fun _ => sample_handler,
    swoole_mime_type_get := fun _ => bytes "application/octet-stream",
    SW_HTTP_SERVER_SOFTWARE := bytes "swoole-http-server",
    SW_HTTP_PAGE_404 := bytes "<html><body><h2>HTTP 404 Not Found</h2></body></html>",
    sizeof_swSendFile_request := 16 }

/-- A connection. -/
def sample_conn : swConnection := { session_id := 7, fd := 3, tcp_nopush := 0 }

/-- A request with 25 bytes of its body of 100 received, none of them special. -/
def sample_plain_body : List Nat :=
  bytes "POST /a HTTP/1.1\r\nContent-Length: 100\r\n\r\naaaaaaaaaaaaaaaaaaaaaaaaa"

/-- The same request with other 25 bytes of body, which look like an `Expect`
header line. -/
def sample_expect_body : List Nat :=
  bytes "POST /a HTTP/1.1\r\nContent-Length: 100\r\n\r\na\r\nExpect: 100-continue\r\n"

/-- The same request with 25 bytes of body that look like `Content-Length` and
`Connection` header lines. -/
def sample_header_body : List Nat :=
  bytes "POST /a HTTP/1.1\r\nContent-Length: 100\r\n\r\n\r\nContent-Length: 99\r\nConnection: keep-alive\r\nIf-Modified-Since: x\r\n"

/-! ## Bytes of the literals -/

theorem bytes_GET : bytes "GET" = [71, 69, 84] := by decide
theorem bytes_POST : bytes "POST" = [80, 79, 83, 84] := by decide
theorem bytes_PUT : bytes "PUT" = [80, 85, 84] := by decide
theorem bytes_PATCH : bytes "PATCH" = [80, 65, 84, 67, 72] := by decide
theorem bytes_DELETE : bytes "DELETE" = [68, 69, 76, 69, 84, 69] := by decide
theorem bytes_HEAD : bytes "HEAD" = [72, 69, 65, 68] := by decide
theorem bytes_OPTIONS : bytes "OPTIONS" = [79, 80, 84, 73, 79, 78, 83] := by decide
theorem bytes_COPY : bytes "COPY" = [67, 79, 80, 89] := by decide
theorem bytes_LOCK : bytes "LOCK" = [76, 79, 67, 75] := by decide
theorem bytes_MKCOL : bytes "MKCOL" = [77, 75, 67, 79, 76] := by decide
theorem bytes_MOVE : bytes "MOVE" = [77, 79, 86, 69] := by decide
theorem bytes_PROPFIND : bytes "PROPFIND" = [80, 82, 79, 80, 70, 73, 78, 68] := by decide
theorem bytes_PROPPATCH : bytes "PROPPATCH" = [80, 82, 79, 80, 80, 65, 84, 67, 72] := by decide
theorem bytes_UNLOCK : bytes "UNLOCK" = [85, 78, 76, 79, 67, 75] := by decide
theorem bytes_REPORT : bytes "REPORT" = [82, 69, 80, 79, 82, 84] := by decide
theorem bytes_PURGE : bytes "PURGE" = [80, 85, 82, 71, 69] := by decide
theorem bytes_PRI : bytes "PRI" = [80, 82, 73] := by decide
theorem bytes_HTTP_1_1 : bytes "HTTP/1.1" = [72, 84, 84, 80, 47, 49, 46, 49] := by decide
theorem bytes_CRLF2 : bytes "\r\n\r\n" = [13, 10, 13, 10] := by decide
theorem bytes_HTTP_1_0 : bytes "HTTP/1.0" = [72, 84, 84, 80, 47, 49, 46, 48] := by decide

/-! ## The scan of the request line -/

theorem scan_state0_skip (W : List Nat) (hW : ∀ c ∈ W, isspace c = true) :
    ∀ (request : swHttpRequest) (p : Nat) (rest : List Nat),
      get_protocol_scan request 0 p (W ++ rest) = get_protocol_scan request 0 (p + W.length) rest := by
  induction W with
  | nil => intro request p rest; simp
  | cons c W ih =>
    intro request p rest
    have hc : isspace c = true := hW c (by simp)
    have hW2 : ∀ d ∈ W, isspace d = true := fun d hd => hW d (by simp [hd])
    have hp : p + (W.length + 1) = p + 1 + W.length := by omega
    rw [List.cons_append, List.length_cons, hp]
    simp only [get_protocol_scan, hc, if_true]
    exact ih hW2 _ _ _

theorem scan_state2_skip (W : List Nat) (hW : ∀ c ∈ W, isspace c = true) :
    ∀ (request : swHttpRequest) (p : Nat) (rest : List Nat),
      get_protocol_scan request 2 p (W ++ rest) = get_protocol_scan request 2 (p + W.length) rest := by
  induction W with
  | nil => intro request p rest; simp
  | cons c W ih =>
    intro request p rest
    have hc : isspace c = true := hW c (by simp)
    have hW2 : ∀ d ∈ W, isspace d = true := fun d hd => hW d (by simp [hd])
    have hp : p + (W.length + 1) = p + 1 + W.length := by omega
    rw [List.cons_append, List.length_cons, hp]
    simp only [get_protocol_scan, hc, if_true]
    exact ih hW2 _ _ _

theorem scan_state1_skip (U : List Nat) (hU : ∀ c ∈ U, isspace c = false) :
    ∀ (request : swHttpRequest) (p : Nat) (rest : List Nat),
      get_protocol_scan request 1 p (U ++ rest) = get_protocol_scan request 1 (p + U.length) rest := by
  induction U with
  | nil => intro request p rest; simp
  | cons c U ih =>
    intro request p rest
    have hc : isspace c = false := hU c (by simp)
    have hU2 : ∀ d ∈ U, isspace d = false := fun d hd => hU d (by simp [hd])
    have hp : p + (U.length + 1) = p + 1 + U.length := by omega
    rw [List.cons_append, List.length_cons, hp]
    simp only [get_protocol_scan, hc, Bool.false_eq_true, if_false]
    exact ih hU2 _ _ _

theorem scan_request_line (request : swHttpRequest) (n : Nat) (W1 U W2 T R : List Nat) (ver : Nat)
    (hW1 : ∀ c ∈ W1, isspace c = true)
    (hU : U ≠ []) (hUs : ∀ c ∈ U, isspace c = false)
    (hW2 : W2 ≠ []) (hW2s : ∀ c ∈ W2, isspace c = true)
    (hT : (T, ver) ∈ version_tokens) :
    get_protocol_scan request 0 n (W1 ++ (U ++ (W2 ++ (T ++ R)))) =
      (SW_OK, { request with
                  version := ver, url_offset := n + W1.length, url_length := U.length,
                  buffer := { request.buffer with
                              offset := n + W1.length + U.length + W2.length + 8 } }) := by
  rw [scan_state0_skip W1 hW1]
  obtain ⟨u, U1, rfl⟩ := List.exists_cons_of_ne_nil hU
  obtain ⟨w, W3, rfl⟩ := List.exists_cons_of_ne_nil hW2
  have hu : isspace u = false := hUs u (by simp)
  have hU1 : ∀ c ∈ U1, isspace c = false := fun c hc => hUs c (by simp [hc])
  have hw : isspace w = true := hW2s w (by simp)
  have hW3 : ∀ c ∈ W3, isspace c = true := fun c hc => hW2s c (by simp [hc])
  rw [List.cons_append]
  simp only [get_protocol_scan, hu, Bool.false_eq_true, if_false]
  rw [scan_state1_skip U1 hU1, List.cons_append]
  simp only [get_protocol_scan, hw, if_true]
  rw [scan_state2_skip W3 hW3]
  simp only [version_tokens, List.mem_cons, Prod.mk.injEq, List.mem_singleton, List.not_mem_nil,
    or_false] at hT
  rcases hT with ⟨rfl, rfl⟩ | ⟨rfl, rfl⟩
  · simp [bytes_HTTP_1_1, get_protocol_scan, isspace, memcmp_eq, get_protocol_end]
    have e1 : n + W1.length + 1 + U1.length - (n + W1.length) = U1.length + 1 := by omega
    have e2 : n + W1.length + 1 + U1.length + 1 + W3.length + 8 =
        n + W1.length + (U1.length + 1) + (W3.length + 1) + 8 := by omega
    rw [if_neg (by omega), e1, e2]
  · simp [bytes_HTTP_1_1, bytes_HTTP_1_0, get_protocol_scan, isspace, memcmp_eq, get_protocol_end]
    have e1 : n + W1.length + 1 + U1.length - (n + W1.length) = U1.length + 1 := by omega
    have e2 : n + W1.length + 1 + U1.length + 1 + W3.length + 8 =
        n + W1.length + (U1.length + 1) + (W3.length + 1) + 8 := by omega
    rw [if_neg (by omega), e1, e2]

theorem get_protocol_dispatch (SW_USE_HTTP2 : Bool) (request : swHttpRequest)
    (V rest : List Nat) (code : Nat) (hV : (V, code) ∈ request_line_verbs)
    (hbuf : request.buffer.str = V ++ rest) (hlen : 16 ≤ request.buffer.str.length) :
    swHttpRequest_get_protocol SW_USE_HTTP2 request =
      get_protocol_scan { request with method := code, offset := V.length } 0 V.length rest := by
  have hl : ¬ (request.buffer.length < 16) := by
    simp only [swString.length]; omega
  simp only [request_line_verbs, List.mem_cons, Prod.mk.injEq, List.not_mem_nil, or_false] at hV
  rcases hV with h | h | h | h | h | h | h | h | h | h | h | h | h | h | h | h <;>
    obtain ⟨rfl, rfl⟩ := h <;>
    simp [swHttpRequest_get_protocol, hl, hbuf, get_protocol_verb, memcmp_eq, bytes_GET, bytes_POST,
      bytes_PUT, bytes_PATCH, bytes_DELETE, bytes_HEAD, bytes_OPTIONS, bytes_COPY, bytes_LOCK,
      bytes_MKCOL, bytes_MOVE, bytes_PROPFIND, bytes_PROPPATCH, bytes_UNLOCK, bytes_REPORT,
      bytes_PURGE]

theorem memcmp_eq_iff_starts (p lit : List Nat) (n : Nat) (hn : n = lit.length) :
    memcmp_eq p lit n = true ↔ lit <+: p := by
  subst hn
  simp only [memcmp_eq, List.take_length, beq_iff_eq]
  constructor
  · intro h
    exact List.prefix_iff_eq_take.mpr h.symm
  · intro h
    exact (List.prefix_iff_eq_take.mp h).symm

theorem memcmp_eq_false_of_not_starts (p lit : List Nat) (n : Nat) (hn : n = lit.length)
    (h : ¬ lit <+: p) : memcmp_eq p lit n = false := by
  cases hm : memcmp_eq p lit n with
  | false => rfl
  | true => exact absurd ((memcmp_eq_iff_starts p lit n hn).mp hm) h

/-! ## Request-line parsing: the claims -/

/-- C1: on a buffer of at least 16 bytes of the form `V W1 U W2 T R` (a verb the
parser matches, whitespace, a non-empty URL without whitespace, whitespace,
`HTTP/1.1` or `HTTP/1.0`, anything) `swHttpRequest_get_protocol` succeeds with
the method code of `V`, the version of `T`, the URL span exactly on `U` and
`buffer.offset` on the first byte after `T`. -/
theorem get_protocol_request_line (SW_USE_HTTP2 : Bool) (request : swHttpRequest)
    (V W1 U W2 T R : List Nat) (code ver : Nat)
    (hV : (V, code) ∈ request_line_verbs)
    (_hW1 : W1 ≠ []) (hW1s : ∀ c ∈ W1, isspace c = true)
    (hU : U ≠ []) (hUs : ∀ c ∈ U, isspace c = false)
    (hW2 : W2 ≠ []) (hW2s : ∀ c ∈ W2, isspace c = true)
    (hT : (T, ver) ∈ version_tokens)
    (hbuf : request.buffer.str = V ++ (W1 ++ (U ++ (W2 ++ (T ++ R)))))
    (hlen : 16 ≤ request.buffer.length) :
    swHttpRequest_get_protocol SW_USE_HTTP2 request =
        (SW_OK, { request with
                    method := code, offset := V.length, version := ver,
                    url_offset := V.length + W1.length, url_length := U.length,
                    buffer := { request.buffer with
                                offset := V.length + W1.length + U.length + W2.length + T.length } })
      ∧ slice request.buffer.str (V.length + W1.length) U.length = U := by
  have hT8 : T.length = 8 := by
    simp only [version_tokens, List.mem_cons, Prod.mk.injEq, List.not_mem_nil, or_false] at hT
    rcases hT with ⟨rfl, _⟩ | ⟨rfl, _⟩ <;> decide
  constructor
  · rw [get_protocol_dispatch SW_USE_HTTP2 request V _ code hV hbuf hlen,
      scan_request_line _ _ W1 U W2 T R ver hW1s hU hUs hW2 hW2s hT, hT8]
  · rw [hbuf, slice, ← List.append_assoc, List.drop_left' (by simp), List.take_left' rfl]

/-- C2: on a buffer shorter than 16 bytes `swHttpRequest_get_protocol` returns
failure and leaves the whole request, the malformed flag included, as it
was. -/
theorem get_protocol_short_buffer (SW_USE_HTTP2 : Bool) (request : swHttpRequest)
    (hlen : request.buffer.length < 16) :
    swHttpRequest_get_protocol SW_USE_HTTP2 request = (SW_ERR, request) := by
  simp [swHttpRequest_get_protocol, hlen]

/-- C3: on `GET /aaaaaaaaaaaaaaaaaaaa` (a URL not yet followed by whitespace),
on `GET` followed by whitespace only and on `GET /a` followed by whitespace only
the scan reaches the end of the buffer, falls through to `_end` and returns
success with `buffer.offset` 8 bytes past the end of the buffer. -/
theorem get_protocol_scan_runs_off_the_end :
    swHttpRequest_get_protocol true (fresh (bytes "GET /aaaaaaaaaaaaaaaaaaaa")) =
        (SW_OK, { fresh (bytes "GET /aaaaaaaaaaaaaaaaaaaa") with
                    method := SW_HTTP_GET, offset := 3, url_offset := 4,
                    buffer := { str := bytes "GET /aaaaaaaaaaaaaaaaaaaa", offset := 25 + 8 } })
      ∧ (swHttpRequest_get_protocol true (fresh (bytes "GET                "))).1 = SW_OK
      ∧ (swHttpRequest_get_protocol true (fresh (bytes "GET                "))).2.buffer.offset
          = (bytes "GET                ").length + 8
      ∧ (swHttpRequest_get_protocol true (fresh (bytes "GET /a             "))).1 = SW_OK
      ∧ (swHttpRequest_get_protocol true (fresh (bytes "GET /a             "))).2.buffer.offset
          = (bytes "GET /a             ").length + 8 := by
  decide

/-- C4, as stated, fails: the method token of `GETX HTTP/1.1\r\n\r\n` is `GETX`,
which is no verb of the table, and the request line is accepted as a `GET`
of the URL `X`. -/
theorem get_protocol_accepts_unknown_token :
    16 ≤ (fresh (bytes "GETX HTTP/1.1\r\n\r\n")).buffer.length
      ∧ method_token (bytes "GETX HTTP/1.1\r\n\r\n") = bytes "GETX"
      ∧ bytes "GETX" ∉ method_strings
      ∧ swHttpRequest_get_protocol true (fresh (bytes "GETX HTTP/1.1\r\n\r\n")) =
          (SW_OK, { fresh (bytes "GETX HTTP/1.1\r\n\r\n") with
                      method := SW_HTTP_GET, offset := 3, version := SW_HTTP_VERSION_11,
                      url_offset := 3, url_length := 1,
                      buffer := { str := bytes "GETX HTTP/1.1\r\n\r\n", offset := 13 } })
      ∧ (swHttpRequest_get_protocol true (fresh (bytes "GETX HTTP/1.1\r\n\r\n"))).2.excepted
          = false := by
  decide

/-- C4, amended: on a buffer of at least 16 bytes that begins with none of the
verbs the request-line parser matches and (HTTP/2 compiled in) neither begins
with the HTTP/2 connection preface nor is a proper prefix of it (its first 24
bytes, or all of it when it is shorter, are no prefix of the preface),
`swHttpRequest_get_protocol` returns failure and sets the malformed flag. -/
theorem get_protocol_no_verb (SW_USE_HTTP2 : Bool) (request : swHttpRequest)
    (hlen : 16 ≤ request.buffer.length)
    (hverb : ∀ v ∈ request_line_verbs, ¬ v.1 <+: request.buffer.str)
    (hpri : SW_USE_HTTP2 = true → ¬ request.buffer.str.take 24 <+: SW_HTTP2_PRI_STRING) :
    (swHttpRequest_get_protocol SW_USE_HTTP2 request).1 = SW_ERR
      ∧ (swHttpRequest_get_protocol SW_USE_HTTP2 request).2.excepted = true := by
  have hl : ¬ (request.buffer.length < 16) := by omega
  have hGET : memcmp_eq request.buffer.str (bytes "GET") 3 = false :=
    memcmp_eq_false_of_not_starts _ _ _ (by decide)
      (hverb (bytes "GET", SW_HTTP_GET) (by simp [request_line_verbs]))
  have hPOST : memcmp_eq request.buffer.str (bytes "POST") 4 = false :=
    memcmp_eq_false_of_not_starts _ _ _ (by decide)
      (hverb (bytes "POST", SW_HTTP_POST) (by simp [request_line_verbs]))
  have hPUT : memcmp_eq request.buffer.str (bytes "PUT") 3 = false :=
    memcmp_eq_false_of_not_starts _ _ _ (by decide)
      (hverb (bytes "PUT", SW_HTTP_PUT) (by simp [request_line_verbs]))
  have hPATCH : memcmp_eq request.buffer.str (bytes "PATCH") 5 = false :=
    memcmp_eq_false_of_not_starts _ _ _ (by decide)
      (hverb (bytes "PATCH", SW_HTTP_PATCH) (by simp [request_line_verbs]))
  have hDELETE : memcmp_eq request.buffer.str (bytes "DELETE") 6 = false :=
    memcmp_eq_false_of_not_starts _ _ _ (by decide)
      (hverb (bytes "DELETE", SW_HTTP_DELETE) (by simp [request_line_verbs]))
  have hHEAD : memcmp_eq request.buffer.str (bytes "HEAD") 4 = false :=
    memcmp_eq_false_of_not_starts _ _ _ (by decide)
      (hverb (bytes "HEAD", SW_HTTP_HEAD) (by simp [request_line_verbs]))
  have hOPTIONS : memcmp_eq request.buffer.str (bytes "OPTIONS") 7 = false :=
    memcmp_eq_false_of_not_starts _ _ _ (by decide)
      (hverb (bytes "OPTIONS", SW_HTTP_OPTIONS) (by simp [request_line_verbs]))
  have hCOPY : memcmp_eq request.buffer.str (bytes "COPY") 4 = false :=
    memcmp_eq_false_of_not_starts _ _ _ (by decide)
      (hverb (bytes "COPY", SW_HTTP_COPY) (by simp [request_line_verbs]))
  have hLOCK : memcmp_eq request.buffer.str (bytes "LOCK") 4 = false :=
    memcmp_eq_false_of_not_starts _ _ _ (by decide)
      (hverb (bytes "LOCK", SW_HTTP_LOCK) (by simp [request_line_verbs]))
  have hMKCOL : memcmp_eq request.buffer.str (bytes "MKCOL") 5 = false :=
    memcmp_eq_false_of_not_starts _ _ _ (by decide)
      (hverb (bytes "MKCOL", SW_HTTP_MKCOL) (by simp [request_line_verbs]))
  have hMOVE : memcmp_eq request.buffer.str (bytes "MOVE") 4 = false :=
    memcmp_eq_false_of_not_starts _ _ _ (by decide)
      (hverb (bytes "MOVE", SW_HTTP_MOVE) (by simp [request_line_verbs]))
  have hPROPFIND : memcmp_eq request.buffer.str (bytes "PROPFIND") 8 = false :=
    memcmp_eq_false_of_not_starts _ _ _ (by decide)
      (hverb (bytes "PROPFIND", SW_HTTP_PROPFIND) (by simp [request_line_verbs]))
  have hPROPPATCH : memcmp_eq request.buffer.str (bytes "PROPPATCH") 9 = false :=
    memcmp_eq_false_of_not_starts _ _ _ (by decide)
      (hverb (bytes "PROPPATCH", SW_HTTP_PROPPATCH) (by simp [request_line_verbs]))
  have hUNLOCK : memcmp_eq request.buffer.str (bytes "UNLOCK") 6 = false :=
    memcmp_eq_false_of_not_starts _ _ _ (by decide)
      (hverb (bytes "UNLOCK", SW_HTTP_UNLOCK) (by simp [request_line_verbs]))
  have hREPORT : memcmp_eq request.buffer.str (bytes "REPORT") 6 = false :=
    memcmp_eq_false_of_not_starts _ _ _ (by decide)
      (hverb (bytes "REPORT", SW_HTTP_REPORT) (by simp [request_line_verbs]))
  have hPURGE : memcmp_eq request.buffer.str (bytes "PURGE") 5 = false :=
    memcmp_eq_false_of_not_starts _ _ _ (by decide)
      (hverb (bytes "PURGE", SW_HTTP_PURGE) (by simp [request_line_verbs]))
  simp only [swHttpRequest_get_protocol, hl, if_false, hGET, hPOST, hPUT, hPATCH, hDELETE, hHEAD, hOPTIONS, hCOPY, hLOCK, hMKCOL, hMOVE, hPROPFIND, hPROPPATCH, hUNLOCK, hREPORT, hPURGE,
    Bool.false_eq_true]
  by_cases h3 : (SW_USE_HTTP2 && memcmp_eq request.buffer.str (bytes "PRI") 3) = true
  · rw [if_pos h3]
    have hb : SW_USE_HTTP2 = true := by
      cases SW_USE_HTTP2 <;> simp_all
    have h24 : memcmp_eq request.buffer.str SW_HTTP2_PRI_STRING 24 = false := by
      refine memcmp_eq_false_of_not_starts _ _ _ (by decide) (fun h => hpri hb ?_)
      have e : SW_HTTP2_PRI_STRING = request.buffer.str.take 24 := List.prefix_iff_eq_take.mp h
      rw [← e]
    simp [h24, get_protocol_excepted]
  · rw [if_neg h3]
    simp [get_protocol_excepted]

/-- C4, amended, at `FROB / HTTP/1.1\r\n\r\n`. -/
theorem get_protocol_no_verb_witness :
    (swHttpRequest_get_protocol true (fresh (bytes "FROB / HTTP/1.1\r\n\r\n"))).1 = SW_ERR
      ∧ (swHttpRequest_get_protocol true (fresh (bytes "FROB / HTTP/1.1\r\n\r\n"))).2.excepted
          = true :=
  get_protocol_no_verb true (fresh (bytes "FROB / HTTP/1.1\r\n\r\n")) (by decide) (by decide)
    (by decide)

/-- C5, as stated, fails: `CONNECT` is a verb of the table other than `PRI`, and
`CONNECT /path HTTP/1.1\r\n\r\n` is rejected as malformed. -/
theorem get_protocol_rejects_connect :
    bytes "CONNECT" ∈ method_strings ∧ bytes "CONNECT" ≠ bytes "PRI"
      ∧ 16 ≤ (fresh (bytes "CONNECT /path HTTP/1.1\r\n\r\n")).buffer.length
      ∧ swHttpRequest_get_protocol true (fresh (bytes "CONNECT /path HTTP/1.1\r\n\r\n")) =
          (SW_ERR, { fresh (bytes "CONNECT /path HTTP/1.1\r\n\r\n") with excepted := true }) := by
  decide

/-- C5, amended: for every verb `V` that the request-line parser matches, the
buffer `V /path HTTP/1.1\r\n\r\n` is parsed successfully and the method is
set to `swHttp_get_method(V)`. -/
theorem get_protocol_parser_verbs (SW_USE_HTTP2 : Bool) (request : swHttpRequest)
    (V : List Nat) (hV : V ∈ request_line_verbs.map Prod.fst)
    (hbuf : request.buffer.str = V ++ bytes " /path HTTP/1.1\r\n\r\n") :
    (swHttpRequest_get_protocol SW_USE_HTTP2 request).1 = SW_OK
      ∧ ((swHttpRequest_get_protocol SW_USE_HTTP2 request).2.method : Int)
          = swHttp_get_method V V.length := by
  obtain ⟨⟨V1, code⟩, hmem, rfl⟩ := List.mem_map.mp hV
  have hlen : 16 ≤ request.buffer.str.length := by
    rw [hbuf, List.length_append]
    have : (bytes " /path HTTP/1.1\r\n\r\n").length = 19 := by decide
    omega
  have hsplit : bytes " /path HTTP/1.1\r\n\r\n" =
      [32] ++ (bytes "/path" ++ ([32] ++ (bytes "HTTP/1.1" ++ bytes "\r\n\r\n"))) := by decide
  rw [get_protocol_dispatch SW_USE_HTTP2 request V1 _ code hmem hbuf hlen, hsplit,
    scan_request_line _ _ [32] (bytes "/path") [32] (bytes "HTTP/1.1") (bytes "\r\n\r\n")
      SW_HTTP_VERSION_11 (by decide) (by decide) (by decide) (by decide) (by decide) (by decide)]
  refine ⟨rfl, ?_⟩
  show ((code : Nat) : Int) = swHttp_get_method V1 V1.length
  simp only [request_line_verbs, List.mem_cons, Prod.mk.injEq, List.not_mem_nil, or_false] at hmem
  rcases hmem with h | h | h | h | h | h | h | h | h | h | h | h | h | h | h | h <;>
    obtain ⟨rfl, rfl⟩ := h <;> decide

/-- C5, amended, at `PROPPATCH`. -/
theorem get_protocol_parser_verbs_witness :
    (swHttpRequest_get_protocol true
        (fresh (bytes "PROPPATCH" ++ bytes " /path HTTP/1.1\r\n\r\n"))).1 = SW_OK
      ∧ ((swHttpRequest_get_protocol true
            (fresh (bytes "PROPPATCH" ++ bytes " /path HTTP/1.1\r\n\r\n"))).2.method : Int)
          = swHttp_get_method (bytes "PROPPATCH") (bytes "PROPPATCH").length :=
  get_protocol_parser_verbs true (fresh (bytes "PROPPATCH" ++ bytes " /path HTTP/1.1\r\n\r\n"))
    (bytes "PROPPATCH") (by decide) rfl

/-- C6: with HTTP/2 compiled in, on every buffer that begins with the 24-byte
HTTP/2 connection preface `swHttpRequest_get_protocol` succeeds, sets the
method to `PRI` and `buffer.offset` to 24 and leaves everything else, the URL
span included, as it was. -/
theorem get_protocol_http2_preface (request : swHttpRequest) (R : List Nat)
    (hbuf : request.buffer.str = SW_HTTP2_PRI_STRING ++ R) :
    swHttpRequest_get_protocol true request =
      (SW_OK, { request with
                  method := SW_HTTP_PRI,
                  buffer := { request.buffer with offset := 24 } }) := by
  have hP : SW_HTTP2_PRI_STRING =
      [80, 82, 73, 32, 42, 32, 72, 84, 84, 80, 47, 50, 46, 48, 13, 10, 13, 10, 83, 77, 13, 10,
        13, 10] := by decide
  have hl : ¬ (request.buffer.length < 16) := by
    simp [swString.length, hbuf, hP]
  simp [swHttpRequest_get_protocol, hl, hbuf, hP, memcmp_eq, bytes_GET, bytes_POST,
    bytes_PUT, bytes_PATCH, bytes_DELETE, bytes_HEAD, bytes_OPTIONS, bytes_COPY, bytes_LOCK,
    bytes_MKCOL, bytes_MOVE, bytes_PROPFIND, bytes_PROPPATCH, bytes_UNLOCK, bytes_REPORT,
    bytes_PURGE, bytes_PRI]

/-- C6 at the bare preface. -/
theorem get_protocol_http2_preface_witness :
    swHttpRequest_get_protocol true (fresh (SW_HTTP2_PRI_STRING ++ [])) =
      (SW_OK, { fresh (SW_HTTP2_PRI_STRING ++ []) with
                  method := SW_HTTP_PRI,
                  buffer := { (fresh (SW_HTTP2_PRI_STRING ++ [])).buffer with offset := 24 } }) :=
  get_protocol_http2_preface (fresh (SW_HTTP2_PRI_STRING ++ [])) [] rfl

/-- C1 at `GET /index.html HTTP/1.1\r\n\r\n`. -/
theorem get_protocol_request_line_witness :
    swHttpRequest_get_protocol true
        (fresh (bytes "GET" ++ ([32] ++ (bytes "/index.html" ++ ([32] ++
          (bytes "HTTP/1.1" ++ bytes "\r\n\r\n")))))) =
      (SW_OK, { method := SW_HTTP_GET, offset := 3, version := SW_HTTP_VERSION_11,
                excepted := false, keep_alive := false, url_offset := 4, url_length := 11,
                header_length := 0, content_length := 0,
                buffer := { str := bytes "GET /index.html HTTP/1.1\r\n\r\n", offset := 24 } })
      ∧ slice (bytes "GET /index.html HTTP/1.1\r\n\r\n") 4 11 = bytes "/index.html" :=
  get_protocol_request_line true
    (fresh (bytes "GET" ++ ([32] ++ (bytes "/index.html" ++ ([32] ++
      (bytes "HTTP/1.1" ++ bytes "\r\n\r\n"))))))
    (bytes "GET") [32] (bytes "/index.html") [32] (bytes "HTTP/1.1") (bytes "\r\n\r\n")
    SW_HTTP_GET SW_HTTP_VERSION_11 (by decide) (by decide) (by decide) (by decide) (by decide)
    (by decide) (by decide) (by decide) rfl (by decide)

/-- C2 at the 14-byte buffer `GET / HTTP/1.1`. -/
theorem get_protocol_short_buffer_witness :
    swHttpRequest_get_protocol true (fresh (bytes "GET / HTTP/1.1")) =
      (SW_ERR, fresh (bytes "GET / HTTP/1.1")) :=
  get_protocol_short_buffer true (fresh (bytes "GET / HTTP/1.1")) (by decide)

/-! ## Header-length detection -/

theorem slice_cons_succ (c : Nat) (rest : List Nat) (k n : Nat) :
    slice (c :: rest) (k + 1) n = slice rest k n := by
  simp [slice]

theorem slice_drop (str : List Nat) (a k n : Nat) :
    slice (str.drop a) k n = slice str (a + k) n := by
  simp [slice, List.drop_drop, Nat.add_comm]

theorem slice_length_le (str : List Nat) (p n : Nat) (h : (slice str p n).length = n) (hn : 0 < n) :
    p + n ≤ str.length := by
  simp only [slice, List.length_take, List.length_drop] at h
  omega

theorem header_length_test_iff (c : Nat) (rest : List Nat) :
    (c == 13 && decide (4 ≤ (c :: rest).length)
        && memcmp_eq (c :: rest) (bytes "\r\n\r\n") 4) = true ↔ crlf2_at (c :: rest) 0 := by
  simp only [crlf2_at, slice, List.drop_zero, memcmp_eq, bytes_CRLF2, Bool.and_eq_true,
    beq_iff_eq, decide_eq_true_eq]
  constructor
  · rintro ⟨_, h⟩
    simpa using h
  · intro h
    have hl : (List.take 4 (c :: rest)).length = 4 := by rw [h]; rfl
    have hc : c = 13 := by
      have := congrArg List.head? h
      simpa using this
    refine ⟨⟨hc, ?_⟩, by simpa using h⟩
    simp only [List.length_take] at hl
    omega

theorem header_length_scan_found (L : List Nat) :
    ∀ (request : swHttpRequest) (p k : Nat), crlf2_at L k → (∀ j, j < k → ¬ crlf2_at L j) →
      get_header_length_scan request p L = (SW_OK, { request with header_length := p + k + 4 }) := by
  induction L with
  | nil =>
    intro request p k hk _
    simp [crlf2_at, slice, bytes_CRLF2] at hk
  | cons c rest ih =>
    intro request p k hk hfirst
    cases k with
    | zero =>
      have := (header_length_test_iff c rest).mpr hk
      simp only [get_header_length_scan, this, if_true, Nat.add_zero]
    | succ k =>
      have h0 : ¬ crlf2_at (c :: rest) 0 := hfirst 0 (Nat.succ_pos k)
      have hc : (c == 13 && decide (4 ≤ (c :: rest).length)
          && memcmp_eq (c :: rest) (bytes "\r\n\r\n") 4) = false := by
        cases hb : (c == 13 && decide (4 ≤ (c :: rest).length)
          && memcmp_eq (c :: rest) (bytes "\r\n\r\n") 4) with
        | false => rfl
        | true => exact absurd ((header_length_test_iff c rest).mp hb) h0
      have hk2 : crlf2_at rest k := by
        simpa only [crlf2_at, slice_cons_succ] using hk
      have hfirst2 : ∀ j, j < k → ¬ crlf2_at rest j := by
        intro j hj hcj
        exact hfirst (j + 1) (by omega) (by simpa only [crlf2_at, slice_cons_succ] using hcj)
      simp only [get_header_length_scan, hc, Bool.false_eq_true, if_false]
      rw [ih request (p + 1) k hk2 hfirst2]
      have e : p + 1 + k + 4 = p + (k + 1) + 4 := by omega
      rw [e]

theorem header_length_scan_none (L : List Nat) :
    ∀ (request : swHttpRequest) (p : Nat), (∀ k, ¬ crlf2_at L k) →
      get_header_length_scan request p L = (SW_ERR, request) := by
  induction L with
  | nil => intro request p _; rfl
  | cons c rest ih =>
    intro request p hnone
    have hc : (c == 13 && decide (4 ≤ (c :: rest).length)
        && memcmp_eq (c :: rest) (bytes "\r\n\r\n") 4) = false := by
      cases hb : (c == 13 && decide (4 ≤ (c :: rest).length)
        && memcmp_eq (c :: rest) (bytes "\r\n\r\n") 4) with
      | false => rfl
      | true => exact absurd ((header_length_test_iff c rest).mp hb) (hnone 0)
    simp only [get_header_length_scan, hc, Bool.false_eq_true, if_false]
    exact ih request (p + 1) (fun k hk =>
      hnone (k + 1) (by simpa only [crlf2_at, slice_cons_succ] using hk))

theorem to_int_of_fits (z : Int) (h0 : 0 ≤ z) (h1 : z < 2 ^ 31) : to_int z = z := by
  unfold to_int
  omega

theorem get_header_length_unfold (request : swHttpRequest)
    (hoff : request.buffer.offset ≤ request.buffer.length)
    (hfit : request.buffer.length - request.buffer.offset < 2 ^ 31) :
    swHttpRequest_get_header_length request =
      get_header_length_scan request request.buffer.offset
        (request.buffer.str.drop request.buffer.offset) := by
  have hz : to_int ((request.buffer.length : Int) - (request.buffer.offset : Int)) =
      ((request.buffer.length - request.buffer.offset : Nat) : Int) := by
    rw [to_int_of_fits] <;> omega
  simp only [swHttpRequest_get_header_length, hz, Int.toNat_ofNat]
  rw [List.take_of_length_le]
  simp only [List.length_drop, swString.length] at *
  omega

theorem slice_take_append (str body : List Nat) (j n m : Nat) (hj : j + n ≤ m)
    (hm : m ≤ str.length) : slice (str.take m ++ body) j n = slice str j n := by
  unfold slice
  rw [List.drop_append_of_le_length (by simp; omega),
    List.take_append_of_le_length (by simp; omega), List.drop_take, List.take_take]
  congr 1
  omega

theorem crlf2_at_bound (str : List Nat) (i : Nat) (h : crlf2_at str i) : i + 4 ≤ str.length :=
  slice_length_le str i 4 (by rw [crlf2_at] at h; rw [h]; rfl) (by decide)

theorem get_header_length_first (request : swHttpRequest)
    (hfit : request.buffer.length - request.buffer.offset < 2 ^ 31)
    (i : Nat) (hi : request.buffer.offset ≤ i) (hocc : crlf2_at request.buffer.str i)
    (hfirst : ∀ j, request.buffer.offset ≤ j → j < i → ¬ crlf2_at request.buffer.str j) :
    swHttpRequest_get_header_length request =
      (SW_OK, { request with header_length := i + 4 }) := by
  have hb := crlf2_at_bound _ _ hocc
  have hoff : request.buffer.offset ≤ request.buffer.length := by
    simp only [swString.length]; omega
  rw [get_header_length_unfold request hoff hfit,
    header_length_scan_found _ request request.buffer.offset (i - request.buffer.offset)]
  · have e : request.buffer.offset + (i - request.buffer.offset) = i := by omega
    rw [e]
  · rw [crlf2_at, slice_drop]
    have e : request.buffer.offset + (i - request.buffer.offset) = i := by omega
    rw [e]; exact hocc
  · intro j hj hcj
    rw [crlf2_at, slice_drop] at hcj
    exact hfirst (request.buffer.offset + j) (by omega) (by omega) hcj

theorem get_header_length_none (request : swHttpRequest)
    (hoff : request.buffer.offset ≤ request.buffer.length)
    (hfit : request.buffer.length - request.buffer.offset < 2 ^ 31)
    (hnone : ∀ i, request.buffer.offset ≤ i → ¬ crlf2_at request.buffer.str i) :
    swHttpRequest_get_header_length request = (SW_ERR, request) := by
  rw [get_header_length_unfold request hoff hfit, header_length_scan_none]
  intro k hk
  rw [crlf2_at, slice_drop] at hk
  exact hnone (request.buffer.offset + k) (by omega) hk

/-- C7: for every buffer (shorter than 2^31 bytes past the cursor, the range of
the `int` the code keeps that length in) and every `buffer.offset <= length`,
`swHttpRequest_get_header_length` succeeds if and only if the bytes of
`[buffer.offset, length)` contain `\r\n\r\n`; on success `header_length` is the
index of the first occurrence plus 4, whatever bytes follow the occurrence; on
failure the request is unchanged. -/
theorem get_header_length_spec (request : swHttpRequest)
    (hoff : request.buffer.offset ≤ request.buffer.length)
    (hfit : request.buffer.length - request.buffer.offset < 2 ^ 31) :
    ((swHttpRequest_get_header_length request).1 = SW_OK ↔
        ∃ i, request.buffer.offset ≤ i ∧ crlf2_at request.buffer.str i)
      ∧ (∀ i, request.buffer.offset ≤ i → crlf2_at request.buffer.str i →
          (∀ j, request.buffer.offset ≤ j → j < i → ¬ crlf2_at request.buffer.str j) →
          swHttpRequest_get_header_length request =
              (SW_OK, { request with header_length := i + 4 })
            ∧ ∀ body : List Nat,
                (request.buffer.str.take (i + 4) ++ body).length - request.buffer.offset < 2 ^ 31 →
                swHttpRequest_get_header_length
                    { request with
                        buffer := { request.buffer with
                                    str := request.buffer.str.take (i + 4) ++ body } } =
                  (SW_OK, { request with
                              buffer := { request.buffer with
                                          str := request.buffer.str.take (i + 4) ++ body },
                              header_length := i + 4 }))
      ∧ ((swHttpRequest_get_header_length request).1 ≠ SW_OK →
          swHttpRequest_get_header_length request = (SW_ERR, request)) := by
  have hsome : (∃ i, request.buffer.offset ≤ i ∧ crlf2_at request.buffer.str i) →
      (swHttpRequest_get_header_length request).1 = SW_OK := by
    intro hex
    classical
    have hex2 : ∃ i, request.buffer.offset ≤ i ∧ crlf2_at request.buffer.str i := hex
    have hmin := Nat.find_spec hex2
    have hlt : ∀ j, request.buffer.offset ≤ j → j < Nat.find hex2 →
        ¬ crlf2_at request.buffer.str j := fun j hj hjl hc => Nat.find_min hex2 hjl ⟨hj, hc⟩
    rw [get_header_length_first request hfit _ hmin.1 hmin.2 hlt]
  have hnone : ¬ (∃ i, request.buffer.offset ≤ i ∧ crlf2_at request.buffer.str i) →
      swHttpRequest_get_header_length request = (SW_ERR, request) := by
    intro hne
    exact get_header_length_none request hoff hfit (fun i hi hc => hne ⟨i, hi, hc⟩)
  refine ⟨⟨?_, hsome⟩, ?_, ?_⟩
  · intro hok
    by_contra hne
    rw [hnone hne] at hok
    have hd : (SW_ERR : Int) ≠ SW_OK := by decide
    exact hd hok
  · intro i hi hocc hfirst
    refine ⟨get_header_length_first request hfit i hi hocc hfirst, ?_⟩
    intro body hfit2
    have hb := crlf2_at_bound _ _ hocc
    have h1 : crlf2_at (request.buffer.str.take (i + 4) ++ body) i := by
      rw [crlf2_at, slice_take_append _ _ _ _ _ (le_refl _) hb]
      exact hocc
    have h2 : ∀ j, request.buffer.offset ≤ j → j < i →
        ¬ crlf2_at (request.buffer.str.take (i + 4) ++ body) j := by
      intro j hj hji hcj
      rw [crlf2_at, slice_take_append _ _ _ _ _ (by omega) hb] at hcj
      exact hfirst j hj hji hcj
    exact get_header_length_first
      { request with
          buffer := { request.buffer with str := request.buffer.str.take (i + 4) ++ body } }
      hfit2 i hi h1 h2
  · intro hnok
    by_cases hex : ∃ i, request.buffer.offset ≤ i ∧ crlf2_at request.buffer.str i
    · exact absurd (hsome hex) hnok
    · exact hnone hex

/-! ## Header extraction: one pass of the loop -/

theorem bytes_content_length :
    bytes "Content-Length:" = [67, 111, 110, 116, 101, 110, 116, 45, 76, 101, 110, 103, 116, 104, 58] := by
  decide

theorem bytes_connection :
    bytes "Connection:" = [67, 111, 110, 110, 101, 99, 116, 105, 111, 110, 58] := by
  decide

theorem bytes_keep_alive :
    bytes "keep-alive" = [107, 101, 101, 112, 45, 97, 108, 105, 118, 101] := by
  decide

theorem byte_at_eq (str : List Nat) (p b : Nat) (h : str[p]? = some b) : byte_at str p = b := by
  simp [byte_at, h]

theorem ciEq_byte (a lit : List Nat) (h : ciEq a lit) (k : Nat) (hk : k < lit.length) :
    tolower (a.getD k 0) = tolower (lit.getD k 0) := by
  unfold ciEq at h
  have hlen : a.length = lit.length := by
    have := congrArg List.length h
    simpa using this
  have hka : k < a.length := by omega
  have h1 : (a.map tolower)[k]? = (lit.map tolower)[k]? := by rw [h]
  rw [List.getElem?_map, List.getElem?_map, List.getElem?_eq_getElem hka,
    List.getElem?_eq_getElem hk] at h1
  simp only [Option.map_some', Option.some.injEq] at h1
  have h2 : a.getD k 0 = a[k] := by
    simp [List.getD, List.getElem?_eq_getElem hka]
  have h3 : lit.getD k 0 = lit[k] := by
    simp [List.getD, List.getElem?_eq_getElem hk]
  rw [h2, h3, h1]

theorem slice_getD (str : List Nat) (q n k : Nat) (hk : k < n) :
    (slice str q n).getD k 0 = byte_at str (q + k) := by
  simp [slice, byte_at, List.getD, List.getElem?_take, hk, List.getElem?_drop]

theorem strcasect_iff (str : List Nat) (q plen : Nat) (lit : List Nat) :
    SW_STRCASECT (str.drop q) plen lit = true ↔
      lit.length ≤ plen ∧ ciEq (slice str q lit.length) lit := by
  simp [SW_STRCASECT, slice]

theorem strcasect_byte (str : List Nat) (q plen : Nat) (lit : List Nat)
    (h : SW_STRCASECT (str.drop q) plen lit = true) (k : Nat) (hk : k < lit.length) :
    tolower (byte_at str (q + k)) = tolower (lit.getD k 0) := by
  have h2 := ((strcasect_iff str q plen lit).mp h).2
  have := ciEq_byte _ _ h2 k hk
  rwa [slice_getD str q lit.length k hk] at this

theorem strcasect_byte_ne (str : List Nat) (q plen : Nat) (lit : List Nat) (x : Nat)
    (h : SW_STRCASECT (str.drop q) plen lit = true) (hx : tolower x ∉ lit.map tolower)
    (k : Nat) (hk : k < lit.length) : byte_at str (q + k) ≠ x := by
  intro hb
  have h1 := strcasect_byte str q plen lit h k hk
  rw [hb] at h1
  apply hx
  rw [h1]
  have h3 : lit.getD k 0 = lit[k] := by
    simp [List.getD, List.getElem?_eq_getElem hk]
  rw [h3]
  exact List.mem_map.mpr ⟨lit[k], List.getElem_mem _, rfl⟩

theorem strcasect_exclusive (str : List Nat) (q n1 n2 : Nat)
    (h1 : SW_STRCASECT (str.drop q) n1 (bytes "Content-Length:") = true)
    (h2 : SW_STRCASECT (str.drop q) n2 (bytes "Connection:") = true) : False := by
  have a1 := strcasect_byte str q n1 _ h1 3 (by decide)
  have a2 := strcasect_byte str q n2 _ h2 3 (by decide)
  rw [a1] at a2
  revert a2
  decide

theorem line_break_iff (str : List Nat) (p : Nat) :
    (byte_at str p == 10 && byte_at str (p - 1) == 13) = true ↔ line_break_at str p := by
  simp [line_break_at]

theorem body_cases (str : List Nat) (pe p : Nat) (request : swHttpRequest) (got_len : Bool) :
    (¬ line_break_at str p
        ∧ get_header_info_body str pe p request got_len = (p + 1, request, got_len))
    ∨ (line_break_at str p
        ∧ SW_STRCASECT (str.drop (p + 1)) (ptrdiff_size pe (p + 1)) (bytes "Content-Length:") = true
        ∧ get_header_info_body str pe p request got_len =
            (skip_space str (p + 1 + 15) + 1,
              { request with content_length := atoi (str.drop (skip_space str (p + 1 + 15))) },
              true))
    ∨ (line_break_at str p
        ∧ SW_STRCASECT (str.drop (p + 1)) (ptrdiff_size pe (p + 1)) (bytes "Content-Length:") = false
        ∧ SW_STRCASECT (str.drop (p + 1)) (ptrdiff_size pe (p + 1)) (bytes "Connection:") = true
        ∧ SW_STRCASECT (str.drop (skip_space str (p + 1 + 11)))
            (ptrdiff_size pe (skip_space str (p + 1 + 11))) (bytes "keep-alive") = true
        ∧ get_header_info_body str pe p request got_len =
            (skip_space str (p + 1 + 11) + 1, { request with keep_alive := true }, got_len))
    ∨ (line_break_at str p
        ∧ SW_STRCASECT (str.drop (p + 1)) (ptrdiff_size pe (p + 1)) (bytes "Content-Length:") = false
        ∧ SW_STRCASECT (str.drop (p + 1)) (ptrdiff_size pe (p + 1)) (bytes "Connection:") = true
        ∧ SW_STRCASECT (str.drop (skip_space str (p + 1 + 11)))
            (ptrdiff_size pe (skip_space str (p + 1 + 11))) (bytes "keep-alive") = false
        ∧ get_header_info_body str pe p request got_len =
            (skip_space str (p + 1 + 11) + 1, request, got_len))
    ∨ (line_break_at str p
        ∧ SW_STRCASECT (str.drop (p + 1)) (ptrdiff_size pe (p + 1)) (bytes "Content-Length:") = false
        ∧ SW_STRCASECT (str.drop (p + 1)) (ptrdiff_size pe (p + 1)) (bytes "Connection:") = false
        ∧ get_header_info_body str pe p request got_len = (p + 1 + 1, request, got_len)) := by
  unfold get_header_info_body
  by_cases hb : (byte_at str p == 10 && byte_at str (p - 1) == 13) = true
  · have hbr := (line_break_iff str p).mp hb
    rw [if_pos hb]
    right
    cases h1 : SW_STRCASECT (str.drop (p + 1)) (ptrdiff_size pe (p + 1)) (bytes "Content-Length:")
    · right
      cases h2 : SW_STRCASECT (str.drop (p + 1)) (ptrdiff_size pe (p + 1)) (bytes "Connection:")
      · right; right
        simp [hbr, h1, h2]
      · cases h3 : SW_STRCASECT (str.drop (skip_space str (p + 1 + 11)))
            (ptrdiff_size pe (skip_space str (p + 1 + 11))) (bytes "keep-alive")
        · right; left
          simp [hbr, h1, h2, h3]
        · left
          simp [hbr, h1, h2, h3]
    · left
      simp [hbr, h1]
  · left
    rw [if_neg hb]
    exact ⟨fun h => hb ((line_break_iff str p).mpr h), rfl⟩

theorem skip_space_cases (str : List Nat) (p : Nat) :
    (byte_at str p = 32 ∧ skip_space str p = p + 1) ∨ (byte_at str p ≠ 32 ∧ skip_space str p = p) := by
  unfold skip_space
  by_cases h : byte_at str p = 32
  · left; simp [h]
  · right; simp [h]

theorem body_fst_gt (str : List Nat) (pe p : Nat) (request : swHttpRequest) (got_len : Bool) :
    p < (get_header_info_body str pe p request got_len).1 := by
  rcases body_cases str pe p request got_len with
    ⟨_, h⟩ | ⟨_, _, h⟩ | ⟨_, _, _, _, h⟩ | ⟨_, _, _, _, h⟩ | ⟨_, _, _, h⟩ <;> rw [h] <;> simp only
  · omega
  · rcases skip_space_cases str (p + 1 + 15) with ⟨_, e⟩ | ⟨_, e⟩ <;> omega
  · rcases skip_space_cases str (p + 1 + 11) with ⟨_, e⟩ | ⟨_, e⟩ <;> omega
  · rcases skip_space_cases str (p + 1 + 11) with ⟨_, e⟩ | ⟨_, e⟩ <;> omega
  · omega


theorem skip_region (str : List Nat) (p plen : Nat) (lit : List Nat)
    (hbr : line_break_at str p) (hct : SW_STRCASECT (str.drop (p + 1)) plen lit = true)
    (h13 : tolower 13 ∉ lit.map tolower) (j : Nat) (hpj : p < j)
    (hj : j < skip_space str (p + 1 + lit.length) + 1) : ¬ line_break_at str j := by
  intro hbj
  have hj13 : byte_at str (j - 1) = 13 := hbj.2
  by_cases e1 : j = p + 1
  · have h10 : byte_at str p = 10 := hbr.1
    rw [e1, Nat.add_sub_cancel, h10] at hj13
    exact absurd hj13 (by decide)
  · by_cases e2 : j - 1 < p + 1 + lit.length
    · have hk := strcasect_byte_ne str (p + 1) plen lit 13 hct h13 (j - 1 - (p + 1)) (by omega)
      have e3 : p + 1 + (j - 1 - (p + 1)) = j - 1 := by omega
      rw [e3] at hk
      exact hk hj13
    · rcases skip_space_cases str (p + 1 + lit.length) with ⟨h32, e⟩ | ⟨_, e⟩
      · have e3 : j - 1 = p + 1 + lit.length := by omega
        rw [e3, h32] at hj13
        exact absurd hj13 (by decide)
      · omega

theorem body_skip (str : List Nat) (pe p : Nat) (request : swHttpRequest) (got_len : Bool)
    (j : Nat) (hpj : p < j) (hj : j < (get_header_info_body str pe p request got_len).1) :
    ¬ line_break_at str j := by
  rcases body_cases str pe p request got_len with
    ⟨_, h⟩ | ⟨hbr, hct, h⟩ | ⟨hbr, _, hct, _, h⟩ | ⟨hbr, _, hct, _, h⟩ | ⟨hbr, _, _, h⟩ <;>
    rw [h] at hj <;> simp only at hj
  · omega
  · exact skip_region str p _ _ hbr hct (by decide) j hpj hj
  · exact skip_region str p _ _ hbr hct (by decide) j hpj hj
  · exact skip_region str p _ _ hbr hct (by decide) j hpj hj
  · have e1 : j = p + 1 := by omega
    intro hbj
    have hj13 : byte_at str (j - 1) = 13 := hbj.2
    have h10 : byte_at str p = 10 := hbr.1
    rw [e1, Nat.add_sub_cancel, h10] at hj13
    exact absurd hj13 (by decide)

/-! ## Header extraction: the loop -/

theorem loop_step (str : List Nat) (pe fuel p : Nat) (request : swHttpRequest) (got_len : Bool)
    (hp : p < pe) :
    get_header_info_loop str pe (fuel + 1) p request got_len =
      get_header_info_loop str pe fuel (get_header_info_body str pe p request got_len).1
        (get_header_info_body str pe p request got_len).2.1
        (get_header_info_body str pe p request got_len).2.2 := by
  simp [get_header_info_loop, hp]

theorem loop_done (str : List Nat) (pe fuel p : Nat) (request : swHttpRequest) (got_len : Bool)
    (hp : pe ≤ p) : get_header_info_loop str pe fuel p request got_len = (request, got_len) := by
  cases fuel with
  | zero => rfl
  | succ f => simp [get_header_info_loop, Nat.not_lt.mpr hp]

/-- The fuel of the loop never runs out: any two supplies of at least
`pe - p` passes give the same result. -/
theorem loop_fuel_enough (str : List Nat) (pe : Nat) :
    ∀ (f1 f2 p : Nat) (request : swHttpRequest) (got_len : Bool),
      pe - p ≤ f1 → pe - p ≤ f2 →
      get_header_info_loop str pe f1 p request got_len =
        get_header_info_loop str pe f2 p request got_len := by
  intro f1
  induction f1 with
  | zero =>
    intro f2 p request got_len h1 _
    rw [loop_done str pe 0 p request got_len (by omega),
      loop_done str pe f2 p request got_len (by omega)]
  | succ f ih =>
    intro f2 p request got_len h1 h2
    by_cases hp : p < pe
    · cases f2 with
      | zero => omega
      | succ g =>
        have hgt := body_fst_gt str pe p request got_len
        rw [loop_step _ _ _ _ _ _ hp, loop_step _ _ _ _ _ _ hp]
        exact ih g _ _ _ (by omega) (by omega)
    · rw [loop_done str pe _ p request got_len (by omega),
        loop_done str pe f2 p request got_len (by omega)]

theorem loop_reach (str : List Nat) (pe j : Nat) (hj : j < pe) (hbr : line_break_at str j) :
    ∀ (fuel p : Nat) (request : swHttpRequest) (got_len : Bool),
      pe - p ≤ fuel → p ≤ j →
      ∃ (fuel2 : Nat) (request2 : swHttpRequest) (got_len2 : Bool),
        pe - j ≤ fuel2 ∧
        get_header_info_loop str pe fuel p request got_len =
          get_header_info_loop str pe fuel2 j request2 got_len2 := by
  intro fuel
  induction fuel with
  | zero => intro p request got_len h1 h2; omega
  | succ f ih =>
    intro p request got_len h1 h2
    by_cases e : p = j
    · subst e
      exact ⟨f + 1, request, got_len, h1, rfl⟩
    · have hgt := body_fst_gt str pe p request got_len
      have hle : (get_header_info_body str pe p request got_len).1 ≤ j := by
        by_contra hc
        exact body_skip str pe p request got_len j (by omega) (by omega) hbr
      rw [loop_step _ _ _ _ _ _ (by omega)]
      exact ih _ _ _ (by omega) hle

theorem body_keep_alive_mono (str : List Nat) (pe p : Nat) (request : swHttpRequest)
    (got_len : Bool) (h : request.keep_alive = true) :
    (get_header_info_body str pe p request got_len).2.1.keep_alive = true := by
  rcases body_cases str pe p request got_len with
    ⟨_, e⟩ | ⟨_, _, e⟩ | ⟨_, _, _, _, e⟩ | ⟨_, _, _, _, e⟩ | ⟨_, _, _, e⟩ <;> rw [e] <;> simp [h]

theorem loop_keep_alive_mono (str : List Nat) (pe : Nat) :
    ∀ (fuel p : Nat) (request : swHttpRequest) (got_len : Bool), request.keep_alive = true →
      (get_header_info_loop str pe fuel p request got_len).1.keep_alive = true := by
  intro fuel
  induction fuel with
  | zero => intro p request got_len h; exact h
  | succ f ih =>
    intro p request got_len h
    by_cases hp : p < pe
    · rw [loop_step _ _ _ _ _ _ hp]
      exact ih _ _ _ (body_keep_alive_mono str pe p request got_len h)
    · rw [loop_done _ _ _ _ _ _ (by omega)]
      exact h

theorem loop_content_length_frame (str : List Nat) (pe : Nat) :
    ∀ (fuel p : Nat) (request : swHttpRequest) (got_len : Bool),
      (∀ j, p ≤ j → j < pe → line_break_at str j →
        SW_STRCASECT (str.drop (j + 1)) (ptrdiff_size pe (j + 1)) (bytes "Content-Length:") = false) →
      (get_header_info_loop str pe fuel p request got_len).1.content_length = request.content_length
        ∧ (get_header_info_loop str pe fuel p request got_len).2 = got_len := by
  intro fuel
  induction fuel with
  | zero => intro p request got_len _; exact ⟨rfl, rfl⟩
  | succ f ih =>
    intro p request got_len h
    by_cases hp : p < pe
    · have hgt := body_fst_gt str pe p request got_len
      rw [loop_step _ _ _ _ _ _ hp]
      have hrec := ih (get_header_info_body str pe p request got_len).1
        (get_header_info_body str pe p request got_len).2.1
        (get_header_info_body str pe p request got_len).2.2
        (fun j h1 h2 h3 => h j (by omega) h2 h3)
      rw [hrec.1, hrec.2]
      rcases body_cases str pe p request got_len with
        ⟨_, e⟩ | ⟨hbr, hct, e⟩ | ⟨_, _, _, _, e⟩ | ⟨_, _, _, _, e⟩ | ⟨_, _, _, e⟩
      · rw [e]; exact ⟨rfl, rfl⟩
      · have := h p (le_refl _) hp hbr
        rw [this] at hct
        exact absurd hct (by decide)
      · rw [e]; exact ⟨rfl, rfl⟩
      · rw [e]; exact ⟨rfl, rfl⟩
      · rw [e]; exact ⟨rfl, rfl⟩
    · rw [loop_done _ _ _ _ _ _ (by omega)]
      exact ⟨rfl, rfl⟩

theorem loop_keep_alive_frame (str : List Nat) (pe : Nat) :
    ∀ (fuel p : Nat) (request : swHttpRequest) (got_len : Bool),
      (∀ j, p ≤ j → j < pe → line_break_at str j →
        SW_STRCASECT (str.drop (j + 1)) (ptrdiff_size pe (j + 1)) (bytes "Connection:") = true →
        SW_STRCASECT (str.drop (skip_space str (j + 1 + 11)))
          (ptrdiff_size pe (skip_space str (j + 1 + 11))) (bytes "keep-alive") = false) →
      (get_header_info_loop str pe fuel p request got_len).1.keep_alive = request.keep_alive := by
  intro fuel
  induction fuel with
  | zero => intro p request got_len _; rfl
  | succ f ih =>
    intro p request got_len h
    by_cases hp : p < pe
    · have hgt := body_fst_gt str pe p request got_len
      rw [loop_step _ _ _ _ _ _ hp]
      have hrec := ih (get_header_info_body str pe p request got_len).1
        (get_header_info_body str pe p request got_len).2.1
        (get_header_info_body str pe p request got_len).2.2
        (fun j h1 h2 h3 => h j (by omega) h2 h3)
      rw [hrec]
      rcases body_cases str pe p request got_len with
        ⟨_, e⟩ | ⟨_, _, e⟩ | ⟨hbr, _, hconn, hka, e⟩ | ⟨_, _, _, _, e⟩ | ⟨_, _, _, e⟩
      · rw [e]
      · rw [e]
      · have := h p (le_refl _) hp hbr hconn
        rw [this] at hka
        exact absurd hka (by decide)
      · rw [e]
      · rw [e]
    · rw [loop_done _ _ _ _ _ _ (by omega)]


theorem loop_sets_keep_alive (str : List Nat) (pe j : Nat) (hj : j < pe)
    (hbr : line_break_at str j)
    (hconn : SW_STRCASECT (str.drop (j + 1)) (ptrdiff_size pe (j + 1)) (bytes "Connection:") = true)
    (hka : SW_STRCASECT (str.drop (skip_space str (j + 1 + 11)))
      (ptrdiff_size pe (skip_space str (j + 1 + 11))) (bytes "keep-alive") = true)
    (fuel p : Nat) (request : swHttpRequest) (got_len : Bool)
    (hfuel : pe - p ≤ fuel) (hp : p ≤ j) :
    (get_header_info_loop str pe fuel p request got_len).1.keep_alive = true := by
  obtain ⟨fuel2, request2, got_len2, hf2, e⟩ :=
    loop_reach str pe j hj hbr fuel p request got_len hfuel hp
  rw [e]
  obtain ⟨f, rfl⟩ : ∃ f, fuel2 = f + 1 := ⟨fuel2 - 1, by omega⟩
  rw [loop_step _ _ _ _ _ _ hj]
  apply loop_keep_alive_mono
  rcases body_cases str pe j request2 got_len2 with
    ⟨hn, _⟩ | ⟨_, hcl, _⟩ | ⟨_, _, _, _, e2⟩ | ⟨_, _, _, hka2, _⟩ | ⟨_, _, hconn2, _⟩
  · exact absurd hbr hn
  · exact (strcasect_exclusive str (j + 1) _ _ hcl hconn).elim
  · rw [e2]
  · rw [hka] at hka2
    exact absurd hka2 (by decide)
  · rw [hconn] at hconn2
    exact absurd hconn2 (by decide)

theorem loop_sets_content_length (str : List Nat) (pe j : Nat) (hj : j < pe)
    (hbr : line_break_at str j)
    (hcl : SW_STRCASECT (str.drop (j + 1)) (ptrdiff_size pe (j + 1))
      (bytes "Content-Length:") = true)
    (honly : ∀ i, j < i → i < pe → line_break_at str i →
      SW_STRCASECT (str.drop (i + 1)) (ptrdiff_size pe (i + 1)) (bytes "Content-Length:") = false)
    (fuel p : Nat) (request : swHttpRequest) (got_len : Bool)
    (hfuel : pe - p ≤ fuel) (hp : p ≤ j) :
    (get_header_info_loop str pe fuel p request got_len).1.content_length =
        atoi (str.drop (skip_space str (j + 1 + 15)))
      ∧ (get_header_info_loop str pe fuel p request got_len).2 = true := by
  obtain ⟨fuel2, request2, got_len2, hf2, e⟩ :=
    loop_reach str pe j hj hbr fuel p request got_len hfuel hp
  rw [e]
  obtain ⟨f, rfl⟩ : ∃ f, fuel2 = f + 1 := ⟨fuel2 - 1, by omega⟩
  have hgt := body_fst_gt str pe j request2 got_len2
  rw [loop_step _ _ _ _ _ _ hj]
  have hfr := loop_content_length_frame str pe f
    (get_header_info_body str pe j request2 got_len2).1
    (get_header_info_body str pe j request2 got_len2).2.1
    (get_header_info_body str pe j request2 got_len2).2.2
    (fun i h1 h2 h3 => honly i (by omega) h2 h3)
  rw [hfr.1, hfr.2]
  rcases body_cases str pe j request2 got_len2 with
    ⟨hn, _⟩ | ⟨_, _, e2⟩ | ⟨_, hcl2, _⟩ | ⟨_, hcl2, _⟩ | ⟨_, hcl2, _⟩
  · exact absurd hbr hn
  · rw [e2]
    exact ⟨rfl, rfl⟩
  · rw [hcl] at hcl2; exact absurd hcl2 (by decide)
  · rw [hcl] at hcl2; exact absurd hcl2 (by decide)
  · rw [hcl] at hcl2; exact absurd hcl2 (by decide)

/-! ## Header extraction: from the buffer to the memory the loop reads -/

theorem byte_at_set_of_ne (str : List Nat) (pe j v : Nat) (h : j ≠ pe) :
    byte_at (str.set pe v) j = byte_at str j := by
  simp [byte_at, List.getD, List.getElem?_set_ne (Ne.symm h)]

theorem byte_at_set_self (str : List Nat) (pe v : Nat) (h : pe < str.length) :
    byte_at (str.set pe v) pe = v := by
  simp [byte_at, List.getD, List.getElem?_set_self, h]

theorem set_eq_take_cons (str : List Nat) (pe v : Nat) (h : pe < str.length) :
    str.set pe v = str.take pe ++ v :: str.drop (pe + 1) := by
  rw [List.set_eq_take_append_cons_drop, if_pos h]

theorem slice_set (str : List Nat) (pe v q n : Nat) (h : q + n ≤ pe) (hpe : pe < str.length) :
    slice (str.set pe v) q n = slice str q n := by
  rw [set_eq_take_cons str pe v hpe, slice_take_append _ _ _ _ _ h (by omega)]

theorem line_break_set (str : List Nat) (pe v j : Nat) (hj : j < pe) :
    line_break_at (str.set pe v) j ↔ line_break_at str j := by
  unfold line_break_at
  rw [byte_at_set_of_ne _ _ _ _ (by omega), byte_at_set_of_ne _ _ _ _ (by omega)]

theorem header_length_scan_ok (L : List Nat) :
    ∀ (request out : swHttpRequest) (p : Nat),
      get_header_length_scan request p L = (SW_OK, out) →
      ∃ k, crlf2_at L k ∧ out = { request with header_length := p + k + 4 } := by
  induction L with
  | nil =>
    intro request out p h
    simp only [get_header_length_scan, Prod.mk.injEq] at h
    exact absurd h.1 (by decide)
  | cons c rest ih =>
    intro request out p h
    by_cases hc : (c == 13 && decide (4 ≤ (c :: rest).length)
        && memcmp_eq (c :: rest) (bytes "\r\n\r\n") 4) = true
    · simp only [get_header_length_scan, hc, if_true, Prod.mk.injEq] at h
      exact ⟨0, (header_length_test_iff c rest).mp hc, h.2.symm⟩
    · simp only [get_header_length_scan, hc, Bool.false_eq_true, if_false] at h
      obtain ⟨k, hk, e⟩ := ih request out (p + 1) h
      refine ⟨k + 1, by simpa only [crlf2_at, slice_cons_succ] using hk, ?_⟩
      rw [e]
      have e2 : p + 1 + k + 4 = p + (k + 1) + 4 := by omega
      rw [e2]

theorem slice_of_take (X : List Nat) (n k m : Nat) (lit : List Nat) (hl : lit.length = m)
    (h : slice (X.take n) k m = lit) : slice X k m = lit := by
  unfold slice at *
  rw [List.drop_take, List.take_take] at h
  have hlen := congrArg List.length h
  rw [List.length_take, List.length_drop, hl] at hlen
  have hmin : min m (n - k) = m := by omega
  rw [hmin] at h
  exact h

theorem byte_at_of_slice (str : List Nat) (i n k : Nat) (lit : List Nat)
    (h : slice str i n = lit) (hk : k < n) : byte_at str (i + k) = lit.getD k 0 := by
  rw [← slice_getD str i n k hk, h]

/-- What a successful header-length detection leaves behind: the cursor is
not past the blank line, which lies inside the buffer and starts with `\r`. -/
theorem header_block_facts (request out : swHttpRequest)
    (h : swHttpRequest_get_header_length request = (SW_OK, out)) :
    out.buffer.offset ≤ out.header_length - 4
      ∧ out.header_length - 4 < out.buffer.str.length
      ∧ byte_at out.buffer.str (out.header_length - 4) = 13
      ∧ out.keep_alive = request.keep_alive ∧ out.content_length = request.content_length := by
  unfold swHttpRequest_get_header_length at h
  obtain ⟨k, hk, e⟩ := header_length_scan_ok _ _ _ _ h
  have hk2 : crlf2_at request.buffer.str (request.buffer.offset + k) := by
    have := slice_of_take _ _ _ 4 _ (by decide) hk
    rwa [slice_drop] at this
  have hb := crlf2_at_bound _ _ hk2
  have h13 : byte_at request.buffer.str (request.buffer.offset + k + 0) = 13 := by
    rw [byte_at_of_slice _ _ 4 0 _ hk2 (by decide)]
    decide
  subst e
  rw [Nat.add_zero] at h13
  refine ⟨?_, ?_, ?_, rfl, rfl⟩
  · simp only [Nat.add_sub_cancel]; omega
  · simp only [Nat.add_sub_cancel]; omega
  · simp only [Nat.add_sub_cancel]; exact h13

theorem tolower_eq_space (c : Nat) (h : tolower c = tolower 32) : c = 32 := by
  unfold tolower at h
  split_ifs at h <;> omega

theorem ciEq_take (a b : List Nat) (n : Nat) (h : ciEq a b) : ciEq (a.take n) (b.take n) := by
  unfold ciEq at *
  rw [List.map_take, List.map_take, h]

theorem ciEq_drop (a b : List Nat) (n : Nat) (h : ciEq a b) : ciEq (a.drop n) (b.drop n) := by
  unfold ciEq at *
  rw [List.map_drop, List.map_drop, h]

theorem slice_take_le (str : List Nat) (q n m : Nat) (h : m ≤ n) :
    (slice str q n).take m = slice str q m := by
  unfold slice
  rw [List.take_take, Nat.min_eq_left h]

theorem slice_drop_add (str : List Nat) (q n m : Nat) :
    (slice str q (m + n)).drop m = slice str (q + m) n := by
  unfold slice
  rw [List.drop_take, List.drop_drop, Nat.add_sub_cancel_left]

theorem strcasect_set_iff (str : List Nat) (pe q : Nat) (lit : List Nat) (hq : q ≤ pe)
    (hpe : pe < str.length) :
    SW_STRCASECT ((str.set pe 0).drop q) (ptrdiff_size pe q) lit = true ↔
      q + lit.length ≤ pe ∧ ciEq (slice str q lit.length) lit := by
  rw [strcasect_iff]
  have e : ptrdiff_size pe q = pe - q := by simp [ptrdiff_size, hq]
  rw [e]
  constructor
  · rintro ⟨h1, h2⟩
    have h3 : q + lit.length ≤ pe := by omega
    rw [slice_set _ _ _ _ _ h3 hpe] at h2
    exact ⟨h3, h2⟩
  · rintro ⟨h1, h2⟩
    rw [slice_set _ _ _ _ _ h1 hpe]
    exact ⟨by omega, h2⟩

theorem skip_space_set (str : List Nat) (pe q : Nat) (hpe : pe < str.length)
    (h13 : byte_at str pe = 13) :
    skip_space (str.set pe 0) q = skip_space str q := by
  unfold skip_space
  by_cases e : q = pe
  · subst e
    rw [byte_at_set_self _ _ _ hpe, h13]
    rfl
  · rw [byte_at_set_of_ne _ _ _ _ e]

theorem skip_space_le (str : List Nat) (pe q : Nat) (hq : q ≤ pe) (h13 : byte_at str pe = 13) :
    skip_space str q ≤ pe := by
  rcases skip_space_cases str q with ⟨h32, e⟩ | ⟨_, e⟩
  · have : q ≠ pe := by
      intro e2
      rw [e2, h13] at h32
      exact absurd h32 (by decide)
    omega
  · omega

/-! ## Header extraction: `atoi` -/

theorem atoi_digits_eq (text : List Nat) :
    ∀ acc, atoi_digits text acc =
      (text.takeWhile isdigit).foldl (fun a d => a * 10 + (d - 48)) acc := by
  induction text with
  | nil => intro acc; rfl
  | cons c rest ih =>
    intro acc
    by_cases hc : isdigit c = true
    · simp only [atoi_digits, hc, if_true, List.takeWhile_cons, List.foldl_cons]
      exact ih _
    · simp only [atoi_digits, hc, Bool.false_eq_true, if_false, List.takeWhile_cons, List.foldl_nil]

theorem atoi_leading (text : List Nat) (hd : isdigit (text.getD 0 0) = true)
    (hv : leading_number text < 2 ^ 31) : atoi text = (leading_number text : Int) := by
  cases text with
  | nil => exact absurd hd (by decide)
  | cons c rest =>
    have hc : isdigit c = true := by simpa [List.getD] using hd
    have hc2 : 48 ≤ c ∧ c ≤ 57 := by simpa [isdigit] using hc
    have hsp : isspace c = false := by
      simp only [isspace, Bool.or_eq_false_iff, beq_eq_false_iff_ne, Bool.and_eq_false_iff,
        decide_eq_false_iff_not]
      omega
    have h45 : (c == 45) = false := by
      simp only [beq_eq_false_iff_ne]; omega
    have h43 : (c == 43) = false := by
      simp only [beq_eq_false_iff_ne]; omega
    have hval : atoi_digits (c :: rest) 0 = leading_number (c :: rest) := by
      rw [atoi_digits_eq]; rfl
    unfold atoi
    simp only [List.dropWhile_cons, hsp, Bool.false_eq_true, if_false, h45, h43, hval]
    have hz : (0 : Int) ≤ (leading_number (c :: rest) : Int) := Int.ofNat_nonneg _
    have hlt : (leading_number (c :: rest) : Int) < 2 ^ 31 := by exact_mod_cast hv
    rw [min_eq_right (by omega), max_eq_right (by omega), to_int_of_fits _ hz hlt]

theorem takeWhile_append_stop (f : Nat → Bool) (L : List Nat) (c : Nat) (t : List Nat)
    (hc : f c = false) : (L ++ c :: t).takeWhile f = L.takeWhile f := by
  induction L with
  | nil => simp [List.takeWhile_cons, hc]
  | cons a L ih =>
    by_cases ha : f a = true
    · simp only [List.cons_append, List.takeWhile_cons, ha, if_true, ih]
    · simp only [List.cons_append, List.takeWhile_cons, ha, Bool.false_eq_true, if_false]

theorem drop_of_byte_at (str : List Nat) (pe : Nat) (hpe : pe < str.length) :
    str.drop pe = byte_at str pe :: str.drop (pe + 1) := by
  have : byte_at str pe = str[pe] := by
    simp [byte_at, List.getD, List.getElem?_eq_getElem hpe]
  rw [this]
  exact List.drop_eq_getElem_cons hpe

theorem leading_number_set (str : List Nat) (pe v : Nat) (hv : v ≤ pe) (hpe : pe < str.length)
    (h13 : byte_at str pe = 13) :
    leading_number ((str.set pe 0).drop v) = leading_number (str.drop v) := by
  have e1 : (str.set pe 0).drop v = (str.take pe).drop v ++ 0 :: str.drop (pe + 1) := by
    rw [set_eq_take_cons str pe 0 hpe, List.drop_append_of_le_length (by simp; omega)]
  have e2 : str.drop v = (str.take pe).drop v ++ 13 :: str.drop (pe + 1) := by
    conv_lhs => rw [← List.take_append_drop pe str]
    rw [List.drop_append_of_le_length (by simp; omega), drop_of_byte_at str pe hpe, h13]
  unfold leading_number
  rw [e1, e2, takeWhile_append_stop _ _ _ _ (by decide), takeWhile_append_stop _ _ _ _ (by decide)]

theorem getD_drop_zero (str : List Nat) (v : Nat) : (str.drop v).getD 0 0 = byte_at str v := by
  simp [byte_at, List.getD, List.getElem?_drop]

/-! ## Header extraction: the claims -/

theorem header_line_of_code (request : swHttpRequest) (j : Nat) (lit : List Nat)
    (hpe : request.header_length - 4 < request.buffer.str.length)
    (hj1 : request.buffer.offset + 1 ≤ j) (hj : j < request.header_length - 4)
    (hbr : line_break_at (request.buffer.str.set (request.header_length - 4) 0) j)
    (hct : SW_STRCASECT ((request.buffer.str.set (request.header_length - 4) 0).drop (j + 1))
      (ptrdiff_size (request.header_length - 4) (j + 1)) lit = true) :
    header_line_at request (j + 1) lit := by
  have h := (strcasect_set_iff _ _ _ lit (by omega) hpe).mp hct
  have hb := (line_break_set _ _ 0 j hj).mp hbr
  refine ⟨by omega, h.1, ?_, ?_, h.2⟩
  · have e : j + 1 - 2 = j - 1 := by omega
    rw [e]; exact hb.2
  · rw [Nat.add_sub_cancel]; exact hb.1

theorem code_of_header_line (request : swHttpRequest) (q : Nat) (lit : List Nat)
    (hpe : request.header_length - 4 < request.buffer.str.length)
    (hlit : 0 < lit.length) (h : header_line_at request q lit) :
    request.buffer.offset + 1 ≤ q - 1 ∧ q - 1 < request.header_length - 4
      ∧ line_break_at (request.buffer.str.set (request.header_length - 4) 0) (q - 1)
      ∧ SW_STRCASECT ((request.buffer.str.set (request.header_length - 4) 0).drop (q - 1 + 1))
          (ptrdiff_size (request.header_length - 4) (q - 1 + 1)) lit = true := by
  obtain ⟨h1, h2, h3, h4, h5⟩ := h
  have e : q - 1 + 1 = q := by omega
  refine ⟨by omega, by omega, ?_, ?_⟩
  · rw [line_break_set _ _ 0 (q - 1) (by omega)]
    have e2 : q - 1 - 1 = q - 2 := by omega
    exact ⟨h4, by rw [e2]; exact h3⟩
  · rw [e]
    exact (strcasect_set_iff _ _ _ lit (by omega) hpe).mpr ⟨h2, h5⟩

/-- C8: after successful request-line parsing and header-length detection, if
exactly one header line of the block has the name `Content-Length:` (any letter
case) and its value, after an optional single space, starts with decimal digits
that denote a number below 2^31, `swHttpRequest_get_header_info` returns
`SW_OK` and `content_length` is the number of that leading run of digits; if
no header line starts with `Content-Length:`, it returns `SW_ERR` and
`content_length` is unchanged. -/
theorem get_header_info_content_length (SW_USE_HTTP2 : Bool) (r0 r1 r2 : swHttpRequest)
    (_h1 : swHttpRequest_get_protocol SW_USE_HTTP2 r0 = (SW_OK, r1))
    (h2 : swHttpRequest_get_header_length r1 = (SW_OK, r2)) :
    (∀ q, header_line_at r2 q (bytes "Content-Length:") →
        (∀ q2, header_line_at r2 q2 (bytes "Content-Length:") → q2 = q) →
        isdigit (byte_at r2.buffer.str (skip_space r2.buffer.str (q + 15))) = true →
        leading_number (r2.buffer.str.drop (skip_space r2.buffer.str (q + 15))) < 2 ^ 31 →
        (swHttpRequest_get_header_info r2).1 = SW_OK
          ∧ (swHttpRequest_get_header_info r2).2.content_length =
              (leading_number (r2.buffer.str.drop (skip_space r2.buffer.str (q + 15))) : Int))
      ∧ ((∀ q, ¬ header_line_at r2 q (bytes "Content-Length:")) →
          (swHttpRequest_get_header_info r2).1 = SW_ERR
            ∧ (swHttpRequest_get_header_info r2).2.content_length = r2.content_length) := by
  obtain ⟨hoff, hpe, h13, _, _⟩ := header_block_facts r1 r2 h2
  constructor
  · intro q hline honly hdig hval
    obtain ⟨hq1, hq2, hbr, hct⟩ := code_of_header_line r2 q _ hpe (by decide) hline
    have hqle : q + 15 ≤ r2.header_length - 4 := hline.2.1
    have hq : q - 1 + 1 = q := by have := hline.1; omega
    have hsk := skip_space_set r2.buffer.str _ (q + 15) hpe h13
    have hskle := skip_space_le r2.buffer.str _ (q + 15) hqle h13
    have hvne : skip_space r2.buffer.str (q + 15) ≠ r2.header_length - 4 := by
      intro e
      rw [e, h13] at hdig
      exact absurd hdig (by decide)
    have hloop := loop_sets_content_length (r2.buffer.str.set (r2.header_length - 4) 0)
      (r2.header_length - 4) (q - 1) hq2 hbr hct
      (fun i hi1 hi2 hbi => by
        cases hc : SW_STRCASECT ((r2.buffer.str.set (r2.header_length - 4) 0).drop (i + 1))
          (ptrdiff_size (r2.header_length - 4) (i + 1)) (bytes "Content-Length:") with
        | false => rfl
        | true =>
          have := honly (i + 1) (header_line_of_code r2 i _ hpe (by omega) hi2 hbi hc)
          omega)
      (r2.header_length - 4 - r2.buffer.offset) (r2.buffer.offset + 1) r2 false
      (by omega) hq1
    rw [hq, hsk] at hloop
    have hat : atoi ((r2.buffer.str.set (r2.header_length - 4) 0).drop
        (skip_space r2.buffer.str (q + 15))) =
        (leading_number (r2.buffer.str.drop (skip_space r2.buffer.str (q + 15))) : Int) := by
      have hl := leading_number_set r2.buffer.str _ _ hskle hpe h13
      rw [← hl]
      apply atoi_leading
      · rw [getD_drop_zero, byte_at_set_of_ne _ _ _ _ hvne]
        exact hdig
      · rw [hl]; exact hval
    unfold swHttpRequest_get_header_info
    simp only [hloop.2, if_true]
    exact ⟨trivial, hloop.1.trans hat⟩
  · intro hnone
    have hfr := loop_content_length_frame (r2.buffer.str.set (r2.header_length - 4) 0)
      (r2.header_length - 4) (r2.header_length - 4 - r2.buffer.offset) (r2.buffer.offset + 1)
      r2 false
      (fun j hj1 hj2 hbj => by
        cases hc : SW_STRCASECT ((r2.buffer.str.set (r2.header_length - 4) 0).drop (j + 1))
          (ptrdiff_size (r2.header_length - 4) (j + 1)) (bytes "Content-Length:") with
        | false => rfl
        | true => exact absurd (header_line_of_code r2 j _ hpe hj1 hj2 hbj hc) (hnone (j + 1)))
    unfold swHttpRequest_get_header_info
    simp only [hfr.2, Bool.false_eq_true, if_false]
    exact ⟨trivial, hfr.1⟩

/-- C9: after successful request-line parsing and header-length detection, if
a header line of the block, at any position, reads `Connection: keep-alive`
in any mix of upper and lower case, `swHttpRequest_get_header_info` leaves
`keep_alive` true. -/
theorem get_header_info_keep_alive (SW_USE_HTTP2 : Bool) (r0 r1 r2 : swHttpRequest)
    (_h1 : swHttpRequest_get_protocol SW_USE_HTTP2 r0 = (SW_OK, r1))
    (h2 : swHttpRequest_get_header_length r1 = (SW_OK, r2))
    (q : Nat) (hline : header_line_at r2 q (bytes "Connection: keep-alive")) :
    (swHttpRequest_get_header_info r2).2.keep_alive = true := by
  obtain ⟨hoff, hpe, h13, _, _⟩ := header_block_facts r1 r2 h2
  obtain ⟨g1, g2, g3, g4, g5⟩ := hline
  have hlen : (bytes "Connection: keep-alive").length = 22 := by decide
  rw [hlen] at g2 g5
  have hname : header_line_at r2 q (bytes "Connection:") := by
    refine ⟨g1, ?_, g3, g4, ?_⟩
    · have : (bytes "Connection:").length = 11 := by decide
      omega
    · have := ciEq_take _ _ 11 g5
      rw [slice_take_le _ _ _ _ (by decide)] at this
      exact this
  obtain ⟨hq1, hq2, hbr, hct⟩ := code_of_header_line r2 q _ hpe (by decide) hname
  have hq : q - 1 + 1 = q := by omega
  have h32 : byte_at r2.buffer.str (q + 11) = 32 := by
    have := ciEq_byte _ _ g5 11 (by decide)
    rw [slice_getD _ _ _ _ (by decide)] at this
    exact tolower_eq_space _ this
  have hskip : skip_space r2.buffer.str (q + 11) = q + 12 := by
    simp [skip_space, h32]
  have hsk := skip_space_set r2.buffer.str _ (q + 11) hpe h13
  have hval : ciEq (slice r2.buffer.str (q + 12) 10) (bytes "keep-alive") := by
    have := ciEq_drop _ _ 12 g5
    rw [slice_drop_add r2.buffer.str q 10 12] at this
    exact this
  have hka : SW_STRCASECT
      ((r2.buffer.str.set (r2.header_length - 4) 0).drop (q + 12))
      (ptrdiff_size (r2.header_length - 4) (q + 12)) (bytes "keep-alive") = true :=
    (strcasect_set_iff _ _ _ _ (by omega) hpe).mpr
      ⟨by have : (bytes "keep-alive").length = 10 := by decide
          omega, hval⟩
  have hloop := loop_sets_keep_alive (r2.buffer.str.set (r2.header_length - 4) 0)
    (r2.header_length - 4) (q - 1) hq2 hbr hct
    (by rw [hq, hsk, hskip]; exact hka)
    (r2.header_length - 4 - r2.buffer.offset) (r2.buffer.offset + 1) r2 false (by omega) hq1
  exact hloop

/-- C10, amended: starting from `keep_alive == false`, if no header line of the
block consists of `Connection:` (any letter case), at most one space and a
value that begins with `keep-alive` (any letter case), then `keep_alive` is
still false after `swHttpRequest_get_header_info`. -/
theorem get_header_info_stays_not_keep_alive (SW_USE_HTTP2 : Bool)
    (r0 r1 r2 : swHttpRequest)
    (_h1 : swHttpRequest_get_protocol SW_USE_HTTP2 r0 = (SW_OK, r1))
    (h2 : swHttpRequest_get_header_length r1 = (SW_OK, r2))
    (hstart : r2.keep_alive = false)
    (hno : ∀ q, header_line_at r2 q (bytes "Connection:") →
      ¬ (skip_space r2.buffer.str (q + 11) + 10 ≤ r2.header_length - 4
          ∧ ciEq (slice r2.buffer.str (skip_space r2.buffer.str (q + 11)) 10)
              (bytes "keep-alive"))) :
    (swHttpRequest_get_header_info r2).2.keep_alive = false := by
  obtain ⟨hoff, hpe, h13, _, _⟩ := header_block_facts r1 r2 h2
  have hfr := loop_keep_alive_frame (r2.buffer.str.set (r2.header_length - 4) 0)
    (r2.header_length - 4) (r2.header_length - 4 - r2.buffer.offset) (r2.buffer.offset + 1)
    r2 false
    (fun j hj1 hj2 hbj hconn => by
      have hline := header_line_of_code r2 j _ hpe hj1 hj2 hbj hconn
      have hqle : j + 1 + 11 ≤ r2.header_length - 4 := hline.2.1
      have hsk := skip_space_set r2.buffer.str _ (j + 1 + 11) hpe h13
      have hskle := skip_space_le r2.buffer.str _ (j + 1 + 11) hqle h13
      rw [hsk]
      cases hc : SW_STRCASECT ((r2.buffer.str.set (r2.header_length - 4) 0).drop
          (skip_space r2.buffer.str (j + 1 + 11)))
          (ptrdiff_size (r2.header_length - 4) (skip_space r2.buffer.str (j + 1 + 11)))
          (bytes "keep-alive") with
      | false => rfl
      | true =>
        have h := (strcasect_set_iff _ _ _ _ hskle hpe).mp hc
        exact absurd h (hno (j + 1) hline))
  exact hfr.trans hstart

/-- C7 at `POST /a HTTP/1.1\r\ncontent-LENGTH: 42\r\n\r\nbody`, scanned from the end of
the request line: the blank line is at index 36. -/
theorem get_header_length_spec_witness :
    swHttpRequest_get_header_length (after_protocol sample_post) =
      (SW_OK, { after_protocol sample_post with header_length := 36 + 4 }) :=
  ((get_header_length_spec (after_protocol sample_post) (by decide) (by decide)).2.1 36
    (by decide) (by decide) (by decide)).1

/-- C8 at `POST /a HTTP/1.1\r\ncontent-LENGTH: 42\r\n\r\nbody`. -/
theorem get_header_info_content_length_witness :
    (swHttpRequest_get_header_info (after_header_length sample_post)).1 = SW_OK
      ∧ (swHttpRequest_get_header_info (after_header_length sample_post)).2.content_length = 42 :=
  (get_header_info_content_length true (fresh sample_post) (after_protocol sample_post)
    (after_header_length sample_post) (by decide) (by decide)).1 18 (by decide)
    (fun q2 h => by
      have hb : q2 + 15 ≤ 36 := h.2.1
      have hall : ∀ q, q < 22 →
          header_line_at (after_header_length sample_post) q (bytes "Content-Length:") → q = 18 := by
        decide
      exact hall q2 (by omega) h)
    (by decide) (by decide)

/-- C9 at `GET / HTTP/1.1\r\nHost: a\r\ncOnNeCtIoN: KEEP-alive\r\n\r\n`. -/
theorem get_header_info_keep_alive_witness :
    (swHttpRequest_get_header_info (after_header_length sample_keep_alive)).2.keep_alive = true :=
  get_header_info_keep_alive true (fresh sample_keep_alive) (after_protocol sample_keep_alive)
    (after_header_length sample_keep_alive) (by decide) (by decide) 25 (by decide)

/-- C10, as stated, fails: the only header of
`GET / HTTP/1.1\r\nConnection: keep-alive, Upgrade\r\n\r\n` is a `Connection`
header whose value `keep-alive, Upgrade` is another value than `keep-alive`,
`keep_alive` is false before `swHttpRequest_get_header_info` and true after
it. -/
theorem get_header_info_other_value_keep_alive :
    swHttpRequest_get_protocol true (fresh sample_upgrade) = (SW_OK, after_protocol sample_upgrade)
      ∧ swHttpRequest_get_header_length (after_protocol sample_upgrade) =
          (SW_OK, after_header_length sample_upgrade)
      ∧ (after_header_length sample_upgrade).keep_alive = false
      ∧ header_line_at (after_header_length sample_upgrade) 16 (bytes "Connection:")
      ∧ header_value (line_text sample_upgrade 16) 11 = bytes "keep-alive, Upgrade"
      ∧ ¬ ciEq (bytes "keep-alive, Upgrade") (bytes "keep-alive")
      ∧ (swHttpRequest_get_header_info (after_header_length sample_upgrade)).2.keep_alive
          = true := by
  decide

/-- C10, amended, at `GET / HTTP/1.1\r\nConnection: close\r\n\r\n`. -/
theorem get_header_info_stays_not_keep_alive_witness :
    (swHttpRequest_get_header_info (after_header_length sample_close)).2.keep_alive = false :=
  get_header_info_stays_not_keep_alive true (fresh sample_close) (after_protocol sample_close)
    (after_header_length sample_close) (by decide) (by decide) (by decide)
    (fun q h => by
      have hb : q + 11 ≤ 33 := h.2.1
      have hall : ∀ q, q < 23 →
          header_line_at (after_header_length sample_close) q (bytes "Connection:") →
          ¬ (skip_space (after_header_length sample_close).buffer.str (q + 11) + 10
                ≤ (after_header_length sample_close).header_length - 4
              ∧ ciEq (slice (after_header_length sample_close).buffer.str
                    (skip_space (after_header_length sample_close).buffer.str (q + 11)) 10)
                  (bytes "keep-alive")) := by
        decide
      exact hall q (by omega) h)

/-! ## Percent codec: decoding -/

theorem take_set_self (l : List Nat) (n a : Nat) : (l.set n a).take n = l.take n := by
  apply List.ext_getElem?
  intro i
  rw [List.getElem?_take, List.getElem?_take]
  split
  · rw [List.getElem?_set_ne (by omega)]
  · rfl

theorem take_succ_set (l : List Nat) (n a : Nat) (h : n < l.length) :
    (l.set n a).take (n + 1) = l.take n ++ [a] := by
  rw [set_eq_take_cons l n a h, List.take_append_eq_append_take]
  simp [List.length_take, Nat.min_eq_left (Nat.le_of_lt h)]

theorem slice_set_before (l : List Nat) (d v q n : Nat) (h : d < q) :
    slice (l.set d v) q n = slice l q n := by
  unfold slice
  rw [List.drop_set_of_lt _ _ h]

theorem slice_succ (mem : List Nat) (data l : Nat) (h : data < mem.length) :
    slice mem data (l + 1) = byte_at mem data :: slice mem (data + 1) l := by
  unfold slice
  rw [drop_of_byte_at mem data h, List.take_succ_cons]

theorem slice_zero (mem : List Nat) (data : Nat) : slice mem data 0 = [] := by
  simp [slice]

theorem isxdigit_eq (c : Nat) : isxdigit c = hex_digit c := by
  unfold isxdigit hex_digit isdigit
  rw [Bool.or_assoc, Bool.or_comm (97 ≤ c && c ≤ 102 : Bool), ← Bool.or_assoc]

theorem hex_digit_cases (c : Nat) (h : hex_digit c = true) :
    (48 ≤ c ∧ c ≤ 57) ∨ (65 ≤ c ∧ c ≤ 70) ∨ (97 ≤ c ∧ c ≤ 102) := by
  simpa [hex_digit, or_assoc] using h

theorem htoi_digit (c : Nat) (h : hex_digit c = true) :
    (if 48 ≤ (if isupper c = true then tolower c else c)
          ∧ (if isupper c = true then tolower c else c) ≤ 57
        then (((if isupper c = true then tolower c else c) : Nat) : Int) - 48
        else (((if isupper c = true then tolower c else c) : Nat) : Int) - 97 + 10)
      = (hex_value c : Int) := by
  rcases hex_digit_cases c h with h1 | h1 | h1
  · have hu : isupper c = false := by
      simp only [isupper, Bool.and_eq_false_iff, decide_eq_false_iff_not]; omega
    simp only [hu, Bool.false_eq_true, if_false, hex_value, h1, and_self, if_true]
    omega
  · have hu : isupper c = true := by
      simp only [isupper, Bool.and_eq_true, decide_eq_true_eq]; omega
    have ht : tolower c = c + 32 := by
      simp only [tolower]; rw [if_pos (by omega)]
    have hv : hex_value c = c - 55 := by
      simp only [hex_value]; rw [if_neg (by omega), if_pos (by omega)]
    simp only [hu, if_true, ht, hv]
    rw [if_neg (by omega)]
    omega
  · have hu : isupper c = false := by
      simp only [isupper, Bool.and_eq_false_iff, decide_eq_false_iff_not]; omega
    have hv : hex_value c = c - 87 := by
      simp only [hex_value]; rw [if_neg (by omega), if_neg (by omega)]
    simp only [hu, Bool.false_eq_true, if_false, hv]
    rw [if_neg (by omega)]
    omega

theorem hex_value_lt (c : Nat) (h : hex_digit c = true) : hex_value c < 16 := by
  rcases hex_digit_cases c h with h1 | h1 | h1
  · simp only [hex_value]; rw [if_pos h1]; omega
  · simp only [hex_value]; rw [if_neg (by omega), if_pos h1]; omega
  · simp only [hex_value]; rw [if_neg (by omega), if_neg (by omega)]; omega

theorem sw_htoi_eq (mem : List Nat) (s : Nat) (ha : hex_digit (byte_at mem s) = true)
    (hb : hex_digit (byte_at mem (s + 1)) = true) :
    to_byte (sw_htoi mem s) = 16 * hex_value (byte_at mem s) + hex_value (byte_at mem (s + 1)) := by
  have h1 := htoi_digit _ ha
  have h2 := htoi_digit _ hb
  have l1 := hex_value_lt _ ha
  have l2 := hex_value_lt _ hb
  unfold sw_htoi to_byte
  simp only [h1, h2]
  omega


theorem reference_decode_plus (rest : List Nat) :
    reference_decode (43 :: rest) = 32 :: reference_decode rest := by
  match rest with
  | [] => rfl
  | [a] => rfl
  | a :: b :: r => simp [reference_decode]

theorem reference_decode_escape (a b : Nat) (rest : List Nat) (ha : hex_digit a = true)
    (hb : hex_digit b = true) :
    reference_decode (37 :: a :: b :: rest) =
      (16 * hex_value a + hex_value b) :: reference_decode rest := by
  simp [reference_decode, ha, hb]

theorem reference_decode_copy (c : Nat) (rest : List Nat) (hc : c ≠ 43)
    (hno : ∀ a b r, rest = a :: b :: r → ¬ (c = 37 ∧ hex_digit a = true ∧ hex_digit b = true)) :
    reference_decode (c :: rest) = c :: reference_decode rest := by
  match rest, hno with
  | [], _ => simp [reference_decode, hc]
  | [a], _ => simp [reference_decode, hc]
  | a :: b :: r, hno =>
    have := hno a b r rfl
    simp only [reference_decode]
    rw [if_neg this, if_neg hc]

theorem decoded_escapes_plus (c : Nat) (rest : List Nat)
    (hno : ∀ a b r, rest = a :: b :: r → ¬ (c = 37 ∧ hex_digit a = true ∧ hex_digit b = true)) :
    decoded_escapes (c :: rest) = decoded_escapes rest := by
  match rest, hno with
  | [], _ => rfl
  | [a], _ => rfl
  | a :: b :: r, hno =>
    have := hno a b r rfl
    simp only [decoded_escapes]
    rw [if_neg this]

/-- The in-place loop of `swHttp_url_decode` against the reference decoder: from
any state with `dest <= data` and the `len` bytes at `data` inside the memory,
the loop appends the reference decoding of those bytes to what lies before
`dest`. -/
theorem url_decode_loop_spec :
    ∀ (fuel : Nat) (mem : List Nat) (data dest len : Nat),
      len ≤ fuel → dest ≤ data → data + len ≤ mem.length →
      (url_decode_loop fuel mem data dest len).2 =
          dest + (reference_decode (slice mem data len)).length
        ∧ (url_decode_loop fuel mem data dest len).1.take
            (dest + (reference_decode (slice mem data len)).length) =
          mem.take dest ++ reference_decode (slice mem data len) := by
  intro fuel
  induction fuel with
  | zero =>
    intro mem data dest len h1 h2 h3
    have hl : len = 0 := by omega
    subst hl
    simp only [url_decode_loop, slice_zero, reference_decode, List.length_nil, Nat.add_zero,
      List.append_nil, true_and]
    exact take_set_self mem dest 0
  | succ f ih =>
    intro mem data dest len h1 h2 h3
    cases len with
    | zero =>
      simp only [url_decode_loop, if_true, slice_zero, reference_decode, List.length_nil,
        Nat.add_zero, List.append_nil, true_and]
      exact take_set_self mem dest 0
    | succ l =>
      have hd : data < mem.length := by omega
      have hdl : dest < mem.length := by omega
      rw [slice_succ mem data l hd]
      simp only [url_decode_loop, Nat.succ_ne_zero, if_false, Nat.add_sub_cancel]
      by_cases hplus : byte_at mem data = 43
      · simp only [hplus, beq_self_eq_true, if_true]
        have hrec := ih (mem.set dest 32) (data + 1) (dest + 1) l (by omega) (by omega)
          (by rw [List.length_set]; omega)
        rw [slice_set_before _ _ _ _ _ (by omega)] at hrec
        rw [reference_decode_plus, List.length_cons]
        have e : dest + ((reference_decode (slice mem (data + 1) l)).length + 1) =
            dest + 1 + (reference_decode (slice mem (data + 1) l)).length := by omega
        rw [e, hrec.1, hrec.2, take_succ_set mem dest 32 hdl, List.append_assoc]
        exact ⟨rfl, rfl⟩
      · have hp2 : (byte_at mem data == 43) = false := by
          simp only [beq_eq_false_iff_ne]; exact hplus
        simp only [hp2, Bool.false_eq_true, if_false]
        by_cases hesc : (byte_at mem data == 37 && decide (2 ≤ l)
            && isxdigit (byte_at mem (data + 1)) && isxdigit (byte_at mem (data + 2))) = true
        · simp only [hesc, if_true]
          simp only [Bool.and_eq_true, beq_iff_eq, decide_eq_true_eq, isxdigit_eq] at hesc
          obtain ⟨⟨⟨h37, hl2⟩, hxa⟩, hxb⟩ := hesc
          obtain ⟨m, rfl⟩ : ∃ m, l = m + 2 := ⟨l - 2, by omega⟩
          have hrec := ih (mem.set dest (to_byte (sw_htoi mem (data + 1)))) (data + 2 + 1)
            (dest + 1) m (by omega) (by omega) (by rw [List.length_set]; omega)
          rw [slice_set_before _ _ _ _ _ (by omega)] at hrec
          rw [slice_succ mem (data + 1) (m + 1) (by omega), slice_succ mem (data + 1 + 1) m (by omega),
            h37, reference_decode_escape _ _ _ hxa hxb, List.length_cons,
            Nat.add_sub_cancel]
          have e0 : data + 1 + 1 + 1 = data + 2 + 1 := by omega
          rw [e0]
          have e : dest + ((reference_decode (slice mem (data + 2 + 1) m)).length + 1) =
              dest + 1 + (reference_decode (slice mem (data + 2 + 1) m)).length := by omega
          rw [e, hrec.1, hrec.2, take_succ_set mem dest _ hdl, List.append_assoc,
            sw_htoi_eq mem (data + 1) hxa hxb]
          exact ⟨rfl, rfl⟩
        · simp only [hesc, Bool.false_eq_true, if_false]
          have hrec := ih (mem.set dest (byte_at mem data)) (data + 1) (dest + 1) l (by omega)
            (by omega) (by rw [List.length_set]; omega)
          rw [slice_set_before _ _ _ _ _ (by omega)] at hrec
          have hcopy : reference_decode (byte_at mem data :: slice mem (data + 1) l) =
              byte_at mem data :: reference_decode (slice mem (data + 1) l) := by
            apply reference_decode_copy _ _ hplus
            intro a b r hr hc
            apply hesc
            have hl2 : 2 ≤ l := by
              have := congrArg List.length hr
              simp only [slice, List.length_take, List.length_drop, List.length_cons] at this
              omega
            obtain ⟨m, rfl⟩ : ∃ m, l = m + 2 := ⟨l - 2, by omega⟩
            rw [slice_succ mem (data + 1) (m + 1) (by omega),
              slice_succ mem (data + 1 + 1) m (by omega)] at hr
            simp only [List.cons.injEq] at hr
            obtain ⟨ha, hb, _⟩ := hr
            simp only [Bool.and_eq_true, beq_iff_eq, decide_eq_true_eq, isxdigit_eq]
            rw [ha, hb]
            exact ⟨⟨⟨hc.1, by omega⟩, hc.2.1⟩, hc.2.2⟩
          rw [hcopy, List.length_cons]
          have e : dest + ((reference_decode (slice mem (data + 1) l)).length + 1) =
              dest + 1 + (reference_decode (slice mem (data + 1) l)).length := by omega
          rw [e, hrec.1, hrec.2, take_succ_set mem dest _ hdl, List.append_assoc]
          exact ⟨rfl, rfl⟩


theorem reference_decode_length (s : List Nat) :
    (reference_decode s).length + 2 * decoded_escapes s = s.length := by
  induction s using reference_decode.induct with
  | case1 => rfl
  | case2 c => rfl
  | case3 c a ih =>
    simp only [reference_decode, decoded_escapes, List.length_cons] at ih ⊢
  | case4 c a b rest h ih =>
    simp only [reference_decode, decoded_escapes, h, and_self, if_true, List.length_cons]
    omega
  | case5 c a b rest h ih =>
    simp only [reference_decode, decoded_escapes, h, if_false, List.length_cons] at ih ⊢
    omega

theorem slice_from_zero (str : List Nat) (len : Nat) : slice str 0 len = str.take len := by
  simp [slice]

theorem url_decode_spec (str : List Nat) (len : Nat) (hlen : len ≤ str.length) :
    (swHttp_url_decode str len).2 = (reference_decode (str.take len)).length
      ∧ (swHttp_url_decode str len).1.take (swHttp_url_decode str len).2 =
          reference_decode (str.take len) := by
  have h := url_decode_loop_spec len str 0 0 len (le_refl _) (le_refl _) (by omega)
  rw [slice_from_zero, Nat.zero_add, List.take_zero, List.nil_append] at h
  unfold swHttp_url_decode
  rw [h.1]
  exact ⟨rfl, h.2⟩

/-- C12: on every input `swHttp_url_decode` gives what the reference
left-to-right decoder gives (`+` to space, `%` and two hexadecimal digits inside
the input to one byte, every other byte copied), and the length it returns is
the number of output bytes, the input length minus 2 for each decoded
escape, so never more than the input length. -/
theorem url_decode_refines_reference (str : List Nat) (len : Nat) (hlen : len ≤ str.length) :
    (swHttp_url_decode str len).1.take (swHttp_url_decode str len).2 =
        reference_decode (str.take len)
      ∧ (swHttp_url_decode str len).2 = (reference_decode (str.take len)).length
      ∧ (swHttp_url_decode str len).2 + 2 * decoded_escapes (str.take len) = len
      ∧ (swHttp_url_decode str len).2 ≤ len := by
  have h := url_decode_spec str len hlen
  have hl := reference_decode_length (str.take len)
  rw [List.length_take, Nat.min_eq_left hlen] at hl
  refine ⟨h.2, h.1, ?_, ?_⟩
  · rw [h.1]; exact hl
  · rw [h.1]; omega

/-- C12 at the C string `%4a%zz+%`: one escape is decoded, a `%` before
non-hexadecimal bytes, a `+` and a final `%` follow. -/
theorem url_decode_refines_reference_witness :
    (swHttp_url_decode (bytes "%4a%zz+%" ++ [0]) 8).1.take
        (swHttp_url_decode (bytes "%4a%zz+%" ++ [0]) 8).2 =
        reference_decode ((bytes "%4a%zz+%" ++ [0]).take 8)
      ∧ (swHttp_url_decode (bytes "%4a%zz+%" ++ [0]) 8).2 =
          (reference_decode ((bytes "%4a%zz+%" ++ [0]).take 8)).length
      ∧ (swHttp_url_decode (bytes "%4a%zz+%" ++ [0]) 8).2 +
          2 * decoded_escapes ((bytes "%4a%zz+%" ++ [0]).take 8) = 8
      ∧ (swHttp_url_decode (bytes "%4a%zz+%" ++ [0]) 8).2 ≤ 8 :=
  url_decode_refines_reference (bytes "%4a%zz+%" ++ [0]) 8 (by decide)


/-! ## Percent codec: encoding -/

set_option maxRecDepth 100000 in
theorem url_encode_escape_eq :
    ∀ b, b < 256 → ∀ cs : Bool, url_encode_escape (to_char cs b) = !unreserved b := by
  decide

set_option maxRecDepth 100000 in
theorem hexchars_eq : ∀ k, k < 16 → hexchars.getD k 0 = hex_upper k := by
  decide

set_option maxRecDepth 100000 in
theorem hex_upper_digit : ∀ k, k < 16 →
    hex_digit (hex_upper k) = true ∧ hex_value (hex_upper k) = k ∧ hex_upper k ≠ 0 := by
  decide

set_option maxRecDepth 100000 in
theorem unreserved_facts : ∀ b, b < 256 → unreserved b = true → b ≠ 43 ∧ b ≠ 37 ∧ b ≠ 0 := by
  decide

theorem reference_encode_length (str : List Nat) :
    (reference_encode str).length = str.length + 2 * escaped_count str := by
  induction str with
  | nil => rfl
  | cons b rest ih =>
    by_cases hu : unreserved b = true
    · simp only [reference_encode, hu, if_true, List.length_cons, escaped_count, List.filter_cons,
        Bool.not_true, Bool.false_eq_true, if_false] at ih ⊢
      omega
    · have hu2 : unreserved b = false := by
        cases h : unreserved b with
        | false => rfl
        | true => exact absurd h hu
      simp only [reference_encode, hu2, Bool.false_eq_true, if_false, List.length_cons,
        escaped_count, List.filter_cons, Bool.not_false, if_true] at ih ⊢
      omega

theorem url_encode_loop_spec (char_signed : Bool) (str : List Nat) (size : Nat)
    (hstr : ∀ b ∈ str, b < 256) :
    ∀ (len : Nat) (ret : Nat → Nat) (x y : Nat), x + len ≤ str.length → y + 3 * len ≤ size →
      ∃ out, url_encode_loop char_signed str size len ret x y = some out
        ∧ out.2 = y + (reference_encode (slice str x len)).length
        ∧ (∀ i, i < y → out.1 i = ret i)
        ∧ (∀ k, k < (reference_encode (slice str x len)).length →
            out.1 (y + k) = (reference_encode (slice str x len)).getD k 0) := by
  intro len
  induction len with
  | zero =>
    intro ret x y _ _
    refine ⟨(ret, y), rfl, ?_, ?_, ?_⟩
    · simp only [slice_zero, reference_encode, List.length_nil, Nat.add_zero]
    · intro i _
      rfl
    · intro k hk
      simp only [slice_zero, reference_encode, List.length_nil] at hk
      exact absurd hk (Nat.not_lt_zero k)
  | succ l ih =>
    intro ret x y hx hy
    have hxl : x < str.length := by omega
    have hb : byte_at str x < 256 := by
      have : byte_at str x = str[x] := by
        simp [byte_at, List.getD, List.getElem?_eq_getElem hxl]
      rw [this]
      exact hstr _ (List.getElem_mem _)
    have hy0 : y < size := by omega
    have hy1 : y + 1 < size := by omega
    have hy2 : y + 2 < size := by omega
    rw [slice_succ str x l hxl]
    simp only [url_encode_loop, block_write, if_pos hy0, if_pos hy1, if_pos hy2,
      Option.some_bind, url_encode_escape_eq _ hb char_signed]
    by_cases hu : unreserved (byte_at str x) = true
    · simp only [hu, Bool.not_true, Bool.false_eq_true, if_false, reference_encode, if_true,
        List.length_cons]
      obtain ⟨out, ho, h1, h2, h3⟩ :=
        ih (Function.update ret y (byte_at str x)) (x + 1) (y + 1) (by omega) (by omega)
      refine ⟨out, ho, by rw [h1]; omega, ?_, ?_⟩
      · intro i hi
        rw [h2 i (by omega), Function.update_noteq (by omega)]
      · intro k hk
        match k, hk with
        | 0, _ =>
          show out.1 y = _
          rw [h2 y (by omega), Function.update_same]
          rfl
        | k + 1, hk =>
          have e : y + (k + 1) = y + 1 + k := by omega
          rw [e, h3 k (by omega)]
          rfl
    · have hu2 : unreserved (byte_at str x) = false := by
        cases h : unreserved (byte_at str x) with
        | false => rfl
        | true => exact absurd h hu
      simp only [hu2, Bool.not_false, if_true, reference_encode, Bool.false_eq_true, if_false,
        List.length_cons]
      obtain ⟨out, ho, h1, h2, h3⟩ := ih
        (Function.update (Function.update (Function.update
          (Function.update ret y (byte_at str x)) y 37) (y + 1)
          (hexchars.getD (byte_at str x % 256 / 16) 0)) (y + 2)
          (hexchars.getD (byte_at str x % 16) 0)) (x + 1) (y + 2 + 1) (by omega) (by omega)
      have hm : byte_at str x % 256 = byte_at str x := Nat.mod_eq_of_lt hb
      refine ⟨out, ho, by rw [h1]; omega, ?_, ?_⟩
      · intro i hi
        rw [h2 i (by omega), Function.update_noteq (by omega), Function.update_noteq (by omega),
          Function.update_noteq (by omega), Function.update_noteq (by omega)]
      · intro k hk
        match k, hk with
        | 0, _ =>
          rw [show y + 0 = y from rfl, h2 y (by omega), Function.update_noteq (by omega),
            Function.update_noteq (by omega), Function.update_same]
          rfl
        | 1, _ =>
          rw [h2 (y + 1) (by omega), Function.update_noteq (by omega), Function.update_same,
            hm, hexchars_eq _ (by omega)]
          rfl
        | 2, _ =>
          rw [h2 (y + 2) (by omega), Function.update_same, hexchars_eq _ (by omega)]
          rfl
        | k + 3, hk =>
          have e : y + (k + 3) = y + 2 + 1 + k := by omega
          rw [e, h3 k (by omega)]
          rfl

theorem slice_whole (str : List Nat) : slice str 0 str.length = str := by
  simp [slice]

theorem escaped_count_le (str : List Nat) : escaped_count str ≤ str.length :=
  List.length_filter_le _ _

/-- When at least one byte of `str` is unreserved, every write of
`swHttp_url_encode` is inside the block and the result is what the reference
encoder gives, followed by one NUL. -/
theorem url_encode_in_block (char_signed : Bool) (ret0 : Nat → Nat) (str : List Nat)
    (hstr : ∀ b ∈ str, b < 256) (hesc : escaped_count str < str.length) :
    swHttp_url_encode char_signed ret0 str str.length = some (reference_encode str ++ [0]) := by
  obtain ⟨out, ho, h1, _, h3⟩ := url_encode_loop_spec char_signed str (str.length * 3) hstr
    str.length ret0 0 0 (by omega) (by omega)
  rw [slice_whole, Nat.zero_add] at h1
  rw [slice_whole] at h3
  have hl := reference_encode_length str
  unfold swHttp_url_encode sw_malloc
  simp only [ho, Option.some_bind, block_write]
  rw [if_pos (by omega)]
  simp only [Option.some_bind, h1]
  congr 1
  apply List.ext_getElem?
  intro i
  by_cases hi : i < (reference_encode str).length
  · rw [List.getElem?_map, List.getElem?_range (by omega), Option.map_some',
      Function.update_noteq (by omega), List.getElem?_append_left hi,
      List.getElem?_eq_getElem hi]
    have := h3 i hi
    rw [Nat.zero_add] at this
    rw [this]
    simp [List.getD, List.getElem?_eq_getElem hi]
  · by_cases e : i = (reference_encode str).length
    · subst e
      rw [List.getElem?_map, List.getElem?_range (by omega), Option.map_some',
        Function.update_same]
      simp
    · rw [List.getElem?_eq_none (by simp; omega), List.getElem?_eq_none (by simp; omega)]

/-- When every byte of `str` is escaped (the empty sequence included), the
loop fills the block of `len * 3` bytes and the final NUL is written at index
`len * 3`, outside the block. -/
theorem url_encode_all_escaped (char_signed : Bool) (ret0 : Nat → Nat) (str : List Nat)
    (hstr : ∀ b ∈ str, b < 256) (hesc : escaped_count str = str.length) :
    swHttp_url_encode char_signed ret0 str str.length = none := by
  obtain ⟨out, ho, h1, _, _⟩ := url_encode_loop_spec char_signed str (str.length * 3) hstr
    str.length ret0 0 0 (by omega) (by omega)
  rw [slice_whole, Nat.zero_add] at h1
  have hl := reference_encode_length str
  unfold swHttp_url_encode sw_malloc
  simp only [ho, Option.some_bind, block_write]
  rw [if_neg (by omega)]
  rfl

theorem reference_encode_no_nul (str : List Nat) (hstr : ∀ b ∈ str, b < 256) :
    ∀ c ∈ reference_encode str, c ≠ 0 := by
  induction str with
  | nil => intro c hc; simp [reference_encode] at hc
  | cons b rest ih =>
    have hb : b < 256 := hstr b (by simp)
    have hrest : ∀ c ∈ reference_encode rest, c ≠ 0 :=
      ih (fun c hc => hstr c (by simp [hc]))
    intro c hc
    by_cases hu : unreserved b = true
    · simp only [reference_encode, hu, if_true, List.mem_cons] at hc
      rcases hc with rfl | hc
      · exact (unreserved_facts _ hb hu).2.2
      · exact hrest c hc
    · have hu2 : unreserved b = false := by
        cases h : unreserved b with
        | false => rfl
        | true => exact absurd h hu
      simp only [reference_encode, hu2, Bool.false_eq_true, if_false, List.mem_cons] at hc
      rcases hc with rfl | rfl | rfl | hc
      · decide
      · exact (hex_upper_digit _ (by omega)).2.2
      · exact (hex_upper_digit _ (by omega)).2.2
      · exact hrest c hc

theorem strlen_append_nul (e : List Nat) (h : ∀ c ∈ e, c ≠ 0) : strlen (e ++ [0]) = e.length := by
  unfold strlen
  induction e with
  | nil => simp
  | cons a e ih =>
    have ha : a ≠ 0 := h a (by simp)
    have := ih (fun c hc => h c (by simp [hc]))
    simp [List.takeWhile_cons, ha, this]

theorem reference_decode_encode (str : List Nat) (hstr : ∀ b ∈ str, b < 256) :
    reference_decode (reference_encode str) = str := by
  induction str with
  | nil => rfl
  | cons b rest ih =>
    have hb : b < 256 := hstr b (by simp)
    have hrest := ih (fun c hc => hstr c (by simp [hc]))
    by_cases hu : unreserved b = true
    · obtain ⟨h43, h37, _⟩ := unreserved_facts _ hb hu
      simp only [reference_encode, hu, if_true]
      rw [reference_decode_copy _ _ h43 (fun _ _ _ _ hc => h37 hc.1), hrest]
    · have hu2 : unreserved b = false := by
        cases h : unreserved b with
        | false => rfl
        | true => exact absurd h hu
      simp only [reference_encode, hu2, Bool.false_eq_true, if_false]
      obtain ⟨d1, v1, _⟩ := hex_upper_digit (b / 16) (by omega)
      obtain ⟨d2, v2, _⟩ := hex_upper_digit (b % 16) (Nat.mod_lt _ (by decide))
      rw [reference_decode_escape _ _ _ d1 d2, hrest, v1, v2]
      congr 1
      omega

theorem escaped_count_of_all (str : List Nat) (hall : ∀ b ∈ str, unreserved b = false) :
    escaped_count str = str.length := by
  unfold escaped_count
  rw [List.filter_eq_self.mpr]
  intro b hb
  rw [hall b hb]
  rfl

/-- Away from the inputs whose bytes are all escaped, `swHttp_url_encode` gives
what the reference encoder gives (unreserved bytes copied, every other byte as
`%` and its two uppercase hexadecimal digits, in input order) followed by one
NUL; the encoded text has `len + 2 * (number of escaped bytes)` bytes and holds
no NUL itself. Whether `char` is signed and what the fresh block held make no
difference. -/
theorem url_encode_value (char_signed : Bool) (ret0 : Nat → Nat) (str : List Nat)
    (hstr : ∀ b ∈ str, b < 256) (hesc : escaped_count str < str.length) :
    swHttp_url_encode char_signed ret0 str str.length = some (reference_encode str ++ [0])
      ∧ (reference_encode str).length = str.length + 2 * escaped_count str
      ∧ strlen (reference_encode str ++ [0]) = str.length + 2 * escaped_count str := by
  refine ⟨url_encode_in_block char_signed ret0 str hstr hesc, reference_encode_length str, ?_⟩
  rw [strlen_append_nul _ (reference_encode_no_nul str hstr), reference_encode_length]

/-- Away from the inputs whose bytes are all escaped, `swHttp_url_decode`
applied to the text `swHttp_url_encode` returns for `s` (over its `strlen`
bytes) returns the length of `s` and leaves exactly `s` in the first bytes of
the buffer. -/
theorem url_decode_encode_in_block (char_signed : Bool) (ret0 : Nat → Nat) (s : List Nat)
    (hs : ∀ b ∈ s, b < 256) (hesc : escaped_count s < s.length) :
    ∃ e, swHttp_url_encode char_signed ret0 s s.length = some e
      ∧ (swHttp_url_decode e (strlen e)).2 = s.length
      ∧ (swHttp_url_decode e (strlen e)).1.take s.length = s := by
  refine ⟨_, url_encode_in_block char_signed ret0 s hs hesc, ?_⟩
  rw [strlen_append_nul _ (reference_encode_no_nul s hs)]
  have h := url_decode_spec (reference_encode s ++ [0]) (reference_encode s).length (by simp)
  rw [List.take_left' rfl, reference_decode_encode s hs] at h
  obtain ⟨ha, hb⟩ := h
  rw [ha] at hb
  exact ⟨ha, hb⟩

/-- C13: when every byte of the input is escaped (none is in the unreserved
set), as for a single space, `swHttp_url_encode` fills its block of `len * 3`
bytes with the escapes and writes the terminating NUL at index `len * 3`,
outside the block: the call has no defined result. -/
theorem url_encode_nul_outside_block (char_signed : Bool) (ret0 : Nat → Nat) (str : List Nat)
    (hstr : ∀ b ∈ str, b < 256) (hall : ∀ b ∈ str, unreserved b = false) :
    swHttp_url_encode char_signed ret0 str str.length = none :=
  url_encode_all_escaped char_signed ret0 str hstr (escaped_count_of_all str hall)

/-- C13 at a single space, whose encoding would be `%20` and a NUL: four bytes
in a block of three. -/
theorem url_encode_nul_outside_block_witness :
    swHttp_url_encode true (fun _ => 0) (bytes " ") (bytes " ").length = none :=
  url_encode_nul_outside_block true (fun _ => 0) (bytes " ") (by decide) (by decide)

/-- C11: at the empty sequence (a block of 0 bytes) and at the sequences `%`
and `+ ` the encoder writes its terminating NUL outside its block, so the round
trip has no defined result there; at `a b` it gives `a%20b` and the decoder
gives back `a b` with length 3. -/
theorem url_roundtrip_stops_in_encode (char_signed : Bool) (ret0 : Nat → Nat) :
    swHttp_url_encode char_signed ret0 [] 0 = none
      ∧ swHttp_url_encode char_signed ret0 (bytes "%") 1 = none
      ∧ swHttp_url_encode char_signed ret0 (bytes "+ ") 2 = none
      ∧ swHttp_url_encode char_signed ret0 (bytes "a b") 3 = some (bytes "a%20b" ++ [0])
      ∧ (swHttp_url_decode (bytes "a%20b" ++ [0]) (strlen (bytes "a%20b" ++ [0]))).2 = 3
      ∧ (swHttp_url_decode (bytes "a%20b" ++ [0]) (strlen (bytes "a%20b" ++ [0]))).1.take 3
          = bytes "a b" := by
  refine ⟨url_encode_all_escaped char_signed ret0 [] (by decide) (by decide),
    url_encode_all_escaped char_signed ret0 (bytes "%") (by decide) (by decide),
    url_encode_all_escaped char_signed ret0 (bytes "+ ") (by decide) (by decide),
    url_encode_in_block char_signed ret0 (bytes "a b") (by decide) (by decide), by decide,
    by decide⟩

/-! ## The verb table -/

theorem find_range_none (f : Nat → Bool) (n : Nat) (h : ∀ j, j < n → f j = false) :
    (List.range n).find? f = none := by
  rw [List.find?_eq_none]
  intro x hx
  rw [List.mem_range] at hx
  simp [h x hx]

theorem find_range_first (f : Nat → Bool) (n i : Nat) (hi : i < n) (hf : f i = true)
    (hfirst : ∀ j, j < i → f j = false) : (List.range n).find? f = some i := by
  induction n with
  | zero => omega
  | succ n ih =>
    rw [List.range_succ, List.find?_append]
    by_cases hin : i < n
    · rw [ih hin]; rfl
    · have e : i = n := by omega
      subst e
      rw [find_range_none f i hfirst]
      simp [List.find?_cons, hf]

theorem strcaseeq_iff (verb t : List Nat) :
    swoole_strcaseeq verb verb.length t t.length = true ↔ ciEq verb t := by
  unfold swoole_strcaseeq
  simp only [Bool.and_eq_true, beq_iff_eq, decide_eq_true_eq, List.take_length]
  constructor
  · rintro ⟨hl, h⟩
    rw [hl, List.take_length] at h
    exact h
  · intro h
    have hl : verb.length = t.length := by
      have := congrArg List.length h
      simpa using this
    refine ⟨hl, ?_⟩
    rw [hl, List.take_length]
    exact h

set_option maxRecDepth 100000 in
theorem method_strings_distinct :
    ∀ i, i < 26 → ∀ j, j < 26 →
      ciEq (method_strings.getD i []) (method_strings.getD j []) → i = j := by
  decide

theorem ciEq_symm (a b : List Nat) (h : ciEq a b) : ciEq b a := by
  unfold ciEq at *; exact h.symm

theorem ciEq_trans (a b c : List Nat) (h1 : ciEq a b) (h2 : ciEq b c) : ciEq a c := by
  unfold ciEq at *; exact h1.trans h2

theorem get_method_found (t : List Nat) (i : Nat) (hi : i < 26)
    (h : ciEq t (method_strings.getD i [])) : swHttp_get_method t t.length = (i : Int) + 1 := by
  unfold swHttp_get_method
  rw [find_range_first _ SW_HTTP_PRI i hi]
  · exact (strcaseeq_iff _ _).mpr (ciEq_symm _ _ h)
  · intro j hj
    cases hc : swoole_strcaseeq (method_strings.getD j []) (method_strings.getD j []).length
        t t.length with
    | false => rfl
    | true =>
      have h2 := (strcaseeq_iff _ _).mp hc
      have := method_strings_distinct j (by omega) i hi (ciEq_trans _ _ _ h2 h)
      omega

/-- C15: at the code 0 the guard `method < 0 || method > SW_HTTP_PRI` lets the
call through and the table is read at index -1. -/
theorem get_method_string_zero_reads_outside :
    swHttp_get_method_string 0 = MethodString.outside (-1) := by
  decide

theorem get_method_string_inside (method : Int) (h1 : 1 ≤ method) (h2 : method ≤ 26) :
    swHttp_get_method_string method =
        MethodString.entry (method_strings.getD (method - 1).toNat [])
      ∧ swHttp_get_method (method_strings.getD (method - 1).toNat [])
          (method_strings.getD (method - 1).toNat []).length = method := by
  constructor
  · unfold swHttp_get_method_string method_strings_at
    have hg : (decide (method < 0) || decide (method > (SW_HTTP_PRI : Int))) = false := by
      simp only [SW_HTTP_PRI, Bool.or_eq_false_iff, decide_eq_false_iff_not]
      omega
    rw [hg]
    simp only [Bool.false_eq_true, if_false]
    rw [if_pos (by omega)]
  · have := get_method_found (method_strings.getD (method - 1).toNat []) (method - 1).toNat
      (by omega) rfl
    rw [this]
    omega

theorem get_method_string_null (method : Int) (h : method < 0 ∨ 26 < method) :
    swHttp_get_method_string method = MethodString.null := by
  unfold swHttp_get_method_string
  have hg : (decide (method < 0) || decide (method > (SW_HTTP_PRI : Int))) = true := by
    simp only [SW_HTTP_PRI, Bool.or_eq_true, decide_eq_true_eq]
    omega
  rw [hg]
  rfl

theorem scan_keeps_excepted (L : List Nat) :
    ∀ (request : swHttpRequest) (state p : Nat), request.excepted = true →
      (get_protocol_scan request state p L).2.excepted = true := by
  induction L with
  | nil => intro request state p h; exact h
  | cons c rest ih =>
    intro request state p h
    match state with
    | 0 =>
      simp only [get_protocol_scan]
      split_ifs
      · exact ih _ _ _ h
      · exact ih _ _ _ h
    | 1 =>
      simp only [get_protocol_scan]
      split_ifs
      · exact ih _ _ _ h
      · exact ih _ _ _ h
    | 2 =>
      simp only [get_protocol_scan]
      split_ifs
      · exact ih _ _ _ h
      · exact h
      · exact h
      · exact h
      · rfl
    | n + 3 =>
      simp only [get_protocol_scan]
      exact ih _ _ _ h

theorem get_protocol_elim (SW_USE_HTTP2 : Bool) (request : swHttpRequest)
    (P : Int × swHttpRequest → Prop)
    (hshort : P (SW_ERR, request))
    (hverb : ∀ v ∈ request_line_verbs,
      memcmp_eq request.buffer.str v.1 v.1.length = true →
      P (get_protocol_verb request v.2 v.1.length))
    (hpri : SW_USE_HTTP2 = true →
      P (SW_OK, { request with
                    method := SW_HTTP_PRI, buffer := { request.buffer with offset := 24 } }))
    (hexc1 : P (get_protocol_excepted { request with method := SW_HTTP_PRI }))
    (hexc : P (get_protocol_excepted request)) :
    P (swHttpRequest_get_protocol SW_USE_HTTP2 request) := by
  simp only [swHttpRequest_get_protocol]
  by_cases h0 : request.buffer.length < 16
  · rw [if_pos h0]; exact hshort
  rw [if_neg h0]
  by_cases hGET : memcmp_eq request.buffer.str (bytes "GET") 3 = true
  · rw [if_pos hGET]
    exact hverb (bytes "GET", SW_HTTP_GET) (by simp [request_line_verbs]) hGET
  rw [if_neg hGET]
  by_cases hPOST : memcmp_eq request.buffer.str (bytes "POST") 4 = true
  · rw [if_pos hPOST]
    exact hverb (bytes "POST", SW_HTTP_POST) (by simp [request_line_verbs]) hPOST
  rw [if_neg hPOST]
  by_cases hPUT : memcmp_eq request.buffer.str (bytes "PUT") 3 = true
  · rw [if_pos hPUT]
    exact hverb (bytes "PUT", SW_HTTP_PUT) (by simp [request_line_verbs]) hPUT
  rw [if_neg hPUT]
  by_cases hPATCH : memcmp_eq request.buffer.str (bytes "PATCH") 5 = true
  · rw [if_pos hPATCH]
    exact hverb (bytes "PATCH", SW_HTTP_PATCH) (by simp [request_line_verbs]) hPATCH
  rw [if_neg hPATCH]
  by_cases hDELETE : memcmp_eq request.buffer.str (bytes "DELETE") 6 = true
  · rw [if_pos hDELETE]
    exact hverb (bytes "DELETE", SW_HTTP_DELETE) (by simp [request_line_verbs]) hDELETE
  rw [if_neg hDELETE]
  by_cases hHEAD : memcmp_eq request.buffer.str (bytes "HEAD") 4 = true
  · rw [if_pos hHEAD]
    exact hverb (bytes "HEAD", SW_HTTP_HEAD) (by simp [request_line_verbs]) hHEAD
  rw [if_neg hHEAD]
  by_cases hOPTIONS : memcmp_eq request.buffer.str (bytes "OPTIONS") 7 = true
  · rw [if_pos hOPTIONS]
    exact hverb (bytes "OPTIONS", SW_HTTP_OPTIONS) (by simp [request_line_verbs]) hOPTIONS
  rw [if_neg hOPTIONS]
  by_cases hCOPY : memcmp_eq request.buffer.str (bytes "COPY") 4 = true
  · rw [if_pos hCOPY]
    exact hverb (bytes "COPY", SW_HTTP_COPY) (by simp [request_line_verbs]) hCOPY
  rw [if_neg hCOPY]
  by_cases hLOCK : memcmp_eq request.buffer.str (bytes "LOCK") 4 = true
  · rw [if_pos hLOCK]
    exact hverb (bytes "LOCK", SW_HTTP_LOCK) (by simp [request_line_verbs]) hLOCK
  rw [if_neg hLOCK]
  by_cases hMKCOL : memcmp_eq request.buffer.str (bytes "MKCOL") 5 = true
  · rw [if_pos hMKCOL]
    exact hverb (bytes "MKCOL", SW_HTTP_MKCOL) (by simp [request_line_verbs]) hMKCOL
  rw [if_neg hMKCOL]
  by_cases hMOVE : memcmp_eq request.buffer.str (bytes "MOVE") 4 = true
  · rw [if_pos hMOVE]
    exact hverb (bytes "MOVE", SW_HTTP_MOVE) (by simp [request_line_verbs]) hMOVE
  rw [if_neg hMOVE]
  by_cases hPROPFIND : memcmp_eq request.buffer.str (bytes "PROPFIND") 8 = true
  · rw [if_pos hPROPFIND]
    exact hverb (bytes "PROPFIND", SW_HTTP_PROPFIND) (by simp [request_line_verbs]) hPROPFIND
  rw [if_neg hPROPFIND]
  by_cases hPROPPATCH : memcmp_eq request.buffer.str (bytes "PROPPATCH") 9 = true
  · rw [if_pos hPROPPATCH]
    exact hverb (bytes "PROPPATCH", SW_HTTP_PROPPATCH) (by simp [request_line_verbs]) hPROPPATCH
  rw [if_neg hPROPPATCH]
  by_cases hUNLOCK : memcmp_eq request.buffer.str (bytes "UNLOCK") 6 = true
  · rw [if_pos hUNLOCK]
    exact hverb (bytes "UNLOCK", SW_HTTP_UNLOCK) (by simp [request_line_verbs]) hUNLOCK
  rw [if_neg hUNLOCK]
  by_cases hREPORT : memcmp_eq request.buffer.str (bytes "REPORT") 6 = true
  · rw [if_pos hREPORT]
    exact hverb (bytes "REPORT", SW_HTTP_REPORT) (by simp [request_line_verbs]) hREPORT
  rw [if_neg hREPORT]
  by_cases hPURGE : memcmp_eq request.buffer.str (bytes "PURGE") 5 = true
  · rw [if_pos hPURGE]
    exact hverb (bytes "PURGE", SW_HTTP_PURGE) (by simp [request_line_verbs]) hPURGE
  rw [if_neg hPURGE]
  by_cases hp : (SW_USE_HTTP2 && memcmp_eq request.buffer.str (bytes "PRI") 3) = true
  · rw [if_pos hp]
    by_cases hq : memcmp_eq request.buffer.str SW_HTTP2_PRI_STRING 24 = true
    · rw [if_pos hq]
      have hb : SW_USE_HTTP2 = true := by
        cases SW_USE_HTTP2
        · simp at hp
        · rfl
      exact hpri hb
    · rw [if_neg hq]; exact hexc1
  · rw [if_neg hp]; exact hexc

theorem get_protocol_keeps_excepted (SW_USE_HTTP2 : Bool) (request : swHttpRequest)
    (h : request.excepted = true) :
    (swHttpRequest_get_protocol SW_USE_HTTP2 request).2.excepted = true := by
  apply get_protocol_elim SW_USE_HTTP2 request (fun out => out.2.excepted = true)
  · exact h
  · intro v _ _
    exact scan_keeps_excepted _ _ _ _ h
  · intro _; exact h
  · rfl
  · rfl

theorem header_length_scan_keeps_excepted (L : List Nat) :
    ∀ (request : swHttpRequest) (p : Nat),
      (get_header_length_scan request p L).2.excepted = request.excepted := by
  induction L with
  | nil => intro request p; rfl
  | cons c rest ih =>
    intro request p
    simp only [get_header_length_scan]
    split_ifs
    · rfl
    · exact ih _ _

theorem body_keeps_excepted (str : List Nat) (pe p : Nat) (request : swHttpRequest)
    (got_len : Bool) :
    (get_header_info_body str pe p request got_len).2.1.excepted = request.excepted := by
  rcases body_cases str pe p request got_len with
    ⟨_, e⟩ | ⟨_, _, e⟩ | ⟨_, _, _, _, e⟩ | ⟨_, _, _, _, e⟩ | ⟨_, _, _, e⟩ <;> rw [e]

theorem loop_keeps_excepted (str : List Nat) (pe : Nat) :
    ∀ (fuel p : Nat) (request : swHttpRequest) (got_len : Bool),
      (get_header_info_loop str pe fuel p request got_len).1.excepted = request.excepted := by
  intro fuel
  induction fuel with
  | zero => intro p request got_len; rfl
  | succ f ih =>
    intro p request got_len
    by_cases hp : p < pe
    · rw [loop_step _ _ _ _ _ _ hp, ih, body_keeps_excepted]
    · rw [loop_done _ _ _ _ _ _ (by omega)]

theorem scan_set_excepted (L : List Nat) :
    ∀ (request : swHttpRequest) (state p : Nat),
      get_protocol_scan { request with excepted := true } state p L =
        ((get_protocol_scan request state p L).1,
          { (get_protocol_scan request state p L).2 with excepted := true }) := by
  induction L with
  | nil => intro request state p; rfl
  | cons c rest ih =>
    intro request state p
    match state with
    | 0 =>
      simp only [get_protocol_scan]
      split_ifs
      · exact ih request 0 (p + 1)
      · exact ih { request with url_offset := p } 1 (p + 1)
    | 1 =>
      simp only [get_protocol_scan]
      split_ifs
      · exact ih { request with url_length := p - request.url_offset } 2 (p + 1)
      · exact ih request 1 (p + 1)
    | 2 =>
      simp only [get_protocol_scan]
      split_ifs
      · exact ih request 2 (p + 1)
      · rfl
      · rfl
      · rfl
      · rfl
    | n + 3 =>
      simp only [get_protocol_scan]
      exact ih request (n + 3) (p + 1)

/-- Request-line parsing never reads the malformed flag: with the flag set it
returns what it returns without it and leaves the same request, the flag
set. -/
theorem get_protocol_set_excepted (SW_USE_HTTP2 : Bool) (request : swHttpRequest) :
    swHttpRequest_get_protocol SW_USE_HTTP2 { request with excepted := true } =
      ((swHttpRequest_get_protocol SW_USE_HTTP2 request).1,
        { (swHttpRequest_get_protocol SW_USE_HTTP2 request).2 with excepted := true }) := by
  simp only [swHttpRequest_get_protocol, get_protocol_verb]
  by_cases h0 : request.buffer.length < 16
  · simp only [if_pos h0]
  simp only [if_neg h0]
  by_cases hGET : memcmp_eq request.buffer.str (bytes "GET") 3 = true
  · simp only [if_pos hGET]
    exact scan_set_excepted _ { request with method := SW_HTTP_GET, offset := 3 } 0 3
  simp only [if_neg hGET]
  by_cases hPOST : memcmp_eq request.buffer.str (bytes "POST") 4 = true
  · simp only [if_pos hPOST]
    exact scan_set_excepted _ { request with method := SW_HTTP_POST, offset := 4 } 0 4
  simp only [if_neg hPOST]
  by_cases hPUT : memcmp_eq request.buffer.str (bytes "PUT") 3 = true
  · simp only [if_pos hPUT]
    exact scan_set_excepted _ { request with method := SW_HTTP_PUT, offset := 3 } 0 3
  simp only [if_neg hPUT]
  by_cases hPATCH : memcmp_eq request.buffer.str (bytes "PATCH") 5 = true
  · simp only [if_pos hPATCH]
    exact scan_set_excepted _ { request with method := SW_HTTP_PATCH, offset := 5 } 0 5
  simp only [if_neg hPATCH]
  by_cases hDELETE : memcmp_eq request.buffer.str (bytes "DELETE") 6 = true
  · simp only [if_pos hDELETE]
    exact scan_set_excepted _ { request with method := SW_HTTP_DELETE, offset := 6 } 0 6
  simp only [if_neg hDELETE]
  by_cases hHEAD : memcmp_eq request.buffer.str (bytes "HEAD") 4 = true
  · simp only [if_pos hHEAD]
    exact scan_set_excepted _ { request with method := SW_HTTP_HEAD, offset := 4 } 0 4
  simp only [if_neg hHEAD]
  by_cases hOPTIONS : memcmp_eq request.buffer.str (bytes "OPTIONS") 7 = true
  · simp only [if_pos hOPTIONS]
    exact scan_set_excepted _ { request with method := SW_HTTP_OPTIONS, offset := 7 } 0 7
  simp only [if_neg hOPTIONS]
  by_cases hCOPY : memcmp_eq request.buffer.str (bytes "COPY") 4 = true
  · simp only [if_pos hCOPY]
    exact scan_set_excepted _ { request with method := SW_HTTP_COPY, offset := 4 } 0 4
  simp only [if_neg hCOPY]
  by_cases hLOCK : memcmp_eq request.buffer.str (bytes "LOCK") 4 = true
  · simp only [if_pos hLOCK]
    exact scan_set_excepted _ { request with method := SW_HTTP_LOCK, offset := 4 } 0 4
  simp only [if_neg hLOCK]
  by_cases hMKCOL : memcmp_eq request.buffer.str (bytes "MKCOL") 5 = true
  · simp only [if_pos hMKCOL]
    exact scan_set_excepted _ { request with method := SW_HTTP_MKCOL, offset := 5 } 0 5
  simp only [if_neg hMKCOL]
  by_cases hMOVE : memcmp_eq request.buffer.str (bytes "MOVE") 4 = true
  · simp only [if_pos hMOVE]
    exact scan_set_excepted _ { request with method := SW_HTTP_MOVE, offset := 4 } 0 4
  simp only [if_neg hMOVE]
  by_cases hPROPFIND : memcmp_eq request.buffer.str (bytes "PROPFIND") 8 = true
  · simp only [if_pos hPROPFIND]
    exact scan_set_excepted _ { request with method := SW_HTTP_PROPFIND, offset := 8 } 0 8
  simp only [if_neg hPROPFIND]
  by_cases hPROPPATCH : memcmp_eq request.buffer.str (bytes "PROPPATCH") 9 = true
  · simp only [if_pos hPROPPATCH]
    exact scan_set_excepted _ { request with method := SW_HTTP_PROPPATCH, offset := 9 } 0 9
  simp only [if_neg hPROPPATCH]
  by_cases hUNLOCK : memcmp_eq request.buffer.str (bytes "UNLOCK") 6 = true
  · simp only [if_pos hUNLOCK]
    exact scan_set_excepted _ { request with method := SW_HTTP_UNLOCK, offset := 6 } 0 6
  simp only [if_neg hUNLOCK]
  by_cases hREPORT : memcmp_eq request.buffer.str (bytes "REPORT") 6 = true
  · simp only [if_pos hREPORT]
    exact scan_set_excepted _ { request with method := SW_HTTP_REPORT, offset := 6 } 0 6
  simp only [if_neg hREPORT]
  by_cases hPURGE : memcmp_eq request.buffer.str (bytes "PURGE") 5 = true
  · simp only [if_pos hPURGE]
    exact scan_set_excepted _ { request with method := SW_HTTP_PURGE, offset := 5 } 0 5
  simp only [if_neg hPURGE]
  by_cases hp : (SW_USE_HTTP2 && memcmp_eq request.buffer.str (bytes "PRI") 3) = true
  · simp only [if_pos hp]
    by_cases hq : memcmp_eq request.buffer.str SW_HTTP2_PRI_STRING 24 = true
    · simp only [if_pos hq]
    · simp only [if_neg hq]
      rfl
  · simp only [if_neg hp]
    rfl

theorem header_length_scan_set_excepted (L : List Nat) :
    ∀ (request : swHttpRequest) (p : Nat),
      get_header_length_scan { request with excepted := true } p L =
        ((get_header_length_scan request p L).1,
          { (get_header_length_scan request p L).2 with excepted := true }) := by
  induction L with
  | nil => intro request p; rfl
  | cons c rest ih =>
    intro request p
    simp only [get_header_length_scan]
    split_ifs
    · rfl
    · exact ih request (p + 1)

/-- Header-length detection never reads the malformed flag. -/
theorem get_header_length_set_excepted (request : swHttpRequest) :
    swHttpRequest_get_header_length { request with excepted := true } =
      ((swHttpRequest_get_header_length request).1,
        { (swHttpRequest_get_header_length request).2 with excepted := true }) :=
  header_length_scan_set_excepted _ request _

theorem body_set_excepted (str : List Nat) (pe p : Nat) (request : swHttpRequest)
    (got_len : Bool) :
    get_header_info_body str pe p { request with excepted := true } got_len =
      ((get_header_info_body str pe p request got_len).1,
        { (get_header_info_body str pe p request got_len).2.1 with excepted := true },
        (get_header_info_body str pe p request got_len).2.2) := by
  simp only [get_header_info_body]
  split_ifs <;> rfl

theorem loop_set_excepted (str : List Nat) (pe : Nat) :
    ∀ (fuel p : Nat) (request : swHttpRequest) (got_len : Bool),
      get_header_info_loop str pe fuel p { request with excepted := true } got_len =
        ({ (get_header_info_loop str pe fuel p request got_len).1 with excepted := true },
          (get_header_info_loop str pe fuel p request got_len).2) := by
  intro fuel
  induction fuel with
  | zero => intro p request got_len; rfl
  | succ f ih =>
    intro p request got_len
    by_cases hp : p < pe
    · rw [loop_step _ _ _ _ _ _ hp, loop_step _ _ _ _ _ _ hp, body_set_excepted]
      exact ih _ (get_header_info_body str pe p request got_len).2.1 _
    · rw [loop_done _ _ _ _ _ _ (by omega), loop_done _ _ _ _ _ _ (by omega)]

/-- Header extraction never reads the malformed flag. -/
theorem get_header_info_set_excepted (request : swHttpRequest) :
    swHttpRequest_get_header_info { request with excepted := true } =
      ((swHttpRequest_get_header_info request).1,
        { (swHttpRequest_get_header_info request).2 with excepted := true }) := by
  unfold swHttpRequest_get_header_info
  simp only []
  rw [loop_set_excepted]

theorem set_excepted_of_set (request : swHttpRequest) (h : request.excepted = true) :
    ({ ({ request with excepted := false } : swHttpRequest) with excepted := true }
      : swHttpRequest) = request := by
  cases request
  simp only at h
  subst h
  rfl

/-- C16, as stated, fails: with the malformed flag set, request-line parsing,
header-length detection and header extraction all succeed on
`POST /a HTTP/1.1\r\ncontent-LENGTH: 42\r\n\r\nbody`. -/
theorem phases_ignore_excepted :
    ({ fresh sample_post with excepted := true } : swHttpRequest).excepted = true
      ∧ (swHttpRequest_get_protocol true { fresh sample_post with excepted := true }).1 = SW_OK
      ∧ (swHttpRequest_get_header_length
          { after_protocol sample_post with excepted := true }).1 = SW_OK
      ∧ (swHttpRequest_get_header_info
          { after_header_length sample_post with excepted := true }).1 = SW_OK := by
  decide

/-- C16, amended: for every request whose malformed flag is already set, each
parsing phase (request-line parsing, header-length detection, and header
extraction on a request whose `header_length` is at least 4 and not past the
end of the buffer, as header-length detection leaves it) returns what it
returns when the flag is not set and leaves the same request with the flag
set, whatever the buffer contains: the flag stays set and is never read. -/
theorem phases_keep_excepted (SW_USE_HTTP2 : Bool) (request : swHttpRequest)
    (h : request.excepted = true) :
    ((swHttpRequest_get_protocol SW_USE_HTTP2 request).2.excepted = true
        ∧ swHttpRequest_get_protocol SW_USE_HTTP2 request =
            ((swHttpRequest_get_protocol SW_USE_HTTP2 { request with excepted := false }).1,
              { (swHttpRequest_get_protocol SW_USE_HTTP2
                  { request with excepted := false }).2 with excepted := true }))
      ∧ ((swHttpRequest_get_header_length request).2.excepted = true
        ∧ swHttpRequest_get_header_length request =
            ((swHttpRequest_get_header_length { request with excepted := false }).1,
              { (swHttpRequest_get_header_length
                  { request with excepted := false }).2 with excepted := true }))
      ∧ (4 ≤ request.header_length → request.header_length ≤ request.buffer.length →
          (swHttpRequest_get_header_info request).2.excepted = true
            ∧ swHttpRequest_get_header_info request =
                ((swHttpRequest_get_header_info { request with excepted := false }).1,
                  { (swHttpRequest_get_header_info
                      { request with excepted := false }).2 with excepted := true })) := by
  have e := set_excepted_of_set request h
  have e1 := get_protocol_set_excepted SW_USE_HTTP2 { request with excepted := false }
  have e2 := get_header_length_set_excepted { request with excepted := false }
  have e3 := get_header_info_set_excepted { request with excepted := false }
  rw [e] at e1 e2 e3
  refine ⟨⟨?_, e1⟩, ⟨?_, e2⟩, fun _ _ => ⟨?_, e3⟩⟩
  · rw [e1]
  · rw [e2]
  · rw [e3]

set_option maxRecDepth 100000 in
/-- C16, amended, at the request `POST /a HTTP/1.1\r\ncontent-LENGTH: 42\r\n\r\nbody`
after request-line parsing and header-length detection (`header_length` 40),
with the flag set: every phase succeeds as it does without the flag and the
flag stays set. -/
theorem phases_keep_excepted_witness :
    ({ after_header_length sample_post with excepted := true } : swHttpRequest).excepted = true
      ∧ ((swHttpRequest_get_protocol true
            { after_header_length sample_post with excepted := true }).2.excepted = true
        ∧ swHttpRequest_get_protocol true
            { after_header_length sample_post with excepted := true } =
            ((swHttpRequest_get_protocol true
                { ({ after_header_length sample_post with excepted := true } : swHttpRequest)
                    with excepted := false }).1,
              { (swHttpRequest_get_protocol true
                  { ({ after_header_length sample_post with excepted := true } : swHttpRequest)
                      with excepted := false }).2 with excepted := true }))
      ∧ ((swHttpRequest_get_header_length
            { after_header_length sample_post with excepted := true }).2.excepted = true
        ∧ swHttpRequest_get_header_length
            { after_header_length sample_post with excepted := true } =
            ((swHttpRequest_get_header_length
                { ({ after_header_length sample_post with excepted := true } : swHttpRequest)
                    with excepted := false }).1,
              { (swHttpRequest_get_header_length
                  { ({ after_header_length sample_post with excepted := true } : swHttpRequest)
                      with excepted := false }).2 with excepted := true }))
      ∧ (after_header_length sample_post).header_length = 40
      ∧ (swHttpRequest_get_header_info
            { after_header_length sample_post with excepted := true }).1 = SW_OK
      ∧ ((swHttpRequest_get_header_info
            { after_header_length sample_post with excepted := true }).2.excepted = true
        ∧ swHttpRequest_get_header_info
            { after_header_length sample_post with excepted := true } =
            ((swHttpRequest_get_header_info
                { ({ after_header_length sample_post with excepted := true } : swHttpRequest)
                    with excepted := false }).1,
              { (swHttpRequest_get_header_info
                  { ({ after_header_length sample_post with excepted := true } : swHttpRequest)
                      with excepted := false }).2 with excepted := true })) :=
  ⟨rfl,
    (phases_keep_excepted true { after_header_length sample_post with excepted := true } rfl).1,
    (phases_keep_excepted true { after_header_length sample_post with excepted := true }
      rfl).2.1,
    by decide, by decide,
    (phases_keep_excepted true { after_header_length sample_post with excepted := true }
      rfl).2.2 (by decide) (by decide)⟩

/-- C18: the requests `GET / HTTP/1.1\r\nX-If-Modified-Since: Tue\r\n\r\n` and
`OPTIONS /a HTTP/1.1\r\nAccess-Control-Request-Headers: If-Modified-Since\r\nHost: a\r\n\r\n`
have no header line that begins with `If-Modified-Since`, and
`swHttpRequest_get_date_if_modified_since` returns `Tue` for the first and
`Host: a` for the second. -/
theorem date_found_without_header :
    (∀ q, ¬ header_line_at (after_header_length sample_x_header) q (bytes "If-Modified-Since"))
      ∧ swHttpRequest_get_date_if_modified_since (after_header_length sample_x_header)
          = bytes "Tue"
      ∧ (∀ q, ¬ header_line_at (after_header_length sample_header_value) q
          (bytes "If-Modified-Since"))
      ∧ swHttpRequest_get_date_if_modified_since (after_header_length sample_header_value)
          = bytes "Host: a" := by
  refine ⟨?_, by decide, ?_, by decide⟩
  · intro q h
    have hb : q + 17 ≤ 40 := h.2.1
    have hall : ∀ q, q < 24 →
        ¬ header_line_at (after_header_length sample_x_header) q (bytes "If-Modified-Since") := by
      decide
    exact hall q (by omega) h
  · intro q h
    have hb : q + 17 ≤ 79 := h.2.1
    have hall : ∀ q, q < 63 →
        ¬ header_line_at (after_header_length sample_header_value) q
          (bytes "If-Modified-Since") := by
      decide
    exact hall q (by omega) h

/-- C20: the first 16 bytes of the HTTP/2 connection preface are reported as
malformed, although the request-line parser succeeds on the whole preface. -/
theorem preface_fragment_is_malformed :
    bytes "PRI * HTTP/2.0\r\n" ++ bytes "\r\nSM\r\n\r\n" = SW_HTTP2_PRI_STRING
      ∧ (swHttpRequest_get_protocol true
          (fresh (bytes "PRI * HTTP/2.0\r\n" ++ bytes "\r\nSM\r\n\r\n"))).1 = SW_OK
      ∧ swHttpRequest_get_protocol true (fresh (bytes "PRI * HTTP/2.0\r\n")) =
          (SW_ERR, { fresh (bytes "PRI * HTTP/2.0\r\n") with
                       method := SW_HTTP_PRI, excepted := true }) := by
  decide


/-! ## What a parsed request line leaves behind -/

theorem isspace_tolower_ne (c x : Nat) (h : isspace c = true) (hx : 33 ≤ x) : tolower c ≠ x := by
  have hc : c = 32 ∨ (9 ≤ c ∧ c ≤ 13) := by
    simpa [isspace] using h
  unfold tolower
  split_ifs <;> omega

theorem memcmp_byte (L lit : List Nat) (n : Nat) (hn : n = lit.length)
    (h : memcmp_eq L lit n = true) (k : Nat) (hk : k < n) : L.getD k 0 = lit.getD k 0 := by
  subst hn
  simp only [memcmp_eq, List.take_length, beq_iff_eq] at h
  have h2 : (L.take lit.length)[k]? = lit[k]? := by rw [h]
  rw [List.getElem?_take_of_lt hk] at h2
  simp [List.getD, h2]

theorem version_token_no_i : ∀ k, k < 8 →
    tolower ((bytes "HTTP/1.1").getD k 0) ≠ 105 ∧ tolower ((bytes "HTTP/1.0").getD k 0) ≠ 105 := by
  decide

theorem scan_state2_inv (L : List Nat) :
    ∀ (request out : swHttpRequest) (p : Nat),
      get_protocol_scan request 2 p L = (SW_OK, out) → out.buffer.offset ≤ p + L.length →
      out.url_offset = request.url_offset ∧ out.url_length = request.url_length
        ∧ out.buffer.str = request.buffer.str ∧ out.method = request.method
        ∧ p + 8 ≤ out.buffer.offset
        ∧ ∀ k, p + k < out.buffer.offset → tolower (L.getD k 0) ≠ 105 := by
  induction L with
  | nil =>
    intro request out p h hoff
    simp only [get_protocol_scan, get_protocol_end, Prod.mk.injEq] at h
    rw [← h.2] at hoff
    simp only [List.length_nil] at hoff
    omega
  | cons c rest ih =>
    intro request out p h hoff
    simp only [get_protocol_scan] at h
    by_cases hs : isspace c = true
    · rw [if_pos hs] at h
      obtain ⟨a1, a2, a3, a4, a5, a6⟩ := ih request out (p + 1) h
        (by simp only [List.length_cons] at hoff; omega)
      refine ⟨a1, a2, a3, a4, by omega, ?_⟩
      intro k hk
      cases k with
      | zero => exact isspace_tolower_ne c 105 hs (by decide)
      | succ k => exact a6 k (by omega)
    · rw [if_neg hs] at h
      by_cases hl : (c :: rest).length < 8
      · rw [if_pos hl] at h
        simp only [Prod.mk.injEq] at h
        exact absurd h.1 (by decide)
      · rw [if_neg hl] at h
        by_cases h11 : memcmp_eq (c :: rest) (bytes "HTTP/1.1") 8 = true
        · rw [if_pos h11] at h
          simp only [get_protocol_end, Prod.mk.injEq] at h
          rw [← h.2]
          refine ⟨rfl, rfl, rfl, rfl, le_refl _, ?_⟩
          intro k hk
          have hk8 : k < 8 := by simpa using hk
          rw [memcmp_byte _ _ 8 (by decide) h11 k hk8]
          exact (version_token_no_i k hk8).1
        · rw [if_neg h11] at h
          by_cases h10 : memcmp_eq (c :: rest) (bytes "HTTP/1.0") 8 = true
          · rw [if_pos h10] at h
            simp only [get_protocol_end, Prod.mk.injEq] at h
            rw [← h.2]
            refine ⟨rfl, rfl, rfl, rfl, le_refl _, ?_⟩
            intro k hk
            have hk8 : k < 8 := by simpa using hk
            rw [memcmp_byte _ _ 8 (by decide) h10 k hk8]
            exact (version_token_no_i k hk8).2
          · rw [if_neg h10] at h
            simp only [get_protocol_excepted, Prod.mk.injEq] at h
            exact absurd h.1 (by decide)

theorem scan_state1_inv (L : List Nat) :
    ∀ (request out : swHttpRequest) (p : Nat),
      get_protocol_scan request 1 p L = (SW_OK, out) → out.buffer.offset ≤ p + L.length →
      request.url_offset ≤ p →
      out.url_offset = request.url_offset
        ∧ out.buffer.str = request.buffer.str ∧ out.method = request.method
        ∧ p ≤ out.url_offset + out.url_length
        ∧ out.url_offset + out.url_length + 9 ≤ out.buffer.offset
        ∧ ∀ k, out.url_offset + out.url_length ≤ p + k → p + k < out.buffer.offset →
            tolower (L.getD k 0) ≠ 105 := by
  induction L with
  | nil =>
    intro request out p h hoff _
    simp only [get_protocol_scan, get_protocol_end, Prod.mk.injEq] at h
    rw [← h.2] at hoff
    simp only [List.length_nil] at hoff
    omega
  | cons c rest ih =>
    intro request out p h hoff hu
    simp only [get_protocol_scan] at h
    by_cases hs : isspace c = true
    · rw [if_pos hs] at h
      obtain ⟨a1, a2, a3, a4, a5, a6⟩ := scan_state2_inv rest _ out (p + 1) h
        (by simp only [List.length_cons] at hoff; omega)
      simp only at a1 a2 a3 a4
      have e : out.url_offset + out.url_length = p := by
        rw [a1, a2]; omega
      refine ⟨a1, a3, a4, by omega, by omega, ?_⟩
      intro k hk1 hk2
      cases k with
      | zero => exact isspace_tolower_ne c 105 hs (by decide)
      | succ k => exact a6 k (by omega)
    · rw [if_neg hs] at h
      obtain ⟨a1, a2, a3, a4, a5, a6⟩ := ih request out (p + 1) h
        (by simp only [List.length_cons] at hoff; omega) (by omega)
      refine ⟨a1, a2, a3, by omega, a5, ?_⟩
      intro k hk1 hk2
      cases k with
      | zero => omega
      | succ k => exact a6 k (by omega) (by omega)

theorem scan_state0_inv (L : List Nat) :
    ∀ (request out : swHttpRequest) (p : Nat),
      get_protocol_scan request 0 p L = (SW_OK, out) → out.buffer.offset ≤ p + L.length →
      out.buffer.str = request.buffer.str ∧ out.method = request.method
        ∧ p ≤ out.url_offset + out.url_length
        ∧ out.url_offset + out.url_length + 9 ≤ out.buffer.offset
        ∧ ∀ k, out.url_offset + out.url_length ≤ p + k → p + k < out.buffer.offset →
            tolower (L.getD k 0) ≠ 105 := by
  induction L with
  | nil =>
    intro request out p h hoff
    simp only [get_protocol_scan, get_protocol_end, Prod.mk.injEq] at h
    rw [← h.2] at hoff
    simp only [List.length_nil] at hoff
    omega
  | cons c rest ih =>
    intro request out p h hoff
    simp only [get_protocol_scan] at h
    by_cases hs : isspace c = true
    · rw [if_pos hs] at h
      obtain ⟨a2, a3, a4, a5, a6⟩ := ih request out (p + 1) h
        (by simp only [List.length_cons] at hoff; omega)
      refine ⟨a2, a3, by omega, a5, ?_⟩
      intro k hk1 hk2
      cases k with
      | zero => omega
      | succ k => exact a6 k (by omega) (by omega)
    · rw [if_neg hs] at h
      obtain ⟨_, a2, a3, a4, a5, a6⟩ := scan_state1_inv rest _ out (p + 1) h
        (by simp only [List.length_cons] at hoff; omega) (by simp)
      refine ⟨a2, a3, by omega, a5, ?_⟩
      intro k hk1 hk2
      cases k with
      | zero => omega
      | succ k => exact a6 k (by omega) (by omega)

theorem getD_drop_index (str : List Nat) (n k : Nat) :
    (str.drop n).getD k 0 = byte_at str (n + k) := by
  simp [byte_at, List.getD, List.getElem?_drop]

theorem scan_keeps_str (L : List Nat) :
    ∀ (request : swHttpRequest) (state p : Nat),
      (get_protocol_scan request state p L).2.buffer.str = request.buffer.str := by
  induction L with
  | nil => intro request state p; rfl
  | cons c rest ih =>
    intro request state p
    match state with
    | 0 =>
      simp only [get_protocol_scan]
      split_ifs
      · exact ih _ _ _
      · exact ih _ _ _
    | 1 =>
      simp only [get_protocol_scan]
      split_ifs
      · exact ih _ _ _
      · exact ih _ _ _
    | 2 =>
      simp only [get_protocol_scan]
      split_ifs
      · exact ih _ _ _
      · rfl
      · rfl
      · rfl
      · rfl
    | n + 3 =>
      simp only [get_protocol_scan]
      exact ih _ _ _

/-- After a request line (not the HTTP/2 preface) has been parsed with the
cursor inside the buffer, the cursor is at least 9 bytes past the URL span and
no byte between the URL span and the cursor is an `i` or an `I`. -/
theorem request_line_facts (SW_USE_HTTP2 : Bool) (r0 r1 : swHttpRequest)
    (h1 : swHttpRequest_get_protocol SW_USE_HTTP2 r0 = (SW_OK, r1))
    (hm : r1.method ≠ SW_HTTP_PRI) (hoff : r1.buffer.offset ≤ r1.buffer.str.length) :
    r1.url_offset + r1.url_length + 9 ≤ r1.buffer.offset
      ∧ ∀ i, r1.url_offset + r1.url_length ≤ i → i < r1.buffer.offset →
          tolower (byte_at r1.buffer.str i) ≠ 105 := by
  have key := get_protocol_elim SW_USE_HTTP2 r0
    (fun res => res = (SW_OK, r1) →
      r1.url_offset + r1.url_length + 9 ≤ r1.buffer.offset
        ∧ ∀ i, r1.url_offset + r1.url_length ≤ i → i < r1.buffer.offset →
            tolower (byte_at r1.buffer.str i) ≠ 105)
    (by
      intro h
      simp only [Prod.mk.injEq] at h
      exact absurd h.1 (by decide))
    (by
      intro v _ hv h
      have hpre := (memcmp_eq_iff_starts _ _ _ rfl).mp hv
      have hlen : v.1.length ≤ r0.buffer.str.length := hpre.length_le
      unfold get_protocol_verb at h
      have e : r1.buffer.str = r0.buffer.str := by
        have := scan_keeps_str (r0.buffer.str.drop v.1.length)
          { r0 with method := v.2, offset := v.1.length } 0 v.1.length
        rw [h] at this
        exact this
      obtain ⟨a2, a3, a4, a5, a6⟩ := scan_state0_inv _ _ r1 _ h
        (by
          rw [List.length_drop]
          rw [e] at hoff
          omega)
      refine ⟨a5, ?_⟩
      intro i hi1 hi2
      have hvi : v.1.length + (i - v.1.length) = i := by omega
      have := a6 (i - v.1.length) (by omega) (by omega)
      rw [getD_drop_index, hvi] at this
      rw [a2]
      exact this)
    (by
      intro _ h
      simp only [Prod.mk.injEq] at h
      exact absurd (by rw [← h.2]) hm)
    (by
      intro h
      simp only [get_protocol_excepted, Prod.mk.injEq] at h
      exact absurd h.1 (by decide))
    (by
      intro h
      simp only [get_protocol_excepted, Prod.mk.injEq] at h
      exact absurd h.1 (by decide))
  exact key h1


/-! ## The conditional-GET header -/

theorem bytes_if_modified_since :
    bytes "If-Modified-Since" =
      [73, 102, 45, 77, 111, 100, 105, 102, 105, 101, 100, 45, 83, 105, 110, 99, 101] := by
  decide

theorem date_state0_no (str : List Nat) (pe f p date : Nat) (hp : p < pe)
    (h : SW_STRCASECT (str.drop p) (ptrdiff_size pe p) (bytes "If-Modified-Since") = false) :
    get_date_loop str pe (f + 1) p 0 date = get_date_loop str pe f (p + 1) 0 date := by
  simp [get_date_loop, hp, h]

theorem date_state0_yes (str : List Nat) (pe f p date : Nat) (hp : p < pe)
    (h : SW_STRCASECT (str.drop p) (ptrdiff_size pe p) (bytes "If-Modified-Since") = true) :
    get_date_loop str pe (f + 1) p 0 date = get_date_loop str pe f (p + 18 + 1) 1 date := by
  simp [get_date_loop, hp, h]

theorem date_state1_space (str : List Nat) (pe f p date : Nat) (hp : p < pe)
    (h : isspace (byte_at str p) = true) :
    get_date_loop str pe (f + 1) p 1 date = get_date_loop str pe f (p + 1) 1 date := by
  simp [get_date_loop, hp, h]

theorem date_state1_start (str : List Nat) (pe f p date : Nat) (hp : p < pe)
    (h : isspace (byte_at str p) = false) :
    get_date_loop str pe (f + 1) p 1 date = get_date_loop str pe f (p + 1) 2 p := by
  simp [get_date_loop, hp, h]

theorem date_state2_no (str : List Nat) (pe f p date : Nat) (hp : p < pe)
    (h : SW_STRCASECT (str.drop p) (ptrdiff_size pe p) (bytes "\r\n") = false) :
    get_date_loop str pe (f + 1) p 2 date = get_date_loop str pe f (p + 1) 2 date := by
  simp [get_date_loop, hp, h]

theorem date_state2_yes (str : List Nat) (pe f p date : Nat) (hp : p < pe)
    (h : SW_STRCASECT (str.drop p) (ptrdiff_size pe p) (bytes "\r\n") = true) :
    get_date_loop str pe (f + 1) p 2 date = slice str date (p - date) := by
  simp [get_date_loop, hp, h]

theorem date_skip0 (str : List Nat) (pe date : Nat) :
    ∀ (n fuel p : Nat), n ≤ fuel → p + n ≤ pe →
      (∀ i, p ≤ i → i < p + n →
        SW_STRCASECT (str.drop i) (ptrdiff_size pe i) (bytes "If-Modified-Since") = false) →
      get_date_loop str pe fuel p 0 date = get_date_loop str pe (fuel - n) (p + n) 0 date := by
  intro n
  induction n with
  | zero => intro fuel p _ _ _; rfl
  | succ n ih =>
    intro fuel p hf hp h
    obtain ⟨f, rfl⟩ : ∃ f, fuel = f + 1 := ⟨fuel - 1, by omega⟩
    rw [date_state0_no str pe f p date (by omega) (h p (le_refl _) (by omega)),
      ih f (p + 1) (by omega) (by omega) (fun i h1 h2 => h i (by omega) (by omega))]
    have e1 : f + 1 - (n + 1) = f - n := by omega
    have e2 : p + 1 + n = p + (n + 1) := by omega
    rw [e1, e2]

theorem date_skip1 (str : List Nat) (pe date : Nat) :
    ∀ (n fuel p : Nat), n ≤ fuel → p + n ≤ pe →
      (∀ i, p ≤ i → i < p + n → isspace (byte_at str i) = true) →
      get_date_loop str pe fuel p 1 date = get_date_loop str pe (fuel - n) (p + n) 1 date := by
  intro n
  induction n with
  | zero => intro fuel p _ _ _; rfl
  | succ n ih =>
    intro fuel p hf hp h
    obtain ⟨f, rfl⟩ : ∃ f, fuel = f + 1 := ⟨fuel - 1, by omega⟩
    rw [date_state1_space str pe f p date (by omega) (h p (le_refl _) (by omega)),
      ih f (p + 1) (by omega) (by omega) (fun i h1 h2 => h i (by omega) (by omega))]
    have e1 : f + 1 - (n + 1) = f - n := by omega
    have e2 : p + 1 + n = p + (n + 1) := by omega
    rw [e1, e2]

theorem date_skip2 (str : List Nat) (pe date : Nat) :
    ∀ (n fuel p : Nat), n ≤ fuel → p + n ≤ pe →
      (∀ i, p ≤ i → i < p + n →
        SW_STRCASECT (str.drop i) (ptrdiff_size pe i) (bytes "\r\n") = false) →
      get_date_loop str pe fuel p 2 date = get_date_loop str pe (fuel - n) (p + n) 2 date := by
  intro n
  induction n with
  | zero => intro fuel p _ _ _; rfl
  | succ n ih =>
    intro fuel p hf hp h
    obtain ⟨f, rfl⟩ : ∃ f, fuel = f + 1 := ⟨fuel - 1, by omega⟩
    rw [date_state2_no str pe f p date (by omega) (h p (le_refl _) (by omega)),
      ih f (p + 1) (by omega) (by omega) (fun i h1 h2 => h i (by omega) (by omega))]
    have e1 : f + 1 - (n + 1) = f - n := by omega
    have e2 : p + 1 + n = p + (n + 1) := by omega
    rw [e1, e2]

theorem tolower_eq_cr (c : Nat) (h : tolower c = tolower 13) : c = 13 := by
  unfold tolower at h
  split_ifs at h <;> omega

theorem strcasect_false_of_first (str : List Nat) (i plen : Nat) (lit : List Nat)
    (hlit : 0 < lit.length)
    (h : tolower (byte_at str i) ≠ tolower (lit.getD 0 0)) :
    SW_STRCASECT (str.drop i) plen lit = false := by
  cases hc : SW_STRCASECT (str.drop i) plen lit with
  | false => rfl
  | true =>
    have := strcasect_byte str i plen lit hc 0 hlit
    rw [Nat.add_zero] at this
    exact absurd this h

theorem header_length_ok_fields (request out : swHttpRequest)
    (h : swHttpRequest_get_header_length request = (SW_OK, out)) :
    out.url_offset = request.url_offset ∧ out.url_length = request.url_length
      ∧ out.buffer = request.buffer ∧ out.method = request.method
      ∧ 4 ≤ out.header_length := by
  unfold swHttpRequest_get_header_length at h
  obtain ⟨k, _, e⟩ := header_length_scan_ok _ _ _ _ h
  subst e
  exact ⟨rfl, rfl, rfl, rfl, by simp⟩

theorem getD_mem (D : List Nat) (k : Nat) (hk : k < D.length) : D.getD k 0 ∈ D := by
  have : D.getD k 0 = D[k] := by
    simp [List.getD, List.getElem?_eq_getElem hk]
  rw [this]
  exact List.getElem_mem _


theorem date_loop_found (str : List Nat) (pe p0 q fuel date0 : Nat) (W D : List Nat)
    (hp0 : p0 ≤ q) (hfuel : pe - p0 ≤ fuel)
    (hno : ∀ i, p0 ≤ i → i < q →
      SW_STRCASECT (str.drop i) (ptrdiff_size pe i) (bytes "If-Modified-Since") = false)
    (hq : SW_STRCASECT (str.drop q) (ptrdiff_size pe q) (bytes "If-Modified-Since") = true)
    (hWne : W ≠ []) (hW : slice str (q + 18) W.length = W) (hWs : ∀ c ∈ W, isspace c = true)
    (hDne : D ≠ []) (hD : slice str (q + 18 + W.length) D.length = D)
    (hD0 : isspace (D.getD 0 0) = false) (hDc : ∀ c ∈ D, c ≠ 13)
    (hend : slice str (q + 18 + W.length + D.length) 2 = bytes "\r\n")
    (hpe : q + 18 + W.length + D.length + 2 ≤ pe) :
    get_date_loop str pe fuel p0 0 date0 = D := by
  have hWl : 0 < W.length := List.length_pos.mpr hWne
  have hDl : 0 < D.length := List.length_pos.mpr hDne
  have hbW : ∀ k, k < W.length → byte_at str (q + 18 + k) = W.getD k 0 :=
    fun k hk => byte_at_of_slice str (q + 18) W.length k W hW hk
  have hbD : ∀ k, k < D.length → byte_at str (q + 18 + W.length + k) = D.getD k 0 :=
    fun k hk => byte_at_of_slice str (q + 18 + W.length) D.length k D hD hk
  -- state 0 up to the header name
  rw [date_skip0 str pe date0 (q - p0) fuel p0 (by omega) (by omega)
    (fun i h1 h2 => hno i h1 (by omega))]
  have e1 : p0 + (q - p0) = q := by omega
  rw [e1]
  obtain ⟨f1, hf1⟩ : ∃ f1, fuel - (q - p0) = f1 + 1 := ⟨fuel - (q - p0) - 1, by omega⟩
  rw [hf1, date_state0_yes str pe f1 q date0 (by omega) hq]
  -- state 1 over the whitespace
  rw [date_skip1 str pe date0 (W.length - 1) f1 (q + 18 + 1) (by omega) (by omega)
    (fun i h1 h2 => by
      have := hbW (i - (q + 18)) (by omega)
      have e : q + 18 + (i - (q + 18)) = i := by omega
      rw [e] at this
      rw [this]
      exact hWs _ (getD_mem W _ (by omega)))]
  have e2 : q + 18 + 1 + (W.length - 1) = q + 18 + W.length := by omega
  rw [e2]
  obtain ⟨f2, hf2⟩ : ∃ f2, f1 - (W.length - 1) = f2 + 1 := ⟨f1 - (W.length - 1) - 1, by omega⟩
  have hv : byte_at str (q + 18 + W.length) = D.getD 0 0 := by
    have := hbD 0 hDl
    rwa [Nat.add_zero] at this
  rw [hf2, date_state1_start str pe f2 (q + 18 + W.length) date0 (by omega) (by rw [hv]; exact hD0)]
  -- state 2 over the value
  rw [date_skip2 str pe (q + 18 + W.length) (D.length - 1) f2 (q + 18 + W.length + 1) (by omega)
    (by omega)
    (fun i h1 h2 => by
      apply strcasect_false_of_first _ _ _ _ (by decide)
      have := hbD (i - (q + 18 + W.length)) (by omega)
      have e : q + 18 + W.length + (i - (q + 18 + W.length)) = i := by omega
      rw [e] at this
      rw [this]
      intro hc
      exact hDc _ (getD_mem D _ (by omega)) (tolower_eq_cr _ hc))]
  have e3 : q + 18 + W.length + 1 + (D.length - 1) = q + 18 + W.length + D.length := by omega
  rw [e3]
  obtain ⟨f3, hf3⟩ : ∃ f3, f2 - (D.length - 1) = f3 + 1 := ⟨f2 - (D.length - 1) - 1, by omega⟩
  have hcrlf : SW_STRCASECT (str.drop (q + 18 + W.length + D.length))
      (ptrdiff_size pe (q + 18 + W.length + D.length)) (bytes "\r\n") = true := by
    rw [strcasect_iff]
    have hl : (bytes "\r\n").length = 2 := by decide
    have e : ptrdiff_size pe (q + 18 + W.length + D.length) =
        pe - (q + 18 + W.length + D.length) := by
      simp only [ptrdiff_size]; rw [if_pos (by omega)]
    rw [e, hl, hend]
    exact ⟨by omega, rfl⟩
  rw [hf3, date_state2_yes str pe f3 _ _ (by omega) hcrlf]
  have e4 : q + 18 + W.length + D.length - (q + 18 + W.length) = D.length := by omega
  rw [e4]
  exact hD


/-- C17: after successful parsing of a request line (not the HTTP/2 preface) and
header-length detection, if the header block contains the text
`If-Modified-Since` (any letter case) exactly once, as the header line
`If-Modified-Since:` followed by whitespace `W` and a non-empty value `D`
without CR or LF that does not start with whitespace and is followed by
`\r\n`, then `swHttpRequest_get_date_if_modified_since` returns exactly `D`. -/
theorem get_date_if_modified_since_found (SW_USE_HTTP2 : Bool) (r0 r1 r2 : swHttpRequest)
    (h1 : swHttpRequest_get_protocol SW_USE_HTTP2 r0 = (SW_OK, r1))
    (h2 : swHttpRequest_get_header_length r1 = (SW_OK, r2))
    (hm : r1.method ≠ SW_HTTP_PRI)
    (q : Nat) (W D : List Nat)
    (hline : header_line_at r2 q (bytes "If-Modified-Since:"))
    (honce : ∀ i, r2.buffer.offset ≤ i → i + 17 ≤ r2.header_length - 4 →
      ciEq (slice r2.buffer.str i 17) (bytes "If-Modified-Since") → i = q)
    (hWne : W ≠ []) (hW : slice r2.buffer.str (q + 18) W.length = W)
    (hWs : ∀ c ∈ W, isspace c = true)
    (hDne : D ≠ []) (hD : slice r2.buffer.str (q + 18 + W.length) D.length = D)
    (hD0 : isspace (D.getD 0 0) = false) (hDc : ∀ c ∈ D, c ≠ 13 ∧ c ≠ 10)
    (hend : slice r2.buffer.str (q + 18 + W.length + D.length) 2 = bytes "\r\n")
    (hin : q + 18 + W.length + D.length ≤ r2.header_length - 4) :
    swHttpRequest_get_date_if_modified_since r2 = D := by
  obtain ⟨f1, f2, f3, _, f5⟩ := header_length_ok_fields r1 r2 h2
  obtain ⟨b1, b2, _, _, _⟩ := header_block_facts r1 r2 h2
  have hoff1 : r1.buffer.offset ≤ r1.buffer.str.length := by
    rw [← f3]; omega
  obtain ⟨l1, l2⟩ := request_line_facts SW_USE_HTTP2 r0 r1 h1 hm hoff1
  rw [← f1, ← f2, ← f3] at l1
  rw [← f1, ← f2, ← f3] at l2
  obtain ⟨g1, g2, _, _, g5⟩ := hline
  have hlen18 : (bytes "If-Modified-Since:").length = 18 := by decide
  rw [hlen18] at g2 g5
  have hname : ciEq (slice r2.buffer.str q 17) (bytes "If-Modified-Since") := by
    have := ciEq_take _ _ 17 g5
    rw [slice_take_le _ _ _ _ (by decide)] at this
    exact this
  have hlen17 : (bytes "If-Modified-Since").length = 17 := by decide
  unfold swHttpRequest_get_date_if_modified_since
  apply date_loop_found r2.buffer.str r2.header_length _ q _ 0 W D (by omega) (le_refl _)
  · intro i hi1 hi2
    by_cases hio : i < r2.buffer.offset
    · apply strcasect_false_of_first _ _ _ _ (by decide)
      have := l2 i (by omega) hio
      intro hc
      apply this
      rw [hc]
      decide
    · cases hc : SW_STRCASECT (r2.buffer.str.drop i) (ptrdiff_size r2.header_length i)
          (bytes "If-Modified-Since") with
      | false => rfl
      | true =>
        have h3 := (strcasect_iff _ _ _ _).mp hc
        rw [hlen17] at h3
        have := honce i (by omega) (by omega) h3.2
        omega
  · rw [strcasect_iff, hlen17]
    have e : ptrdiff_size r2.header_length q = r2.header_length - q := by
      simp only [ptrdiff_size]; rw [if_pos (by omega)]
    rw [e]
    exact ⟨by omega, hname⟩
  · exact hWne
  · exact hW
  · exact hWs
  · exact hDne
  · exact hD
  · exact hD0
  · exact fun c hc => (hDc c hc).1
  · exact hend
  · omega

/-- C17 at a request whose header name is written `if-MODIFIED-since` and whose
date follows a space and a tab. -/
theorem get_date_if_modified_since_found_witness :
    swHttpRequest_get_date_if_modified_since (after_header_length sample_conditional) =
      bytes "Tue, 15 Nov 1994 08:12:31 GMT" :=
  get_date_if_modified_since_found true (fresh sample_conditional)
    (after_protocol sample_conditional) (after_header_length sample_conditional)
    (by decide) (by decide) (by decide) 26 [32, 9] (bytes "Tue, 15 Nov 1994 08:12:31 GMT")
    (by decide)
    (fun i _ hi hc => by
      have hb : i + 17 ≤ 75 := hi
      have hall : ∀ i, i < 59 →
          ciEq (slice (after_header_length sample_conditional).buffer.str i 17)
            (bytes "If-Modified-Since") → i = 26 := by
        decide
      exact hall i (by omega) hc)
    (by decide) (by decide) (by decide) (by decide) (by decide) (by decide) (by decide)
    (by decide) (by decide)


/-! ## The static handler -/

/-- When the handler hit, the status is not 404 and
`swHttpRequest_get_date_if_modified_since` finds no date, the answer is the 200
sequence: the header block, the file, and a close descriptor exactly when
`keep_alive` is false. -/
theorem static_handler_hit_without_date (HAVE_TCP_NOPUSH : Bool) (serv : swServer)
    (request : swHttpRequest) (conn : swConnection)
    (hhit : (serv.StaticHandler_new
      (slice request.buffer.str request.url_offset request.url_length)).hit = true)
    (hstatus : (serv.StaticHandler_new
      (slice request.buffer.str request.url_offset request.url_length)).status_code
        ≠ SW_HTTP_NOT_FOUND)
    (hdate : swHttpRequest_get_date_if_modified_since request = []) :
    ∃ text conn2,
      swHttp_static_handler_hit HAVE_TCP_NOPUSH serv request conn =
        (true,
          [{ fd := conn.session_id, type := swServer_event.SW_SERVER_EVENT_SEND_DATA,
             len := (sw_snprintf 1024 text).length,
             data := swSendData_data.header_buffer (sw_snprintf 1024 text) },
           { fd := conn.session_id, type := swServer_event.SW_SERVER_EVENT_SEND_FILE,
             len := serv.sizeof_swSendFile_request
               + (serv.StaticHandler_new
                   (slice request.buffer.str request.url_offset request.url_length)).task_length
               + 1,
             data := swSendData_data.task
               (serv.StaticHandler_new
                 (slice request.buffer.str request.url_offset request.url_length)).filename
               (serv.StaticHandler_new
                 (slice request.buffer.str request.url_offset request.url_length)).task_length }]
          ++ (if request.keep_alive = true then []
              else [{ fd := conn.session_id, type := swServer_event.SW_SERVER_EVENT_CLOSE,
                      len := 0, data := swSendData_data.null }]),
          conn2)
      ∧ text = bytes "HTTP/1.1 200 OK\r\n"
          ++ (if request.keep_alive = true then bytes "Connection: keep-alive\r\n" else [])
          ++ bytes "Content-Length: "
          ++ format_ld (to_long (serv.StaticHandler_new
              (slice request.buffer.str request.url_offset request.url_length)).task_length)
          ++ bytes "\r\nContent-Type: "
          ++ serv.swoole_mime_type_get (serv.StaticHandler_new
              (slice request.buffer.str request.url_offset request.url_length)).filename
          ++ bytes "\r\nDate: "
          ++ (serv.StaticHandler_new
              (slice request.buffer.str request.url_offset request.url_length)).date
          ++ bytes "\r\nLast-Modified: "
          ++ (serv.StaticHandler_new
              (slice request.buffer.str request.url_offset request.url_length)).date_last_modified
          ++ bytes "\r\nServer: " ++ serv.SW_HTTP_SERVER_SOFTWARE ++ bytes "\r\n\r\n"
      ∧ conn2.session_id = conn.session_id := by
  have hs : ((serv.StaticHandler_new
      (slice request.buffer.str request.url_offset request.url_length)).status_code
        == SW_HTTP_NOT_FOUND) = false := by
    simpa using hstatus
  refine ⟨_, (if (HAVE_TCP_NOPUSH && conn.tcp_nopush == 0) = true
    then { conn with tcp_nopush := 1 } else conn), ?_, rfl, ?_⟩
  · unfold swHttp_static_handler_hit
    simp only [hhit, hs, hdate, Bool.not_true, Bool.false_eq_true, if_false, List.isEmpty_nil,
      Bool.false_and, Bool.not_eq_true']
    cases hk : request.keep_alive <;> cases HAVE_TCP_NOPUSH <;>
      by_cases hc : conn.tcp_nopush = 0 <;> simp [hc]
  · cases HAVE_TCP_NOPUSH <;> by_cases hc : conn.tcp_nopush = 0 <;> simp [hc]

set_option maxRecDepth 100000 in
/-- C19: the request
`GET /f HTTP/1.1\r\nX-If-Modified-Since: Tue, 15 Nov 2094 08:12:31 GMT\r\n\r\n`
has no header line that begins with `If-Modified-Since`, the handler hits with
status 200, and `swHttp_static_handler_hit` hands over one descriptor only, a
`HTTP/1.1 304 Not Modified` header block: no file and no close descriptor. -/
theorem static_handler_answers_304_without_header (HAVE_TCP_NOPUSH : Bool) :
    (∀ q, ¬ header_line_at (after_header_length sample_x_date) q (bytes "If-Modified-Since"))
      ∧ (after_header_length sample_x_date).keep_alive = false
      ∧ (sample_server.StaticHandler_new (bytes "/f")).hit = true
      ∧ (sample_server.StaticHandler_new (bytes "/f")).status_code = 200
      ∧ swHttp_static_handler_hit HAVE_TCP_NOPUSH sample_server
          (after_header_length sample_x_date) sample_conn =
        (true,
          [{ fd := 7, type := swServer_event.SW_SERVER_EVENT_SEND_DATA, len := 140,
             data := swSendData_data.header_buffer
               (bytes "HTTP/1.1 304 Not Modified\r\nDate: Sat, 31 Oct 2026 00:00:00 GMT\r\nLast-Modified: Tue, 15 Nov 1994 08:12:31 GMT\r\nServer: swoole-http-server\r\n\r\n") }],
          sample_conn) := by
  refine ⟨?_, by decide, rfl, rfl, ?_⟩
  · intro q h
    have hb : q + 17 ≤ 67 := h.2.1
    have hall : ∀ q, q < 51 →
        ¬ header_line_at (after_header_length sample_x_date) q (bytes "If-Modified-Since") := by
      decide
    exact hall q (by omega) h
  · cases HAVE_TCP_NOPUSH <;> decide

/-! ## Scans and the bytes after the header block -/

theorem slice_take_eq (str : List Nat) (j n m : Nat) (h : j + n ≤ m) :
    slice (str.take m) j n = slice str j n := by
  unfold slice
  rw [List.drop_take, List.take_take]
  congr 1
  omega

theorem slice_congr (s1 s2 : List Nat) (m j n : Nat) (h : s1.take m = s2.take m)
    (hj : j + n ≤ m) : slice s1 j n = slice s2 j n := by
  rw [← slice_take_eq s1 j n m hj, ← slice_take_eq s2 j n m hj, h]

theorem byte_at_congr (s1 s2 : List Nat) (m j : Nat) (h : s1.take m = s2.take m)
    (hj : j < m) : byte_at s1 j = byte_at s2 j := by
  have e1 := slice_getD s1 j 1 0 (by omega)
  have e2 := slice_getD s2 j 1 0 (by omega)
  rw [Nat.add_zero] at e1 e2
  rw [← e1, ← e2, slice_congr s1 s2 m j 1 h (by omega)]

theorem strcasect_congr (s1 s2 : List Nat) (m q : Nat) (lit : List Nat)
    (h : s1.take m = s2.take m) (hq : q ≤ m) :
    SW_STRCASECT (s1.drop q) (ptrdiff_size m q) lit =
      SW_STRCASECT (s2.drop q) (ptrdiff_size m q) lit := by
  have e : ptrdiff_size m q = m - q := by simp [ptrdiff_size, hq]
  unfold SW_STRCASECT
  rw [e]
  by_cases hl : lit.length ≤ m - q
  · have := slice_congr s1 s2 m q lit.length h (by omega)
    unfold slice at this
    rw [this]
  · simp [hl]

/-- The scan of `swHttpRequest_get_date_if_modified_since` reads no byte at or
after `pe`. -/
theorem get_date_loop_congr (s1 s2 : List Nat) (pe : Nat) (h : s1.take pe = s2.take pe) :
    ∀ (fuel p state date : Nat),
      get_date_loop s1 pe fuel p state date = get_date_loop s2 pe fuel p state date := by
  intro fuel
  induction fuel with
  | zero => intro p state date; rfl
  | succ f ih =>
    intro p state date
    by_cases hp : p < pe
    · match state with
      | 0 =>
        simp only [get_date_loop, if_pos hp, strcasect_congr s1 s2 pe p _ h (by omega), ih]
      | 1 =>
        simp only [get_date_loop, if_pos hp, byte_at_congr s1 s2 pe p h hp, ih]
      | 2 =>
        have hs : slice s1 date (p - date) = slice s2 date (p - date) := by
          by_cases hd : date ≤ p
          · exact slice_congr s1 s2 pe date (p - date) h (by omega)
          · have e : p - date = 0 := by omega
            rw [e, slice_zero, slice_zero]
        simp only [get_date_loop, if_pos hp, strcasect_congr s1 s2 pe p _ h (by omega), ih, hs]
      | n + 3 =>
        simp only [get_date_loop, if_pos hp, ih]
    · cases state with
      | zero => simp only [get_date_loop, if_neg hp]
      | succ n => simp only [get_date_loop, if_neg hp]

/-- What `swHttpRequest_get_date_if_modified_since` returns does not depend on
the bytes at or after `header_length`. -/
theorem get_date_ignores_body (request : swHttpRequest) (str2 : List Nat)
    (h : request.buffer.str.take request.header_length = str2.take request.header_length) :
    swHttpRequest_get_date_if_modified_since
        { request with buffer := { request.buffer with str := str2 } } =
      swHttpRequest_get_date_if_modified_since request := by
  unfold swHttpRequest_get_date_if_modified_since
  exact (get_date_loop_congr _ _ _ h _ _ _ _).symm

theorem atoi_digits_append_nul (b r : List Nat) :
    ∀ acc, atoi_digits (b ++ 0 :: r) acc = atoi_digits b acc := by
  induction b with
  | nil => intro acc; simp [atoi_digits, isdigit]
  | cons c b ih =>
    intro acc
    by_cases hc : isdigit c = true
    · show atoi_digits (c :: (b ++ 0 :: r)) acc = atoi_digits (c :: b) acc
      simp only [atoi_digits, hc, if_true]
      exact ih _
    · show atoi_digits (c :: (b ++ 0 :: r)) acc = atoi_digits (c :: b) acc
      simp only [atoi_digits, hc, if_false, Bool.false_eq_true]

/-- The libc `atoi` reads no byte after a NUL. -/
theorem atoi_append_nul (a r : List Nat) : atoi (a ++ 0 :: r) = atoi a := by
  induction a with
  | nil => simp [atoi, List.dropWhile, isspace, atoi_digits, isdigit]
  | cons c a ih =>
    by_cases hs : isspace c = true
    · have e1 : atoi (c :: a ++ 0 :: r) = atoi (a ++ 0 :: r) := by
        simp only [atoi, List.cons_append, List.dropWhile_cons, hs, if_true]
      have e2 : atoi (c :: a) = atoi a := by
        simp only [atoi, List.dropWhile_cons, hs, if_true]
      rw [e1, e2, ih]
    · have e := atoi_digits_append_nul (c :: a) r 0
      rw [List.cons_append] at e
      simp only [atoi, List.cons_append, List.dropWhile_cons, hs, if_false, Bool.false_eq_true,
        atoi_digits_append_nul a r, e]

theorem take_succ_append_nul (A R : List Nat) :
    (A ++ 0 :: R).take (A.length + 1) = A ++ [0] := by
  rw [List.take_append_eq_append_take]
  simp

theorem skip_space_append_nul (A R : List Nat) (q : Nat) (hq : q ≤ A.length) :
    skip_space (A ++ 0 :: R) q ≤ A.length := by
  unfold skip_space
  by_cases e : q = A.length
  · subst e
    have : byte_at (A ++ 0 :: R) A.length = 0 := by
      simp [byte_at, List.getD, List.getElem?_append_right (le_refl A.length)]
    rw [this]
    simp
  · split <;> omega

/-- One pass of the loop of `swHttpRequest_get_header_info` on two memories
that agree up to the NUL at `pe`: the same `p`, the same `got_len`, and the
same `content_length` and `keep_alive` when they were the same before. -/
theorem body_congr (A R1 R2 : List Nat) (pe p : Nat) (hA : A.length = pe) (hp : p < pe)
    (r1 r2 : swHttpRequest) (g : Bool)
    (hcl : r1.content_length = r2.content_length) (hka : r1.keep_alive = r2.keep_alive) :
    (get_header_info_body (A ++ 0 :: R2) pe p r2 g).1 =
        (get_header_info_body (A ++ 0 :: R1) pe p r1 g).1
      ∧ (get_header_info_body (A ++ 0 :: R2) pe p r2 g).2.2 =
          (get_header_info_body (A ++ 0 :: R1) pe p r1 g).2.2
      ∧ (get_header_info_body (A ++ 0 :: R2) pe p r2 g).2.1.content_length =
          (get_header_info_body (A ++ 0 :: R1) pe p r1 g).2.1.content_length
      ∧ (get_header_info_body (A ++ 0 :: R2) pe p r2 g).2.1.keep_alive =
          (get_header_info_body (A ++ 0 :: R1) pe p r1 g).2.1.keep_alive := by
  have ht : (A ++ 0 :: R2).take (pe + 1) = (A ++ 0 :: R1).take (pe + 1) := by
    rw [← hA, take_succ_append_nul, take_succ_append_nul]
  have hb : ∀ j, j ≤ pe → byte_at (A ++ 0 :: R2) j = byte_at (A ++ 0 :: R1) j :=
    fun j hj => byte_at_congr _ _ (pe + 1) j ht (by omega)
  have hc : ∀ q lit, q ≤ pe →
      SW_STRCASECT ((A ++ 0 :: R2).drop q) (ptrdiff_size pe q) lit =
        SW_STRCASECT ((A ++ 0 :: R1).drop q) (ptrdiff_size pe q) lit := by
    intro q lit hq
    have ht2 : (A ++ 0 :: R2).take pe = (A ++ 0 :: R1).take pe := by
      rw [← hA]; simp
    exact strcasect_congr _ _ pe q lit ht2 hq
  have ha : ∀ q, q ≤ pe → atoi ((A ++ 0 :: R2).drop q) = atoi ((A ++ 0 :: R1).drop q) := by
    intro q hq
    rw [List.drop_append_of_le_length (by omega), List.drop_append_of_le_length (by omega),
      atoi_append_nul, atoi_append_nul]
  have hsk : ∀ q, q ≤ pe → skip_space (A ++ 0 :: R2) q = skip_space (A ++ 0 :: R1) q := by
    intro q hq
    unfold skip_space
    rw [hb q hq]
  have hskle : ∀ q, q ≤ pe → skip_space (A ++ 0 :: R1) q ≤ pe := by
    intro q hq
    have := skip_space_append_nul A R1 q (by omega)
    omega
  have hbound : ∀ q lit, q ≤ pe →
      SW_STRCASECT ((A ++ 0 :: R1).drop q) (ptrdiff_size pe q) lit = true →
      q + lit.length ≤ pe := by
    intro q lit hq h
    have h1 := ((strcasect_iff _ q _ lit).mp h).1
    have e : ptrdiff_size pe q = pe - q := by simp [ptrdiff_size, hq]
    rw [e] at h1
    omega
  have l15 : (bytes "Content-Length:").length = 15 := by decide
  have l11 : (bytes "Connection:").length = 11 := by decide
  have hc1 : ∀ lit, SW_STRCASECT ((A ++ 0 :: R2).drop (p + 1)) (ptrdiff_size pe (p + 1)) lit =
      SW_STRCASECT ((A ++ 0 :: R1).drop (p + 1)) (ptrdiff_size pe (p + 1)) lit :=
    fun lit => hc (p + 1) lit (by omega)
  simp only [get_header_info_body, hb p (by omega), hb (p - 1) (by omega), hc1]
  by_cases hline : (byte_at (A ++ 0 :: R1) p == 10 && byte_at (A ++ 0 :: R1) (p - 1) == 13) = true
  · rw [if_pos hline, if_pos hline]
    by_cases h1 : SW_STRCASECT ((A ++ 0 :: R1).drop (p + 1)) (ptrdiff_size pe (p + 1))
        (bytes "Content-Length:") = true
    · have hq := hbound (p + 1) _ (by omega) h1
      rw [l15] at hq
      rw [if_pos h1, if_pos h1]
      simp only [hsk (p + 1 + 15) hq, ha _ (hskle _ hq), true_and]
      exact hka.symm
    · rw [if_neg h1, if_neg h1]
      by_cases h2 : SW_STRCASECT ((A ++ 0 :: R1).drop (p + 1)) (ptrdiff_size pe (p + 1))
          (bytes "Connection:") = true
      · have hq := hbound (p + 1) _ (by omega) h2
        rw [l11] at hq
        rw [if_pos h2, if_pos h2]
        simp only [hsk (p + 1 + 11) hq, hc _ _ (hskle _ hq)]
        by_cases h3 : SW_STRCASECT ((A ++ 0 :: R1).drop (skip_space (A ++ 0 :: R1) (p + 1 + 11)))
            (ptrdiff_size pe (skip_space (A ++ 0 :: R1) (p + 1 + 11))) (bytes "keep-alive") = true
        · rw [if_pos h3, if_pos h3]
          exact ⟨rfl, rfl, hcl.symm, rfl⟩
        · rw [if_neg h3, if_neg h3]
          exact ⟨rfl, rfl, hcl.symm, hka.symm⟩
      · rw [if_neg h2, if_neg h2]
        exact ⟨rfl, rfl, hcl.symm, hka.symm⟩
  · rw [if_neg hline, if_neg hline]
    exact ⟨rfl, rfl, hcl.symm, hka.symm⟩

/-- The loop of `swHttpRequest_get_header_info` reads no byte after the NUL at
`pe`. -/
theorem loop_congr (A R1 R2 : List Nat) (pe : Nat) (hA : A.length = pe) :
    ∀ (fuel p : Nat) (r1 r2 : swHttpRequest) (g : Bool),
      r1.content_length = r2.content_length → r1.keep_alive = r2.keep_alive →
      (get_header_info_loop (A ++ 0 :: R2) pe fuel p r2 g).2 =
          (get_header_info_loop (A ++ 0 :: R1) pe fuel p r1 g).2
        ∧ (get_header_info_loop (A ++ 0 :: R2) pe fuel p r2 g).1.content_length =
            (get_header_info_loop (A ++ 0 :: R1) pe fuel p r1 g).1.content_length
        ∧ (get_header_info_loop (A ++ 0 :: R2) pe fuel p r2 g).1.keep_alive =
            (get_header_info_loop (A ++ 0 :: R1) pe fuel p r1 g).1.keep_alive := by
  intro fuel
  induction fuel with
  | zero =>
    intro p r1 r2 g hcl hka
    exact ⟨rfl, hcl.symm, hka.symm⟩
  | succ f ih =>
    intro p r1 r2 g hcl hka
    by_cases hp : p < pe
    · obtain ⟨b1, b2, b3, b4⟩ := body_congr A R1 R2 pe p hA hp r1 r2 g hcl hka
      rw [loop_step _ _ _ _ _ _ hp, loop_step _ _ _ _ _ _ hp, b1, b2]
      exact ih _ _ _ _ b3.symm b4.symm
    · rw [loop_done _ _ _ _ _ _ (by omega), loop_done _ _ _ _ _ _ (by omega)]
      exact ⟨rfl, hcl.symm, hka.symm⟩

/-- What `swHttpRequest_get_header_info` returns and the `content_length` and
`keep_alive` it leaves do not depend on the bytes at or after
`header_length`. -/
theorem get_header_info_ignores_body (request : swHttpRequest) (str2 : List Nat)
    (h4 : 4 ≤ request.header_length)
    (hl1 : request.header_length ≤ request.buffer.str.length)
    (hl2 : request.header_length ≤ str2.length)
    (h : request.buffer.str.take request.header_length = str2.take request.header_length) :
    (swHttpRequest_get_header_info
        { request with buffer := { request.buffer with str := str2 } }).1 =
        (swHttpRequest_get_header_info request).1
      ∧ (swHttpRequest_get_header_info
          { request with buffer := { request.buffer with str := str2 } }).2.content_length =
          (swHttpRequest_get_header_info request).2.content_length
      ∧ (swHttpRequest_get_header_info
          { request with buffer := { request.buffer with str := str2 } }).2.keep_alive =
          (swHttpRequest_get_header_info request).2.keep_alive := by
  have hpe1 : request.header_length - 4 < request.buffer.str.length := by omega
  have hpe2 : request.header_length - 4 < str2.length := by omega
  have ht : request.buffer.str.take (request.header_length - 4) =
      str2.take (request.header_length - 4) := by
    have := congrArg (List.take (request.header_length - 4)) h
    rw [List.take_take, List.take_take, Nat.min_eq_left (by omega)] at this
    exact this
  have hA : (request.buffer.str.take (request.header_length - 4)).length =
      request.header_length - 4 := by
    rw [List.length_take]; omega
  obtain ⟨c1, c2, c3⟩ := loop_congr (request.buffer.str.take (request.header_length - 4))
    (request.buffer.str.drop (request.header_length - 4 + 1))
    (str2.drop (request.header_length - 4 + 1)) (request.header_length - 4) hA
    (request.header_length - 4 - request.buffer.offset) (request.buffer.offset + 1)
    request { request with buffer := { request.buffer with str := str2 } } false rfl rfl
  unfold swHttpRequest_get_header_info
  simp only []
  rw [set_eq_take_cons _ _ _ hpe1, set_eq_take_cons str2 _ _ hpe2, ← ht]
  rw [c1]
  exact ⟨rfl, c2, c3⟩

set_option maxRecDepth 100000 in
/-- C21: the buffers
`POST /a HTTP/1.1\r\nContent-Length: 100\r\n\r\n` followed by 25 bytes `a` and
the same header block followed by `a\r\nExpect: 100-continue\r\n` agree on
the 41 bytes before `header_length` and the parse state is the same, yet
`swHttpRequest_has_expect_header` returns 0 for the first and 1 for the second:
its scan runs to the end of the buffer. With the body
`\r\nContent-Length: 99\r\nConnection: keep-alive\r\nIf-Modified-Since: x\r\n`
header extraction and conditional-GET extraction give what they give for the
first buffer. -/
theorem expect_header_found_in_body :
    after_header_length sample_expect_body =
        { after_header_length sample_plain_body with
            buffer := { (after_header_length sample_plain_body).buffer with
                          str := sample_expect_body } }
      ∧ (after_header_length sample_plain_body).header_length = 41
      ∧ sample_expect_body.take 41 = sample_plain_body.take 41
      ∧ swHttpRequest_has_expect_header (after_header_length sample_plain_body) = 0
      ∧ swHttpRequest_has_expect_header (after_header_length sample_expect_body) = 1
      ∧ sample_header_body.take 41 = sample_plain_body.take 41
      ∧ (swHttpRequest_get_header_info (after_header_length sample_plain_body)).1 = SW_OK
      ∧ (swHttpRequest_get_header_info (after_header_length sample_header_body)).1 = SW_OK
      ∧ (swHttpRequest_get_header_info (after_header_length sample_plain_body)).2.content_length
          = 100
      ∧ (swHttpRequest_get_header_info (after_header_length sample_header_body)).2.content_length
          = 100
      ∧ (swHttpRequest_get_header_info (after_header_length sample_plain_body)).2.keep_alive
          = false
      ∧ (swHttpRequest_get_header_info (after_header_length sample_header_body)).2.keep_alive
          = false
      ∧ swHttpRequest_get_date_if_modified_since (after_header_length sample_plain_body) = []
      ∧ swHttpRequest_get_date_if_modified_since (after_header_length sample_header_body) = [] := by
  decide

end SwooleHttp
